import Mathlib

/-!
# RTMP chunk codec of the streaming server

A shallow embedding of the receive side of the chunk codec
(`protocol/rtmp/stack.cpp`: `ReadBasicHeader`, `ReadMessageHeader`,
`ReadMessagePayload`, `RecvInterlacedMessage`), of the byte readers of
`common/buffer.cpp`, and of the chunk emitter of `protocol/rtmp_stack.cpp`
(`chunk_header_c0`, `chunk_header_c3`, `DoSimpleSend`); of the protocol engine
around them (`RecvMessage`, `OnRecvMessage`, `DecodeMessage`, `DoDecodeMessage`,
`SendAndFreePacket`, `OnSendPacket`); of publisher admission
(`protocol/rtmp/connection.cpp`: `Publishing`, `acquire_publish`,
`release_publish`); of `FastBuffer::Grow` and `FastBuffer::SetBuffer` at the
level of their cursors; of timestamp correction (`protocol/rtmp/jitter.cpp`);
of the plain handshake (`SimpleHandshake::HandshakeWithClient`); and of the
parsing of the tcUrl (`DiscoveryTcUrl`, `Request::Strip`,
`Request::GetStreamUrl`).  The older `ReadMessagePayload` of
`protocol/rtmp_stack.cpp` is in the namespace `rtmp_stack`.

Conventions.
* A byte is a natural number below 256; a `char` is represented by its unsigned
  byte value.  Masks of low bits (`x & 0x3f`) are remainders, right shifts are
  quotients; both read the same bits whether `char` is signed or not.
* Signed C integers (`int`, `int32_t`, `int64_t`) are integers; conversions to a
  fixed width are written with an explicit remainder.
* The host is little-endian, as the `pp[k]` byte accesses of the sources assume.
* C++ methods that mutate their object return the new object next to the
  result code; a failing call returns the object as it stands at the `return`.
-/

namespace rtmp

/-! ## Result codes and constants -/

/-- Result codes.  The named constructors are the codes the modelled functions
return by name.  `reader_error` and `writer_error` stand for any code handed up by the
`IBufferReader` and the `IBufferWriter` (the socket layer), which never produce
a protocol code.
`rs_assert_failed` is not a code of the source: it marks a run that stops in a
failed `rs_assert`, in a null dereference or in a step past the end of a
container. -/
inductive ErrorCode where
  | ERROR_SUCCESS
  | ERROR_RTMP_CHUNK_START
  | ERROR_RTMP_BASIC_HEADER
  | ERROR_READER_BUFFER_OVERFLOW
  | ERROR_KERNEL_STREAM_INIT
  | reader_error (code : Nat)
  | writer_error (code : Nat)
  | rs_assert_failed
  | ERROR_RTMP_AMF3_NO_SUPPORT
  | ERROR_RTMP_NO_REQUEST
  | ERROR_RTMP_MESSAGE_DECODE
  | ERROR_RTMP_MESSAGE_ENCODE
  | ERROR_RTMP_AMF0_DECODE
  | ERROR_RTMP_AMF0_ENCODE
  | ERROR_SYSTEM_STREAM_BUSY
  | ERROR_RTMP_PLAIN_REQUIRED
  | ERROR_RTMP_REQ_TCURL
  | ERROR_RTMP_STREAM_NAME_EMPTY
  deriving DecidableEq, Repr

/-- Default receive buffer size, 128 KiB (`common/buffer.cpp`). -/
abbrev RS_DEFAULT_RECV_BUFFER_SIZE : Int := 131072

/-- Largest socket buffer size, 256 KiB (`common/buffer.cpp`). -/
abbrev RS_MAX_SOCKER_BUFFER_SIZE : Int := 262144

/-- Modelled from the spec: the constants header (`protocol/rtmp/defines.hpp`) is
not part of the sources; fmt values are the 2-bit chunk types 0..3. -/
abbrev RTMP_FMT_TYPE0 : Nat := 0

/-- Modelled from the spec: chunk type 1 (7-byte message header). -/
abbrev RTMP_FMT_TYPE1 : Nat := 1

/-- Modelled from the spec: chunk type 2 (3-byte message header). -/
abbrev RTMP_FMT_TYPE2 : Nat := 2

/-- Modelled from the spec: chunk type 3 (no message header). -/
abbrev RTMP_FMT_TYPE3 : Nat := 3

/-- Modelled from the spec: cid 2 is reserved for protocol-control messages. -/
abbrev RTMP_CID_PROTOCOL_CONTROL : Nat := 2

/-- Modelled from the spec: the 24-bit timestamp value that announces an
extended timestamp. -/
abbrev RTMP_EXTENDED_TIMESTAMP : Int := 0xFFFFFF

/-- Modelled from the spec: size of the fixed chunk-stream cache (cids 0..63). -/
abbrev RTMP_CHUNK_STREAM_CHCAHE : Nat := 64

/-- Modelled from the spec: default chunk size in both directions. -/
abbrev RTMP_DEFAULT_CHUNK_SIZE : Int := 128

/-- Modelled from the spec: the chunk size a `SetChunkSizePacket` holds when it
is constructed (the constants header is not part of the sources; 128 is the
protocol's default chunk size). -/
abbrev RTMP_PROTOCOL_CHUNK_SIZE : Int := 128

/-- Modelled from the spec: the smallest inbound chunk size that is accepted. -/
abbrev RTMP_MIN_CHUNK_SIZE : Int := 128

/-- Modelled from the spec: the upper end of the inbound chunk size range. -/
abbrev RTMP_MAX_CHUNK_SIZE : Int := 65536

/-- Modelled from the spec: message type of `set_chunk_size` (the constants
header is not part of the sources; the message type values are those of the
spec and of RTMP 1.0). -/
abbrev RTMP_MSG_SET_CHUNK_SIZE : Int := 1

/-- Modelled from the spec: message type of the user control messages. -/
abbrev RTMP_MSG_USER_CONTROL_MESSAGE : Int := 4

/-- Modelled from the spec: message type of `window_ack_size`. -/
abbrev RTMP_MSG_WINDOW_ACK_SIZE : Int := 5

/-- Modelled from the spec: message type of `set_peer_bandwidth`. -/
abbrev RTMP_MSG_SET_PEER_BANDWIDTH : Int := 6

/-- Modelled from the spec: message type of an AMF3 data message. -/
abbrev RTMP_MSG_AMF3_DATA : Int := 15

/-- Modelled from the spec: message type of an AMF3 command message. -/
abbrev RTMP_MSG_AMF3_COMMAND : Int := 17

/-- Modelled from the spec: message type of an AMF0 data message. -/
abbrev RTMP_MSG_AMF0_DATA : Int := 18

/-- Modelled from the spec: message type of an AMF0 command message. -/
abbrev RTMP_MSG_AMF0_COMMAND : Int := 20

/-- Modelled from the spec: the command name `connect` (the header with the
`RTMP_AMF0_COMMAND_*` names is not part of the sources; each macro is the
command name of the spec's list that it is called after). -/
abbrev RTMP_AMF0_COMMAND_CONNECT : String := "connect"

/-- Modelled from the spec: the command name `createStream`. -/
abbrev RTMP_AMF0_COMMAND_CREATE_STREAM : String := "createStream"

/-- Modelled from the spec: the command name `releaseStream`. -/
abbrev RTMP_AMF0_COMMAND_RELEASE_STREAM : String := "releaseStream"

/-- Modelled from the spec: the command name `FCPublish`. -/
abbrev RTMP_AMF0_COMMAND_FC_PUBLISH : String := "FCPublish"

/-- Modelled from the spec: the command name `unpublish`. -/
abbrev RTMP_AMF0_COMMAND_UNPUBLISH : String := "unpublish"

/-- Modelled from the spec: the command name `publish`. -/
abbrev RTMP_AMF0_COMMAND_PUBLISH : String := "publish"

/-- Modelled from the spec: the data name `onMetadata`. -/
abbrev RTMP_AMF0_COMMAND_ON_METADATA : String := "onMetadata"

/-- Modelled from the spec: the data name `@setDataFrame`. -/
abbrev RTMP_AMF0_COMMAND_SET_DATAFRAME : String := "@setDataFrame"

/-- Modelled from the spec: the response name `_result`. -/
abbrev RTMP_AMF0_COMMAND_RESULT : String := "_result"

/-- Modelled from the spec: the response name `_error`. -/
abbrev RTMP_AMF0_COMMAND_ERROR : String := "_error"

/-- The C macro `rs_min(a, b) = (a < b) ? a : b` of `common/utils.hpp`. -/
def rs_min (a b : Int) : Int := if a < b then a else b

/-- The `int32_t` whose 32-bit pattern is the unsigned value `u` (two's
complement). -/
def to_int32 (u : Nat) : Int :=
  if u % 4294967296 < 2147483648 then ((u % 4294967296 : Nat) : Int)
  else ((u % 4294967296 : Nat) : Int) - 4294967296

/-- The `int8_t` whose 8-bit pattern is the unsigned value `u` (two's
complement). -/
def to_int8 (u : Nat) : Int :=
  if u % 256 < 128 then ((u % 256 : Nat) : Int) else ((u % 256 : Nat) : Int) - 256

/-- The `int16_t` whose 16-bit pattern is the unsigned value `u` (two's
complement). -/
def to_int16 (u : Nat) : Int :=
  if u % 65536 < 32768 then ((u % 65536 : Nat) : Int) else ((u % 65536 : Nat) : Int) - 65536

/-- The `int64_t` whose 64-bit pattern is the unsigned value `u` (two's
complement). -/
def to_int64 (u : Nat) : Int :=
  if u % 18446744073709551616 < 9223372036854775808 then
    ((u % 18446744073709551616 : Nat) : Int)
  else ((u % 18446744073709551616 : Nat) : Int) - 18446744073709551616

/-- The C macro `rs_max(a, b) = (a < b) ? b : a` of `common/utils.hpp`. -/
def rs_max (a b : Int) : Int := if a < b then b else a

/-- Byte `pp[k]` of the little-endian object representation of a two's
complement integer. -/
def byte_of (v : Int) (k : Nat) : Nat := ((v / 256 ^ k) % 256).toNat

/-! ## `BufferReader` (`common/buffer.cpp`) -/

/-- A `BufferReader` over a byte block: `buf_` is the block, `pos` is the
offset `ptr_ - buf_` of the cursor and `size_` the size given to `Initialize`.
The accessors below are only called where `Require` holds, so their `rs_assert`
is not represented; a byte outside the block reads as 0. -/
structure BufferReader where
  buf_ : List Nat
  pos : Nat
  size_ : Int
  deriving DecidableEq, Repr

namespace BufferReader

/-- The byte `ptr_[i]`. -/
def at_ (m : BufferReader) (i : Nat) : Nat := m.buf_.getD (m.pos + i) 0

/-- `BufferReader::Initialize(b, nb)` on a non-null block: fails when `nb <= 0`. -/
def Initialize (b : List Nat) (nb : Int) : ErrorCode × BufferReader :=
  if nb ≤ 0 then (.ERROR_KERNEL_STREAM_INIT, ⟨[], 0, 0⟩)
  else (.ERROR_SUCCESS, ⟨b, 0, nb⟩)

/-- `BufferReader::Pos`. -/
def Pos (m : BufferReader) : Int := m.pos

/-- `BufferReader::Require(required_size)`. -/
def Require (m : BufferReader) (required_size : Int) : Bool :=
  decide (required_size ≤ m.size_ - m.pos)

/-- `BufferReader::Skip(size)`; the callers never move the cursor before the
start of the block. -/
def Skip (m : BufferReader) (size : Int) : BufferReader :=
  { m with pos := ((m.pos : Int) + size).toNat }

/-- `BufferReader::Read1Bytes`: one byte as `int8_t`. -/
def Read1Bytes (m : BufferReader) : Int × BufferReader :=
  (to_int8 (m.at_ 0), { m with pos := m.pos + 1 })

/-- `BufferReader::Read3Bytes`: `pp[2]`, `pp[1]`, `pp[0]` of an `int32_t` that
starts as 0, in reading order. -/
def Read3Bytes (m : BufferReader) : Int × BufferReader :=
  (((m.at_ 0 * 65536 + m.at_ 1 * 256 + m.at_ 2 : Nat) : Int), { m with pos := m.pos + 3 })

/-- `BufferReader::Read4Bytes`: `pp[3]`, `pp[2]`, `pp[1]`, `pp[0]` of an
`int32_t`, in reading order. -/
def Read4Bytes (m : BufferReader) : Int × BufferReader :=
  (to_int32 (m.at_ 0 * 16777216 + m.at_ 1 * 65536 + m.at_ 2 * 256 + m.at_ 3),
    { m with pos := m.pos + 4 })

/-- `BufferReader::Read2Bytes`: `pp[1]`, `pp[0]` of an `int16_t`, in reading
order. -/
def Read2Bytes (m : BufferReader) : Int × BufferReader :=
  (to_int16 (m.at_ 0 * 256 + m.at_ 1), { m with pos := m.pos + 2 })

/-- `BufferReader::Read8Bytes`: `pp[7]` down to `pp[0]` of an `int64_t`, in
reading order. -/
def Read8Bytes (m : BufferReader) : Int × BufferReader :=
  (to_int64 (m.at_ 0 * 72057594037927936 + m.at_ 1 * 281474976710656 +
      m.at_ 2 * 1099511627776 + m.at_ 3 * 4294967296 + m.at_ 4 * 16777216 +
      m.at_ 5 * 65536 + m.at_ 6 * 256 + m.at_ 7),
    { m with pos := m.pos + 8 })

/-- The stores `*ptr_++ = x` for the bytes `x` of `data`, in order (also the
`memcpy(ptr_, data, n); ptr_ += n` of `WriteBytes`): the bytes replace those of
the block from the cursor on, and the cursor moves behind them.  The writers
are only called where `Require` holds, so the bytes lie inside the block. -/
def store (m : BufferReader) (data : List Nat) : BufferReader :=
  { m with
      buf_ := m.buf_.take m.pos ++ data ++ m.buf_.drop (m.pos + data.length)
      pos := m.pos + data.length }

/-- `BufferReader::Write1Bytes(value)`: the byte of an `int8_t`. -/
def Write1Bytes (m : BufferReader) (value : Int) : BufferReader :=
  m.store [byte_of value 0]

/-- `BufferReader::Write2Bytes(value)`: `pp[1]`, `pp[0]` of an `int16_t`. -/
def Write2Bytes (m : BufferReader) (value : Int) : BufferReader :=
  m.store [byte_of value 1, byte_of value 0]

/-- `BufferReader::Write3Bytes(value)`: `pp[2]`, `pp[1]`, `pp[0]` of an
`int32_t`. -/
def Write3Bytes (m : BufferReader) (value : Int) : BufferReader :=
  m.store [byte_of value 2, byte_of value 1, byte_of value 0]

/-- `BufferReader::Write4Bytes(value)`: `pp[3]` down to `pp[0]` of an
`int32_t`. -/
def Write4Bytes (m : BufferReader) (value : Int) : BufferReader :=
  m.store [byte_of value 3, byte_of value 2, byte_of value 1, byte_of value 0]

/-- `BufferReader::Write8Bytes(value)`: `pp[7]` down to `pp[0]` of an
`int64_t`. -/
def Write8Bytes (m : BufferReader) (value : Int) : BufferReader :=
  m.store [byte_of value 7, byte_of value 6, byte_of value 5, byte_of value 4,
    byte_of value 3, byte_of value 2, byte_of value 1, byte_of value 0]

/-- `BufferReader::WriteBytes(data, size)`: the first `size` bytes of `data`. -/
def WriteBytes (m : BufferReader) (data : List Nat) (size : Int) : BufferReader :=
  m.store (data.take size.toNat)

end BufferReader

/-! ## The receive buffer as the protocol engine sees it -/

/-- The `FastBuffer` `in_buffer_` together with the reader `rw_` behind it, as
seen through `Grow`, `Read1Bytes`, `ReadSlice` and `Skip`.

`data` holds every byte of the connection in arrival order (those already in
the buffer and those the reader still delivers), `pos` is the read cursor
`start_`, `capacity_` the buffer capacity and `reader_ret` the code the reader
returns once it has no byte left.  How many bytes a single `Read` delivers does
not influence any result below and is not represented. -/
structure InBuffer where
  capacity_ : Int
  data : List Nat
  pos : Nat
  reader_ret : Nat

namespace InBuffer

/-- The bytes from the read cursor on. -/
def unread (b : InBuffer) : List Nat := b.data.drop b.pos

/-- `FastBuffer::Grow(r, required_size)`.

The buffered bytes never exceed the capacity, so a request above the capacity
is never already satisfied: after compaction `free_space = capacity_ -
used_space`, and the guard `free_space < required_size - used_space` reports
the overflow before the reader is called.  A request within the capacity reads
until enough bytes are there and fails only with the reader's code. -/
def Grow (b : InBuffer) (required_size : Int) : ErrorCode :=
  if required_size ≤ 0 then .rs_assert_failed
  else if b.capacity_ < required_size then .ERROR_READER_BUFFER_OVERFLOW
  else if (b.unread.length : Int) < required_size then .reader_error b.reader_ret
  else .ERROR_SUCCESS

/-- `FastBuffer::Read1Bytes`: the byte at the cursor, which advances by one. -/
def Read1Bytes (b : InBuffer) : Nat × InBuffer :=
  (b.unread.headD 0, { b with pos := b.pos + 1 })

/-- `FastBuffer::ReadSlice(size)`: the next `size` bytes, the cursor advances. -/
def ReadSlice (b : InBuffer) (size : Int) : List Nat × InBuffer :=
  (b.unread.take size.toNat, { b with pos := b.pos + size.toNat })

/-- The buffer with the cursor `k` bytes further (what `k` successive
`Read1Bytes` or a `ReadSlice(k)` leave behind). -/
def advance (b : InBuffer) (k : Nat) : InBuffer := { b with pos := b.pos + k }

/-- `FastBuffer::Skip(size)`: moves the cursor, backwards for a negative size. -/
def Skip (b : InBuffer) (size : Int) : InBuffer :=
  { b with pos := ((b.pos : Int) + size).toNat }

end InBuffer

/-! ## Messages and chunk streams -/

/-- Modelled from the spec: the class declaration (`protocol/rtmp/message.hpp`) is
not part of the sources; the fields and their types follow the data model
(`message_type` is an unsigned byte, the others signed integers) and the
constructor `MessageHeader::MessageHeader` of `protocol/rtmp_stack.cpp`. -/
structure MessageHeader where
  timestamp_delta : Int
  payload_length : Int
  message_type : Int
  stream_id : Int
  timestamp : Int
  perfer_cid : Int
  deriving DecidableEq, Repr

/-- `MessageHeader::MessageHeader()`: every field 0. -/
def MessageHeader.new : MessageHeader := ⟨0, 0, 0, 0, 0, 0⟩

/-- A `CommonMessage`: `payload` is `none` for a null pointer, otherwise the
bytes written so far into the block made by `CreatePayload` (the part of the
block not yet written has no defined content). -/
structure CommonMessage where
  header : MessageHeader
  size : Int
  payload : Option (List Nat)
  deriving DecidableEq, Repr

/-- `CommonMessage::CommonMessage()`: size 0, no payload block. -/
def CommonMessage.new : CommonMessage := ⟨MessageHeader.new, 0, none⟩

/-- A `ChunkStream`; `msg` is `none` for a null pointer. -/
structure ChunkStream where
  cid : Nat
  fmt : Nat
  msg : Option CommonMessage
  header : MessageHeader
  extended_timestamp : Bool
  msg_count : Nat
  deriving DecidableEq, Repr

/-- `ChunkStream::ChunkStream(cid)` followed by `cs->header.perfer_cid = cid`, as
every creation site in `Protocol` does. -/
def ChunkStream.new (cid : Nat) : ChunkStream :=
  { cid := cid, fmt := 0, msg := none,
    header := { MessageHeader.new with perfer_cid := cid },
    extended_timestamp := false, msg_count := 0 }

/-! ## The chunk codec, receive side (`protocol/rtmp/stack.cpp`) -/

/-- `Protocol::ReadBasicHeader(fmt, cid)`; `fmt` and `cid` are the reference
parameters, returned after the result code and the buffer. -/
def ReadBasicHeader (in_buffer : InBuffer) (fmt cid : Nat) :
    ErrorCode × InBuffer × Nat × Nat :=
  if in_buffer.Grow 1 ≠ .ERROR_SUCCESS then (in_buffer.Grow 1, in_buffer, fmt, cid)
  else
    let r := in_buffer.Read1Bytes
    let cid := r.1 % 64
    let fmt := (r.1 / 64) % 4
    if cid > 1 then (.ERROR_SUCCESS, r.2, fmt, cid)
    else if cid = 0 then
      if r.2.Grow 1 ≠ .ERROR_SUCCESS then (r.2.Grow 1, r.2, fmt, cid)
      else
        let r1 := r.2.Read1Bytes
        (.ERROR_SUCCESS, r1.2, fmt, 64 + r1.1 % 256)
    else if cid = 1 then
      if r.2.Grow 2 ≠ .ERROR_SUCCESS then (r.2.Grow 2, r.2, fmt, cid)
      else
        let r1 := r.2.Read1Bytes
        let r2 := r1.2.Read1Bytes
        (.ERROR_SUCCESS, r2.2, fmt, 64 + r1.1 % 256 + (r2.1 % 256) * 256)
    else (.ERROR_RTMP_BASIC_HEADER, r.2, fmt, cid)

/-- The table `mh_sizes[] = {11, 7, 3, 0}` of `ReadMessageHeader`. -/
def mh_sizes : List Int := [11, 7, 3, 0]

/-- The block `if (fmt <= RTMP_FMT_TYPE2) { ... } else { ... }` of
`Protocol::ReadMessageHeader`: reads the message header fields from a slice of
`mh_size` bytes, or, for fmt 3, adds the stored delta when a message starts. -/
def ReadMessageHeader_fields (in_buffer : InBuffer) (cs : ChunkStream) (fmt : Nat)
    (is_first_msg_of_chunk : Bool) (mh_size : Int) : ErrorCode × InBuffer × ChunkStream :=
  if fmt ≤ RTMP_FMT_TYPE2 then
    let s := in_buffer.ReadSlice mh_size
    let i := BufferReader.Initialize s.1 mh_size
    if i.1 ≠ .ERROR_SUCCESS then (i.1, s.2, cs)
    else
      let r1 := i.2.Read3Bytes
      let h1 := { cs.header with timestamp_delta := r1.1 }
      let ext := decide (h1.timestamp_delta ≥ RTMP_EXTENDED_TIMESTAMP)
      let h2 :=
        if ext then h1
        else if fmt = RTMP_FMT_TYPE0 then { h1 with timestamp := h1.timestamp_delta }
        else { h1 with timestamp := h1.timestamp + h1.timestamp_delta }
      if fmt ≤ RTMP_FMT_TYPE1 then
        let r2 := r1.2.Read3Bytes
        let payload_length := r2.1
        if is_first_msg_of_chunk = false ∧ h2.payload_length ≠ payload_length then
          (.ERROR_RTMP_CHUNK_START, s.2, { cs with header := h2, extended_timestamp := ext })
        else
          let r3 := r2.2.Read1Bytes
          let h3 := { h2 with payload_length := payload_length, message_type := r3.1 % 256 }
          let h4 :=
            if fmt ≤ RTMP_FMT_TYPE0 then { h3 with stream_id := r3.2.Read4Bytes.1 } else h3
          (.ERROR_SUCCESS, s.2, { cs with header := h4, extended_timestamp := ext })
      else (.ERROR_SUCCESS, s.2, { cs with header := h2, extended_timestamp := ext })
  else if is_first_msg_of_chunk = true ∧ cs.extended_timestamp = false then
    (.ERROR_SUCCESS, in_buffer,
      { cs with header := { cs.header with
          timestamp := cs.header.timestamp + cs.header.timestamp_delta } })
  else (.ERROR_SUCCESS, in_buffer, cs)

/-- The block `if (cs->extended_timestamp) { ... }` of
`Protocol::ReadMessageHeader`: the 4-byte extended timestamp, with the rewind
for continuation chunks that do not carry it. -/
def ReadMessageHeader_extended (in_buffer : InBuffer) (cs : ChunkStream)
    (is_first_msg_of_chunk : Bool) : ErrorCode × InBuffer × ChunkStream :=
  if cs.extended_timestamp = true then
    if in_buffer.Grow 4 ≠ .ERROR_SUCCESS then (in_buffer.Grow 4, in_buffer, cs)
    else
      let s := in_buffer.ReadSlice 4
      let i := BufferReader.Initialize s.1 4
      let timestamp : Int := (i.2.Read4Bytes.1 % 4294967296) % 2147483648
      let chunk_timestamp : Int := cs.header.timestamp % 4294967296
      if is_first_msg_of_chunk = false ∧ chunk_timestamp > 0 ∧ chunk_timestamp ≠ timestamp then
        (.ERROR_SUCCESS, s.2.Skip (-4), cs)
      else
        (.ERROR_SUCCESS, s.2, { cs with header := { cs.header with timestamp := timestamp } })
  else (.ERROR_SUCCESS, in_buffer, cs)

/-- The last three statements of `Protocol::ReadMessageHeader`:
`cs->header.timestamp &= 0x7ffffff` (the constant has seven hex digits: the
remainder modulo 2^27), `cs->msg->header = cs->header` and `cs->msg_count++`. -/
def ReadMessageHeader_finish (cs : ChunkStream) : ChunkStream :=
  let header := { cs.header with timestamp := cs.header.timestamp % 134217728 }
  { cs with
      header := header
      msg := cs.msg.map (fun m => { m with header := header })
      msg_count := cs.msg_count + 1 }

/-- `Protocol::ReadMessageHeader(cs, fmt)`. -/
def ReadMessageHeader (in_buffer : InBuffer) (cs : ChunkStream) (fmt : Nat) :
    ErrorCode × InBuffer × ChunkStream :=
  let is_first_msg_of_chunk := cs.msg.isNone
  if cs.msg_count = 0 ∧ fmt ≠ RTMP_FMT_TYPE0 ∧
      ¬ (cs.cid = RTMP_CID_PROTOCOL_CONTROL ∧ fmt = RTMP_FMT_TYPE1) then
    (.ERROR_RTMP_CHUNK_START, in_buffer, cs)
  else if cs.msg.isSome = true ∧ fmt = RTMP_FMT_TYPE0 then
    (.ERROR_RTMP_CHUNK_START, in_buffer, cs)
  else
    let cs1 := { cs with msg := some (cs.msg.getD CommonMessage.new) }
    let mh_size := mh_sizes.getD fmt 0
    if mh_size > 0 ∧ in_buffer.Grow mh_size ≠ .ERROR_SUCCESS then
      (in_buffer.Grow mh_size, in_buffer, cs1)
    else
      let f := ReadMessageHeader_fields in_buffer cs1 fmt is_first_msg_of_chunk mh_size
      if f.1 ≠ .ERROR_SUCCESS then f
      else
        let e := ReadMessageHeader_extended f.2.1 f.2.2 is_first_msg_of_chunk
        if e.1 ≠ .ERROR_SUCCESS then e
        else (.ERROR_SUCCESS, e.2.1, ReadMessageHeader_finish e.2.2)

/-- `Protocol::ReadMessagePayload(cs, pmsg)`; the last component is `*pmsg`
(`none` when the call leaves it untouched).  `cs->msg` is dereferenced, so a
null `cs->msg` stops the run. -/
def ReadMessagePayload (in_chunk_size_ : Int) (in_buffer : InBuffer) (cs : ChunkStream) :
    ErrorCode × InBuffer × ChunkStream × Option CommonMessage :=
  if cs.header.payload_length ≤ 0 then
    (.ERROR_SUCCESS, in_buffer, { cs with msg := none }, cs.msg)
  else
    match cs.msg with
    | none => (.rs_assert_failed, in_buffer, cs, none)
    | some msg =>
      let payload_size := rs_min (cs.header.payload_length - msg.size) in_chunk_size_
      let msg1 : CommonMessage :=
        if msg.payload.isNone then { msg with payload := some [] } else msg
      if in_buffer.Grow payload_size ≠ .ERROR_SUCCESS then
        (in_buffer.Grow payload_size, in_buffer, { cs with msg := some msg1 }, none)
      else
        let s := in_buffer.ReadSlice payload_size
        let msg2 : CommonMessage :=
          { msg1 with
              payload := some ((msg1.payload.getD []).take msg1.size.toNat ++ s.1)
              size := msg1.size + payload_size }
        if cs.header.payload_length = msg2.size then
          (.ERROR_SUCCESS, s.2, { cs with msg := none }, some msg2)
        else (.ERROR_SUCCESS, s.2, { cs with msg := some msg2 }, none)

namespace rtmp_stack

/-- The older `Protocol::ReadMessagePayload(cs, pmsg)` of
`protocol/rtmp_stack.cpp`.  The value first given to `payload_size`,
`cs->header.payload_length - cs->msg->size`, is overwritten by
`rs_min(cs->header.payload_length, in_chunk_size_)` before it is used.
`CreatePayload(payload_size)` makes a block of `payload_size` bytes; a
`CommonMessage` holds the bytes written so far, and the size of its block is
not part of it. -/
def ReadMessagePayload (in_chunk_size_ : Int) (in_buffer : InBuffer) (cs : ChunkStream) :
    ErrorCode × InBuffer × ChunkStream × Option CommonMessage :=
  if cs.header.payload_length ≤ 0 then
    (.ERROR_SUCCESS, in_buffer, { cs with msg := none }, cs.msg)
  else
    match cs.msg with
    | none => (.rs_assert_failed, in_buffer, cs, none)
    | some msg =>
      let payload_size := rs_min cs.header.payload_length in_chunk_size_
      let msg1 : CommonMessage :=
        if msg.payload.isNone then { msg with payload := some [] } else msg
      if in_buffer.Grow payload_size ≠ .ERROR_SUCCESS then
        (in_buffer.Grow payload_size, in_buffer, { cs with msg := some msg1 }, none)
      else
        let s := in_buffer.ReadSlice payload_size
        let msg2 : CommonMessage :=
          { msg1 with
              payload := some ((msg1.payload.getD []).take msg1.size.toNat ++ s.1)
              size := msg1.size + payload_size }
        if cs.header.payload_length = msg2.size then
          (.ERROR_SUCCESS, s.2, { cs with msg := none }, some msg2)
        else (.ERROR_SUCCESS, s.2, { cs with msg := some msg2 }, none)

end rtmp_stack

/-! ## Packets (`protocol/rtmp_stack.cpp`) -/

/-- `MessageHeader::IsAMF0Command`. -/
def MessageHeader.IsAMF0Command (h : MessageHeader) : Bool :=
  decide (h.message_type = RTMP_MSG_AMF0_COMMAND)

/-- `MessageHeader::IsAMF0Data`. -/
def MessageHeader.IsAMF0Data (h : MessageHeader) : Bool :=
  decide (h.message_type = RTMP_MSG_AMF0_DATA)

/-- `MessageHeader::IsAMF3Command`. -/
def MessageHeader.IsAMF3Command (h : MessageHeader) : Bool :=
  decide (h.message_type = RTMP_MSG_AMF3_COMMAND)

/-- `MessageHeader::IsAMF3Data`. -/
def MessageHeader.IsAMF3Data (h : MessageHeader) : Bool :=
  decide (h.message_type = RTMP_MSG_AMF3_DATA)

/-- `MessageHeader::IsSetChunkSize`. -/
def MessageHeader.IsSetChunkSize (h : MessageHeader) : Bool :=
  decide (h.message_type = RTMP_MSG_SET_CHUNK_SIZE)

/-- The packet classes for AMF0 command and data messages that
`Protocol::DoDecodeMessage` instantiates. -/
inductive Amf0PacketClass where
  | ConnectAppPacket
  | ConnectAppResPacket
  | CreateStreamPacket
  | CreateStreamResPacket
  | FMLEStartPacket
  | FMLEStartResPacket
  | PublishPacket
  | OnMetadataPacket
  deriving DecidableEq, Repr

/-- A `Packet` object by its dynamic class.  `base` is the class `Packet`
itself, which has no fields; the protocol-control packets carry their fields; of an AMF0
command or data packet only the class is represented (its fields are AMF0
values, read and written by the AMF0 codec alone). -/
inductive Packet where
  | base
  | SetChunkSizePacket (chunk_size : Int)
  | SetWindowAckSizePacket (ackowledgement_window_size : Int)
  | SetPeerBandwidthPacket (bandwidth : Int) (type : Int)
  | amf0 (cls : Amf0PacketClass)
  deriving DecidableEq, Repr

/-- Modelled from the spec: the AMF0 codec (`protocol/amf/amf0.cpp`; the sources
hold its declarations only) and the virtual methods of the AMF0 command and
data packets, which are built on it.  `AMF0ReadString` and `AMF0ReadNumber`
return the result code, the manager after the call and the value read (a
transaction id is a `double`; it is used as a table key only and is represented
by the rational it denotes); `Decode` returns the result code and the manager;
`Encode` returns the result code, `psize` and `ppayload` of `Packet::Encode`. -/
structure Amf0Codec where
  AMF0ReadString : BufferReader → ErrorCode × BufferReader × String
  AMF0ReadNumber : BufferReader → ErrorCode × BufferReader × Rat
  Decode : Amf0PacketClass → BufferReader → ErrorCode × BufferReader
  Encode : Amf0PacketClass → ErrorCode × Int × Option (List Nat)
  GetMessageType : Amf0PacketClass → Int
  GetPreferCID : Amf0PacketClass → Int

namespace Packet

/-- The virtual `Decode(manager)`: `Packet::Decode` returns success and reads
nothing; `SetChunkSizePacket::Decode` and `SetWindowAckSizePacket::Decode`
read a 4-byte value; `SetPeerBandwidthPacket` inherits `Packet::Decode`. -/
def Decode (codec : Amf0Codec) (packet : Packet) (manager : BufferReader) :
    ErrorCode × BufferReader × Packet :=
  match packet with
  | .base => (.ERROR_SUCCESS, manager, packet)
  | .SetChunkSizePacket _ =>
    if manager.Require 4 = false then (.ERROR_RTMP_MESSAGE_DECODE, manager, packet)
    else (.ERROR_SUCCESS, manager.Read4Bytes.2, .SetChunkSizePacket manager.Read4Bytes.1)
  | .SetWindowAckSizePacket _ =>
    if manager.Require 4 = false then (.ERROR_RTMP_MESSAGE_DECODE, manager, packet)
    else (.ERROR_SUCCESS, manager.Read4Bytes.2, .SetWindowAckSizePacket manager.Read4Bytes.1)
  | .SetPeerBandwidthPacket _ _ => (.ERROR_SUCCESS, manager, packet)
  | .amf0 cls => ((codec.Decode cls manager).1, (codec.Decode cls manager).2, packet)

/-- The virtual `GetMessageType()`. -/
def GetMessageType (codec : Amf0Codec) : Packet → Int
  | .base => 0
  | .SetChunkSizePacket _ => RTMP_MSG_SET_CHUNK_SIZE
  | .SetWindowAckSizePacket _ => RTMP_MSG_WINDOW_ACK_SIZE
  | .SetPeerBandwidthPacket _ _ => RTMP_MSG_SET_PEER_BANDWIDTH
  | .amf0 cls => codec.GetMessageType cls

/-- The virtual `GetPreferCID()`. -/
def GetPreferCID (codec : Amf0Codec) : Packet → Int
  | .base => 0
  | .SetChunkSizePacket _ => RTMP_CID_PROTOCOL_CONTROL
  | .SetWindowAckSizePacket _ => RTMP_CID_PROTOCOL_CONTROL
  | .SetPeerBandwidthPacket _ _ => RTMP_CID_PROTOCOL_CONTROL
  | .amf0 cls => codec.GetPreferCID cls

/-- `Packet::Encode(psize, ppayload)` with the virtual `GetSize` and
`EncodePacket` of the class: the result code, `psize` and `ppayload` (`none`
for the null pointer).  `Write4Bytes` stores `pp[3]`, `pp[2]`, `pp[1]`, `pp[0]`
and `Write1Bytes` the low byte. -/
def Encode (codec : Amf0Codec) : Packet → ErrorCode × Int × Option (List Nat)
  | .base => (.ERROR_SUCCESS, 0, none)
  | .SetChunkSizePacket chunk_size =>
    (.ERROR_SUCCESS, 4,
      some [byte_of chunk_size 3, byte_of chunk_size 2, byte_of chunk_size 1,
        byte_of chunk_size 0])
  | .SetWindowAckSizePacket w =>
    (.ERROR_SUCCESS, 4, some [byte_of w 3, byte_of w 2, byte_of w 1, byte_of w 0])
  | .SetPeerBandwidthPacket bandwidth type =>
    (.ERROR_SUCCESS, 5,
      some [byte_of bandwidth 3, byte_of bandwidth 2, byte_of bandwidth 1, byte_of bandwidth 0,
        byte_of type 0])
  | .amf0 cls => codec.Encode cls

end Packet

/-- `AckWindowSize`: the acknowledgement window and the two counters. -/
structure AckWindowSize where
  window : Int
  sequence_number : Int
  recv_bytes : Int
  deriving DecidableEq, Repr

/-- `AckWindowSize::AckWindowSize()`: every field 0. -/
def AckWindowSize.new : AckWindowSize := ⟨0, 0, 0⟩

/-- The write half of the `IProtocolReaderWriter` `rw_`: `sent` is every byte
written so far, `ok_writes` the number of `WriteEv` calls that will still
succeed and `write_ret` the code returned by the calls after those. -/
structure Writer where
  sent : List Nat
  ok_writes : Nat
  write_ret : Nat
  deriving DecidableEq, Repr

/-- `IBufferWriter::WriteEv(iov, iov_size, nwrite)`: a successful call writes
the blocks of `iov` completely and in order. -/
def Writer.WriteEv (w : Writer) (iov : List (List Nat)) : ErrorCode × Writer :=
  match w.ok_writes with
  | 0 => (.writer_error w.write_ret, w)
  | n + 1 => (.ERROR_SUCCESS, { w with sent := w.sent ++ iov.flatten, ok_writes := n })

/-- The state of a `Protocol`: `cs_cache_` is the array of
`RTMP_CHUNK_STREAM_CHCAHE` chunk streams indexed by cid (only indices below
that bound are used), `chunk_streams_` the `std::map` from cid to chunk stream,
`rw_` the write half of the connection (its read half is behind `in_buffer_`),
`requests_` the `std::map` from transaction id to command name (`none` for a
key that is not in the map) and `manual_response_queue_` the `std::vector` of
deferred packets. -/
structure Protocol where
  in_chunk_size_ : Int
  out_chunk_size_ : Int
  in_buffer_ : InBuffer
  cs_cache_ : Nat → ChunkStream
  chunk_streams_ : Nat → Option ChunkStream
  rw_ : Writer
  in_ack_size_ : AckWindowSize
  out_ack_size_ : AckWindowSize
  requests_ : Rat → Option String
  manual_response_queue_ : List Packet

/-- `Protocol::Protocol(rw)`: default chunk sizes, an empty buffer of the default
capacity in front of a reader that will deliver `input` and then return
`reader_ret`, the write half `rw`, one chunk stream per cached cid, and the
members the constructor leaves to their own constructors (acknowledgement
windows of 0, an empty request table and an empty response queue). -/
def Protocol.new (input : List Nat) (reader_ret : Nat) (rw : Writer) : Protocol :=
  { in_chunk_size_ := RTMP_DEFAULT_CHUNK_SIZE
    out_chunk_size_ := RTMP_DEFAULT_CHUNK_SIZE
    in_buffer_ := ⟨RS_DEFAULT_RECV_BUFFER_SIZE, input, 0, reader_ret⟩
    cs_cache_ := fun cid => ChunkStream.new cid
    chunk_streams_ := fun _ => none
    rw_ := rw
    in_ack_size_ := AckWindowSize.new
    out_ack_size_ := AckWindowSize.new
    requests_ := fun _ => none
    manual_response_queue_ := [] }

/-- The chunk stream `RecvInterlacedMessage` selects for `cid`: the cache slot
below `RTMP_CHUNK_STREAM_CHCAHE`, else the map entry, created when missing. -/
def Protocol.find_cs (p : Protocol) (cid : Nat) : ChunkStream :=
  if cid < RTMP_CHUNK_STREAM_CHCAHE then p.cs_cache_ cid
  else (p.chunk_streams_ cid).getD (ChunkStream.new cid)

/-- The table after the selected chunk stream, which the source updates in
place through its pointer, has become `cs`. -/
def Protocol.store_cs (p : Protocol) (cid : Nat) (cs : ChunkStream) : Protocol :=
  if cid < RTMP_CHUNK_STREAM_CHCAHE then
    { p with cs_cache_ := Function.update p.cs_cache_ cid cs }
  else { p with chunk_streams_ := Function.update p.chunk_streams_ cid (some cs) }

/-- `Protocol::RecvInterlacedMessage(pmsg)`; the last component is `*pmsg`. -/
def RecvInterlacedMessage (p : Protocol) : ErrorCode × Protocol × Option CommonMessage :=
  let bh := ReadBasicHeader p.in_buffer_ 0 0
  if bh.1 ≠ .ERROR_SUCCESS then (bh.1, { p with in_buffer_ := bh.2.1 }, none)
  else
    let fmt := bh.2.2.1
    let cid := bh.2.2.2
    let cs := p.find_cs cid
    let mh := ReadMessageHeader bh.2.1 cs fmt
    if mh.1 ≠ .ERROR_SUCCESS then
      (mh.1, { p.store_cs cid mh.2.2 with in_buffer_ := mh.2.1 }, none)
    else
      let pl := ReadMessagePayload p.in_chunk_size_ mh.2.1 mh.2.2
      if pl.1 ≠ .ERROR_SUCCESS then
        (pl.1, { p.store_cs cid pl.2.2.1 with in_buffer_ := pl.2.1 }, none)
      else (.ERROR_SUCCESS, { p.store_cs cid pl.2.2.1 with in_buffer_ := pl.2.1 }, pl.2.2.2)

/-- Runs `RecvInterlacedMessage` `n` times in a row, as the loop of
`Protocol::RecvMessage` does while no complete message has arrived; returns the
result code and `*pmsg` of every call, in order, and the final state. -/
def recv_chunks : Nat → Protocol → List (ErrorCode × Option CommonMessage) × Protocol
  | 0, p => ([], p)
  | n + 1, p =>
    let r := RecvInterlacedMessage p
    let rs := recv_chunks n r.2.1
    ((r.1, r.2.2) :: rs.1, rs.2)


/-! ## The chunk emitter (`protocol/rtmp_stack.cpp`) -/

/-- `chunk_header_c0(perfer_cid, timestamp, payload_length, message_type,
stream_id, buf)`: the bytes written to `buf` (the return value is their
number).  `timestamp` is the `uint32_t` parameter. -/
def chunk_header_c0 (perfer_cid : Int) (timestamp : Int) (payload_length : Int)
    (message_type : Int) (stream_id : Int) : List Nat :=
  [(perfer_cid % 64).toNat]
  ++ (if timestamp < RTMP_EXTENDED_TIMESTAMP then
        [byte_of timestamp 2, byte_of timestamp 1, byte_of timestamp 0]
      else [0xff, 0xff, 0xff])
  ++ [byte_of payload_length 2, byte_of payload_length 1, byte_of payload_length 0]
  ++ [byte_of message_type 0]
  ++ [byte_of stream_id 3, byte_of stream_id 2, byte_of stream_id 1, byte_of stream_id 0]
  ++ (if timestamp ≥ RTMP_EXTENDED_TIMESTAMP then
        [byte_of timestamp 3, byte_of timestamp 2, byte_of timestamp 1, byte_of timestamp 0]
      else [])

/-- `chunk_header_c3(perfer_cid, timestamp, buf)`: the bytes written to `buf`;
`0xC0 | (0x3f & perfer_cid)` sets the two top bits above the six low ones. -/
def chunk_header_c3 (perfer_cid : Int) (timestamp : Int) : List Nat :=
  [192 + (perfer_cid % 64).toNat]
  ++ (if timestamp ≥ RTMP_EXTENDED_TIMESTAMP then
        [byte_of timestamp 3, byte_of timestamp 2, byte_of timestamp 1, byte_of timestamp 0]
      else [])

/-- The loop `while (p < end)` of `Protocol::DoSimpleSend`, `p` being the offset
of the C pointer `p` from `payload`; `none` when `fuel` iterations do not reach
the end of the loop. -/
def DoSimpleSend_loop (out_chunk_size_ : Int) (header : MessageHeader) (payload : List Nat)
    (size : Int) : Nat → Int → Writer → Option (ErrorCode × Writer)
  | 0, _, _ => none
  | fuel + 1, p, w =>
    if p < size then
      let c0c3 :=
        if p = 0 then
          chunk_header_c0 header.perfer_cid (header.timestamp % 4294967296)
            header.payload_length header.message_type header.stream_id
        else chunk_header_c3 header.perfer_cid (header.timestamp % 4294967296)
      let payload_size := rs_min (size - p) out_chunk_size_
      let r := w.WriteEv [c0c3, (payload.drop p.toNat).take payload_size.toNat]
      if r.1 ≠ .ERROR_SUCCESS then some (r.1, r.2)
      else DoSimpleSend_loop out_chunk_size_ header payload size fuel (p + payload_size) r.2
    else some (.ERROR_SUCCESS, w)

/-- `Protocol::DoSimpleSend(header, payload, size)`, with `fuel` bounding the
number of loop tests. -/
def DoSimpleSend (fuel : Nat) (p : Protocol) (header : MessageHeader) (payload : List Nat)
    (size : Int) : Option (ErrorCode × Protocol) :=
  (DoSimpleSend_loop p.out_chunk_size_ header payload size fuel 0 p.rw_).map
    (fun r => (r.1, { p with rw_ := r.2 }))

/-! ## The protocol engine (`protocol/rtmp/stack.cpp`) -/

/-- `Protocol::ResponseAckMessage()`: both paths return success and nothing is
sent. -/
def ResponseAckMessage (p : Protocol) : ErrorCode :=
  if p.in_ack_size_.window ≤ 0 then .ERROR_SUCCESS else .ERROR_SUCCESS

/-- The statement pair `*ppacket = packet = new X; return packet->Decode(manager);`
of `Protocol::DoDecodeMessage`, `packet` being the object `new X` makes. -/
def DoDecodeMessage_decode (codec : Amf0Codec) (packet : Packet) (manager : BufferReader) :
    ErrorCode × BufferReader × Option Packet :=
  ((packet.Decode codec manager).1, (packet.Decode codec manager).2.1,
    some (packet.Decode codec manager).2.2)

/-- `Protocol::DoDecodeMessage(header, manager, ppacket)`: the result code, the
manager after the call and `*ppacket` (`none` for the null pointer it holds
when no packet is made). -/
def DoDecodeMessage (codec : Amf0Codec) (p : Protocol) (header : MessageHeader)
    (manager : BufferReader) : ErrorCode × BufferReader × Option Packet :=
  if header.IsAMF3Command = true ∨ header.IsAMF3Data = true then
    (.ERROR_RTMP_AMF3_NO_SUPPORT, manager, none)
  else if header.IsAMF0Command = true ∨ header.IsAMF0Data = true then
    let s := codec.AMF0ReadString manager
    if s.1 ≠ .ERROR_SUCCESS then (s.1, s.2.1, none)
    else
      let command := s.2.2
      if command = RTMP_AMF0_COMMAND_RESULT ∨ command = RTMP_AMF0_COMMAND_ERROR then
        let n := codec.AMF0ReadNumber s.2.1
        if n.1 ≠ .ERROR_SUCCESS then (n.1, n.2.1, none)
        else
          let transaction_id := n.2.2
          let m := n.2.1.Skip (-1 * n.2.1.Pos)
          match p.requests_ transaction_id with
          | none => (.ERROR_RTMP_NO_REQUEST, m, none)
          | some request_name =>
            if request_name = RTMP_AMF0_COMMAND_CONNECT then
              DoDecodeMessage_decode codec (.amf0 .ConnectAppResPacket) m
            else if request_name = RTMP_AMF0_COMMAND_CREATE_STREAM then
              DoDecodeMessage_decode codec (.amf0 .CreateStreamResPacket) m
            else if request_name = RTMP_AMF0_COMMAND_RELEASE_STREAM ∨
                request_name = RTMP_AMF0_COMMAND_FC_PUBLISH ∨
                request_name = RTMP_AMF0_COMMAND_UNPUBLISH then
              DoDecodeMessage_decode codec (.amf0 .FMLEStartResPacket) m
            else (.ERROR_RTMP_NO_REQUEST, m, none)
      else
        let m := s.2.1.Skip (-1 * s.2.1.Pos)
        if command = RTMP_AMF0_COMMAND_CONNECT then
          DoDecodeMessage_decode codec (.amf0 .ConnectAppPacket) m
        else if command = RTMP_AMF0_COMMAND_RELEASE_STREAM ∨
            command = RTMP_AMF0_COMMAND_FC_PUBLISH ∨
            command = RTMP_AMF0_COMMAND_UNPUBLISH then
          DoDecodeMessage_decode codec (.amf0 .FMLEStartPacket) m
        else if command = RTMP_AMF0_COMMAND_CREATE_STREAM then
          DoDecodeMessage_decode codec (.amf0 .CreateStreamPacket) m
        else if command = RTMP_AMF0_COMMAND_PUBLISH then
          DoDecodeMessage_decode codec (.amf0 .PublishPacket) m
        else if command = RTMP_AMF0_COMMAND_ON_METADATA ∨
            command = RTMP_AMF0_COMMAND_SET_DATAFRAME then
          DoDecodeMessage_decode codec (.amf0 .OnMetadataPacket) m
        else DoDecodeMessage_decode codec .base m
  else if header.IsSetChunkSize = true then
    DoDecodeMessage_decode codec (.SetChunkSizePacket RTMP_PROTOCOL_CHUNK_SIZE) manager
  else (.ERROR_SUCCESS, manager, none)

/-- `Protocol::DecodeMessage(msg, ppacket)`: the result code and `*ppacket`,
which stays null unless `DoDecodeMessage` succeeds. -/
def DecodeMessage (codec : Amf0Codec) (p : Protocol) (msg : CommonMessage) :
    ErrorCode × Option Packet :=
  match msg.payload with
  | none => (.ERROR_KERNEL_STREAM_INIT, none)
  | some payload =>
    let i := BufferReader.Initialize payload msg.size
    if i.1 ≠ .ERROR_SUCCESS then (i.1, none)
    else
      let d := DoDecodeMessage codec p msg.header i.2
      if d.1 ≠ .ERROR_SUCCESS then (d.1, none) else (.ERROR_SUCCESS, d.2.2)

/-- `Protocol::OnRecvMessage(msg)`.  The first `switch` decodes the three
protocol-control types and returns for every other type; the second `switch`
has the single case `RTMP_MSG_SET_CHUNK_SIZE`, whose `dynamic_cast` is
dereferenced unchecked. -/
def OnRecvMessage (codec : Amf0Codec) (p : Protocol) (msg : CommonMessage) :
    ErrorCode × Protocol :=
  if ResponseAckMessage p ≠ .ERROR_SUCCESS then (ResponseAckMessage p, p)
  else if msg.header.message_type = RTMP_MSG_SET_CHUNK_SIZE ∨
      msg.header.message_type = RTMP_MSG_USER_CONTROL_MESSAGE ∨
      msg.header.message_type = RTMP_MSG_WINDOW_ACK_SIZE then
    let d := DecodeMessage codec p msg
    if d.1 ≠ .ERROR_SUCCESS then (d.1, p)
    else if msg.header.message_type = RTMP_MSG_SET_CHUNK_SIZE then
      match d.2 with
      | some (.SetChunkSizePacket chunk_size) =>
        if chunk_size < RTMP_MIN_CHUNK_SIZE ∨ chunk_size > RTMP_MAX_CHUNK_SIZE then
          if chunk_size < RTMP_MIN_CHUNK_SIZE then (.ERROR_RTMP_CHUNK_START, p)
          else (.ERROR_SUCCESS, { p with in_chunk_size_ := chunk_size })
        else (.ERROR_SUCCESS, { p with in_chunk_size_ := chunk_size })
      | _ => (.rs_assert_failed, p)
    else (.ERROR_SUCCESS, p)
  else (.ERROR_SUCCESS, p)

/-- `Protocol::RecvMessage(pmsg)`: the result code, the state and `*pmsg`;
`fuel` bounds the number of iterations of `while (true)`, and `none` means that
`fuel` iterations do not leave the loop. -/
def RecvMessage (codec : Amf0Codec) :
    Nat → Protocol → Option (ErrorCode × Protocol × Option CommonMessage)
  | 0, _ => none
  | fuel + 1, p =>
    let r := RecvInterlacedMessage p
    if r.1 ≠ .ERROR_SUCCESS then some (r.1, r.2.1, none)
    else
      match r.2.2 with
      | none => RecvMessage codec fuel r.2.1
      | some msg =>
        if msg.size ≤ 0 ∨ msg.header.payload_length ≤ 0 then RecvMessage codec fuel r.2.1
        else if (OnRecvMessage codec r.2.1 msg).1 ≠ .ERROR_SUCCESS then
          RecvMessage codec fuel (OnRecvMessage codec r.2.1 msg).2
        else some (.ERROR_SUCCESS, (OnRecvMessage codec r.2.1 msg).2, some msg)

/-- `Protocol::OnSendPacket(header, packet)`: the single case
`RTMP_MSG_WINDOW_ACK_SIZE`, whose `dynamic_cast` is dereferenced unchecked. -/
def OnSendPacket (p : Protocol) (header : MessageHeader) (packet : Packet) :
    ErrorCode × Protocol :=
  if header.message_type = RTMP_MSG_WINDOW_ACK_SIZE then
    match packet with
    | .SetWindowAckSizePacket w =>
      (.ERROR_SUCCESS,
        { p with out_ack_size_ := { p.out_ack_size_ with window := w % 4294967296 } })
    | _ => (.rs_assert_failed, p)
  else (.ERROR_SUCCESS, p)

/-- `Protocol::DoSendAndFreePacket(packet, stream_id)`; `fuel` is the fuel of
`DoSimpleSend`. -/
def DoSendAndFreePacket (codec : Amf0Codec) (fuel : Nat) (p : Protocol) (packet : Packet)
    (stream_id : Int) : Option (ErrorCode × Protocol) :=
  let e := packet.Encode codec
  if e.1 ≠ .ERROR_SUCCESS then some (e.1, p)
  else
    match e.2.2 with
    | none => some (.ERROR_SUCCESS, p)
    | some payload =>
      if e.2.1 ≤ 0 then some (.ERROR_SUCCESS, p)
      else
        let header : MessageHeader :=
          { MessageHeader.new with
              payload_length := e.2.1
              message_type := packet.GetMessageType codec % 256
              perfer_cid := packet.GetPreferCID codec
              stream_id := stream_id }
        match DoSimpleSend fuel p header payload e.2.1 with
        | none => none
        | some r => if r.1 = .ERROR_SUCCESS then some (OnSendPacket r.2 header packet) else some r

/-- The loop of `Protocol::ManualResponseFlush()`: `kept` are the queue elements
before the iterator and the second list those from the iterator on.  An
iteration erases the element at the iterator, which then stands at the next
element, sends the erased packet, and ends with `it++`: the next element stays
in the queue, and when there is none the iterator steps past the end. -/
def ManualResponseFlush_loop (codec : Amf0Codec) (fuel : Nat) :
    List Packet → List Packet → Protocol → Option (ErrorCode × Protocol)
  | kept, [], p => some (.ERROR_SUCCESS, { p with manual_response_queue_ := kept })
  | kept, [packet], p =>
    match DoSendAndFreePacket codec fuel { p with manual_response_queue_ := kept } packet 0 with
    | none => none
    | some r => if r.1 ≠ .ERROR_SUCCESS then some r else some (.rs_assert_failed, r.2)
  | kept, packet :: next :: rest, p =>
    match DoSendAndFreePacket codec fuel
        { p with manual_response_queue_ := kept ++ next :: rest } packet 0 with
    | none => none
    | some r =>
      if r.1 ≠ .ERROR_SUCCESS then some r
      else ManualResponseFlush_loop codec fuel (kept ++ [next]) rest r.2

/-- `Protocol::ManualResponseFlush()`. -/
def ManualResponseFlush (codec : Amf0Codec) (fuel : Nat) (p : Protocol) :
    Option (ErrorCode × Protocol) :=
  ManualResponseFlush_loop codec fuel [] p.manual_response_queue_ p

/-- `Protocol::SendAndFreePacket(packet, stream_id)`. -/
def SendAndFreePacket (codec : Amf0Codec) (fuel : Nat) (p : Protocol) (packet : Packet)
    (stream_id : Int) : Option (ErrorCode × Protocol) :=
  match DoSendAndFreePacket codec fuel p packet stream_id with
  | none => none
  | some r => if r.1 ≠ .ERROR_SUCCESS then some r else ManualResponseFlush codec fuel r.2

/-! ## Publisher admission (`protocol/rtmp/connection.cpp`) -/

/-- Modelled from the spec: the state of a `Source` that publisher admission
touches (`source.hpp` declares the members; the method bodies are not part of
the sources).  The cached messages are byte blocks, `none` for a null pointer. -/
structure Source where
  can_publish_ : Bool
  cache_metadata_ : Option (List Nat)
  cache_sh_video_ : Option (List Nat)
  cache_sh_audio_ : Option (List Nat)
  source_id_ : Int
  prev_source_id_ : Int
  die_at_ : Int
  deriving DecidableEq, Repr

/-- The calls `Connection::Publishing` makes on the source and on its receive
thread, as recorded in a run. -/
inductive PublishCall where
  | OnPublish
  | OnUnpublish
  | recv_thread_Start
  | recv_thread_Stop
  deriving DecidableEq, Repr

/-- Modelled from the spec: what `Connection::Publishing` takes from its
surroundings: the vhost setting `GetVhostIsEdge`, the code the handler returns
to `Source::OnPublish`, the id and the time `OnPublish` and `OnUnpublish` read,
and the run of the receive thread inside `do_publishing` (its result code and
what it does to the source). -/
structure PublishEnv where
  vhost_is_edge : Bool
  handler_ret : ErrorCode
  context_id : Int
  die_at : Int
  recv_thread_run : Source → ErrorCode × Source

/-- A source together with the calls recorded so far. -/
structure PublishState where
  source : Source
  calls : List PublishCall
  deriving DecidableEq, Repr

/-- Modelled from the spec: `Source::CanPublish(is_edge)` is true iff no
publisher is active; it changes nothing. -/
def Source.CanPublish (s : Source) (_is_edge : Bool) : Bool := s.can_publish_

/-- Modelled from the spec: `Source::OnPublish()` flips `can_publish_` to
false, takes a new source id, remembering the previous one, and notifies the
handler, whose code it returns. -/
def Source.OnPublish (env : PublishEnv) (s : Source) : ErrorCode × Source :=
  (env.handler_ret,
    { s with can_publish_ := false, prev_source_id_ := s.source_id_,
             source_id_ := env.context_id })

/-- Modelled from the spec: `Source::OnUnpublish()` clears the audio and video
caches (not the metadata cache), sets `die_at_`, notifies the handler and flips
`can_publish_` back to true. -/
def Source.OnUnpublish (env : PublishEnv) (s : Source) : Source :=
  { s with cache_sh_video_ := none, cache_sh_audio_ := none, die_at_ := env.die_at,
           can_publish_ := true }

/-- `Connection::acquire_publish(source, is_edge)`. -/
def acquire_publish (env : PublishEnv) (w : PublishState) (is_edge : Bool) :
    ErrorCode × PublishState :=
  if w.source.CanPublish is_edge = false then (.ERROR_SYSTEM_STREAM_BUSY, w)
  else if is_edge then (.ERROR_SUCCESS, w)
  else
    ((Source.OnPublish env w.source).1,
      { source := (Source.OnPublish env w.source).2, calls := w.calls ++ [.OnPublish] })

/-- `Connection::release_publish(source, is_edge)`. -/
def release_publish (env : PublishEnv) (w : PublishState) (is_edge : Bool) : PublishState :=
  if is_edge then w
  else { source := Source.OnUnpublish env w.source, calls := w.calls ++ [.OnUnpublish] }

/-- `Connection::do_publishing(source, recv_thread)`: starts the receive thread
and waits on it; the thread's run is `env.recv_thread_run`. -/
def do_publishing (env : PublishEnv) (w : PublishState) : ErrorCode × PublishState :=
  ((env.recv_thread_run w.source).1,
    { source := (env.recv_thread_run w.source).2, calls := w.calls ++ [.recv_thread_Start] })

/-- `Connection::Publishing(source)`. -/
def Publishing (env : PublishEnv) (w : PublishState) : ErrorCode × PublishState :=
  let a := acquire_publish env w false
  let r :=
    if a.1 = .ERROR_SUCCESS then
      let d := do_publishing env a.2
      (d.1, { d.2 with calls := d.2.calls ++ [.recv_thread_Stop] })
    else a
  if r.1 ≠ .ERROR_SYSTEM_STREAM_BUSY then (r.1, release_publish env r.2 env.vhost_is_edge)
  else r

/-! ## `FastBuffer` at the level of its cursors (`common/buffer.cpp`) -/

/-- An `IBufferReader`: `pending` are the bytes of the connection that no
`Read` has handed out yet, `calls` counts the `Read` calls, call number `k`
hands out at most `burst k + 1` bytes, and `ret` is the code `Read` returns
when nothing is pending. -/
structure Reader where
  pending : List Nat
  burst : Nat → Nat
  ret : Nat
  calls : Nat

/-- `IBufferReader::Read(buf, size, nread)`: the result code, the bytes written
to `buf` (`nread` is their number) and the reader after the call.  A successful
call hands out at least one byte and at most `size`. -/
def Reader.Read (r : Reader) (size : Int) : ErrorCode × List Nat × Reader :=
  if r.pending = [] then (.reader_error r.ret, [], { r with calls := r.calls + 1 })
  else
    let k := min (min size.toNat (r.burst r.calls + 1)) r.pending.length
    (.ERROR_SUCCESS, r.pending.take k,
      { r with pending := r.pending.drop k, calls := r.calls + 1 })

/-- A `FastBuffer`: `buf_` holds the bytes of the block from `buf_` up to
`end_` (what lies behind `end_` is never read before it is written), `start_`
is the offset of the read cursor from `buf_`.  The merged-read handler only
observes the reads and is not represented. -/
structure FastBuffer where
  capacity_ : Int
  buf_ : List Nat
  start_ : Nat
  deriving DecidableEq, Repr

namespace FastBuffer

/-- `FastBuffer::FastBuffer()`. -/
def new : FastBuffer := ⟨RS_DEFAULT_RECV_BUFFER_SIZE, [], 0⟩

/-- The offset of `end_` from `buf_`. -/
def end_ (b : FastBuffer) : Nat := b.buf_.length

/-- `FastBuffer::Size()`. -/
def Size (b : FastBuffer) : Int := (b.end_ : Int) - b.start_

/-- The unread bytes, from `start_` up to `end_`. -/
def unread (b : FastBuffer) : List Nat := b.buf_.drop b.start_

/-- The loop `while (end_ - start_ < required_size)` of `FastBuffer::Grow`;
`none` when `fuel` iterations do not leave it. -/
def Grow_loop (required_size : Int) :
    Nat → FastBuffer → Reader → Int → Option (ErrorCode × FastBuffer × Reader)
  | 0, _, _, _ => none
  | fuel + 1, b, r, free_space =>
    if b.Size < required_size then
      let rd := r.Read free_space
      if rd.1 ≠ .ERROR_SUCCESS then some (rd.1, b, rd.2.2)
      else if (rd.2.1.length : Int) ≤ 0 then some (.rs_assert_failed, b, rd.2.2)
      else
        Grow_loop required_size fuel { b with buf_ := b.buf_ ++ rd.2.1 } rd.2.2
          (free_space - rd.2.1.length)
    else some (.ERROR_SUCCESS, b, r)

/-- `FastBuffer::Grow(r, required_size)`: the result code, the buffer and the
reader after the call; `fuel` bounds the iterations of the read loop.  The
`memmove` puts the unread bytes at the start of the block. -/
def Grow (fuel : Nat) (b : FastBuffer) (r : Reader) (required_size : Int) :
    Option (ErrorCode × FastBuffer × Reader) :=
  if required_size ≤ 0 then some (.rs_assert_failed, b, r)
  else if b.Size ≥ required_size then some (.ERROR_SUCCESS, b, r)
  else
    let free_space : Int := b.capacity_ - b.end_
    let used_space : Int := (b.end_ : Int) - b.start_
    if free_space < required_size - used_space then
      let b1 : FastBuffer :=
        if used_space = 0 then { b with buf_ := [], start_ := 0 }
        else if used_space < b.capacity_ ∧ b.start_ > 0 then
          { b with buf_ := b.buf_.drop b.start_, start_ := 0 }
        else b
      let free_space1 : Int := b1.capacity_ - b1.end_
      if free_space1 < required_size - used_space then
        some (.ERROR_READER_BUFFER_OVERFLOW, b1, r)
      else Grow_loop required_size fuel b1 r free_space1
    else Grow_loop required_size fuel b r free_space

/-- `FastBuffer::SetBuffer(buffer_size)`.  The `realloc` keeps the bytes of the
block, and `start_` and `end_` are set to the offsets they had; the size of the
allocation is read by no function and is not part of the state.  `capacity_`
is not assigned. -/
def SetBuffer (b : FastBuffer) (buffer_size : Int) : FastBuffer :=
  let buffer_size := rs_min RS_MAX_SOCKER_BUFFER_SIZE buffer_size
  if buffer_size < b.capacity_ then b
  else
    let start_pos := b.start_
    { b with buf_ := b.buf_, start_ := start_pos }

/-- `FastBuffer::Read1Bytes()`: the byte at `start_`, which moves on by one;
`none` when the `rs_assert` fails. -/
def Read1Bytes (b : FastBuffer) : Option (Nat × FastBuffer) :=
  if b.Size ≥ 1 then some (b.buf_.getD b.start_ 0, { b with start_ := b.start_ + 1 })
  else none

/-- `FastBuffer::ReadSlice(size)`: the `size` bytes from `start_` on (the source
returns the pointer to them), and `start_` moves behind them; `none` when one
of the three `rs_assert`s fails. -/
def ReadSlice (b : FastBuffer) (size : Int) : Option (List Nat × FastBuffer) :=
  if size ≥ 0 ∧ b.Size ≥ size ∧ (b.start_ : Int) + size ≥ 0 then
    some ((b.buf_.drop b.start_).take size.toNat,
      { b with start_ := ((b.start_ : Int) + size).toNat })
  else none

/-- `FastBuffer::Skip(size)`: `start_` moves by `size`, backwards for a negative
`size`; `none` when one of the two `rs_assert`s fails. -/
def Skip (b : FastBuffer) (size : Int) : Option FastBuffer :=
  if b.Size ≥ size ∧ (b.start_ : Int) + size ≥ 0 then
    some { b with start_ := ((b.start_ : Int) + size).toNat }
  else none

/-- The cursor invariant `buf_ <= start_ <= end_ <= buf_ + capacity_`; `start_`
and `end_` are offsets from `buf_`, so `buf_ <= start_` is that `start_` is a
natural number. -/
def CursorsOk (b : FastBuffer) : Prop :=
  b.start_ ≤ b.end_ ∧ (b.end_ : Int) ≤ b.capacity_

end FastBuffer

/-! ## Timestamp correction (`protocol/rtmp/jitter.cpp`) -/

/-- The enumeration `JitterAlgorithm` (`protocol/rtmp_source.hpp`): `FULL = 1`,
`ZERO`, `OFF`. -/
inductive JitterAlgorithm where
  | FULL
  | ZERO
  | OFF
  deriving DecidableEq, Repr

/-- Modelled from the spec: the largest forward step, in ms, that `Jitter`
passes on (the constants header is not part of the sources). -/
abbrev RTMP_MAX_JITTER_MS : Int := 250

/-- Modelled from the spec: the largest backward step, in ms, that `Jitter`
passes on. -/
abbrev RTMP_MAX_JITTER_MS_NEG : Int := -250

/-- Modelled from the spec: the step, in ms, that replaces a step outside the
two bounds. -/
abbrev RTMP_DEFAULT_FRAME_TIME_MS : Int := 40

/-- Modelled from the spec: message type of an audio message. -/
abbrev RTMP_MSG_AUDIO_MESSAGE : Int := 8

/-- Modelled from the spec: message type of a video message. -/
abbrev RTMP_MSG_VIDEO_MESSAGE : Int := 9

/-- Modelled from the spec: the members of a `SharedPtrMessage` that
`Jitter::Correct` uses (the class is not part of the sources): the 64-bit
timestamp and the message type. -/
structure SharedPtrMessage where
  timestamp : Int
  message_type : Int
  deriving DecidableEq, Repr

/-- Modelled from the spec: `SharedPtrMessage::IsAV()`, true for audio and
video messages. -/
def SharedPtrMessage.IsAV (msg : SharedPtrMessage) : Bool :=
  decide (msg.message_type = RTMP_MSG_AUDIO_MESSAGE ∨ msg.message_type = RTMP_MSG_VIDEO_MESSAGE)

/-- A `Jitter`.  The two times are 64-bit integers; the timestamps of a stream
stay far from the limits of that type, and the arithmetic is that of the
integers. -/
structure Jitter where
  last_pkt_time_ : Int
  last_pkt_correct_time_ : Int
  deriving DecidableEq, Repr

/-- `Jitter::Jitter()`. -/
def Jitter.new : Jitter := ⟨0, -1⟩

/-- `Jitter::Correct(msg, ag)`: the result code, the jitter and the message
after the call. -/
def Jitter.Correct (j : Jitter) (msg : SharedPtrMessage) (ag : JitterAlgorithm) :
    ErrorCode × Jitter × SharedPtrMessage :=
  if ag ≠ .FULL then
    if ag = .OFF then (.ERROR_SUCCESS, j, msg)
    else if ag = .ZERO then
      let j1 : Jitter :=
        if j.last_pkt_correct_time_ = -1 then { j with last_pkt_correct_time_ := msg.timestamp }
        else j
      (.ERROR_SUCCESS, j1, { msg with timestamp := msg.timestamp - j1.last_pkt_correct_time_ })
    else (.ERROR_SUCCESS, j, msg)
  else if msg.IsAV = false then (.ERROR_SUCCESS, j, { msg with timestamp := 0 })
  else
    let time := msg.timestamp
    let delta := time - j.last_pkt_time_
    let delta :=
      if delta < RTMP_MAX_JITTER_MS_NEG ∨ delta > RTMP_MAX_JITTER_MS then
        RTMP_DEFAULT_FRAME_TIME_MS
      else delta
    let last_pkt_correct_time_ := rs_max 0 (j.last_pkt_correct_time_ + delta)
    (.ERROR_SUCCESS,
      { last_pkt_time_ := time, last_pkt_correct_time_ := last_pkt_correct_time_ },
      { msg with timestamp := last_pkt_correct_time_ })

/-- The messages of a sequence after one `Jitter` has corrected them in order
with the algorithm `ag`. -/
def Jitter.CorrectAll (ag : JitterAlgorithm) : Jitter → List SharedPtrMessage →
    List SharedPtrMessage
  | _, [] => []
  | j, msg :: rest =>
    (j.Correct msg ag).2.2 :: Jitter.CorrectAll ag (j.Correct msg ag).2.1 rest

/-- The step of the FULL algorithm in the words of the specification, on the
two times of the jitter state and the timestamp `t` of a message: the new
`last_pkt_time`, the new `last_corrected` and the rewritten timestamp. -/
def jitter_full_step_spec (last_pkt_time last_corrected : Int) (is_av : Bool) (t : Int) :
    Int × Int × Int :=
  if is_av then
    let delta := t - last_pkt_time
    let delta := if delta < -250 ∨ delta > 250 then 40 else delta
    (t, max 0 (last_corrected + delta), max 0 (last_corrected + delta))
  else (last_pkt_time, last_corrected, 0)

/-! ## The plain handshake (`protocol/rtmp_stack.cpp`) -/

/-- A call made on the `IProtocolReaderWriter` of a handshake: `ReadFully` with
the size asked for, `Write` with the bytes handed over. -/
inductive IoCall where
  | ReadFully (size : Nat)
  | Write (bytes : List Nat)
  deriving DecidableEq, Repr

/-- Modelled from the spec: the `IProtocolReaderWriter` behind a handshake (the
socket class is not part of the sources, `io.hpp` declares the interface).
`pending` are the bytes the peer has sent and nobody has read, `read_ret` the
code of a read that finds too few of them, `ok_writes` the number of `Write`
calls that will still succeed, `write_ret` the code of the calls after those,
and `calls` the calls made so far, in order. -/
structure Socket where
  pending : List Nat
  read_ret : Nat
  ok_writes : Nat
  write_ret : Nat
  calls : List IoCall
  deriving DecidableEq, Repr

/-- Modelled from the spec: `ReadFully(buf, size, nread)` reads exactly `size`
bytes or fails (a short read is a failure); the bytes written to `buf` are the
second component. -/
def Socket.ReadFully (rw : Socket) (size : Nat) : ErrorCode × List Nat × Socket :=
  if rw.pending.length < size then
    (.reader_error rw.read_ret, rw.pending,
      { rw with pending := [], calls := rw.calls ++ [.ReadFully size] })
  else
    (.ERROR_SUCCESS, rw.pending.take size,
      { rw with pending := rw.pending.drop size, calls := rw.calls ++ [.ReadFully size] })

/-- Modelled from the spec: `Write(buf, size, nwrite)` writes the block
completely or fails. -/
def Socket.Write (rw : Socket) (buf : List Nat) : ErrorCode × Socket :=
  match rw.ok_writes with
  | 0 => (.writer_error rw.write_ret, { rw with calls := rw.calls ++ [.Write buf] })
  | n + 1 => (.ERROR_SUCCESS, { rw with ok_writes := n, calls := rw.calls ++ [.Write buf] })

/-- `HandshakeBytes`: the three blocks, `none` for a null pointer. -/
structure HandshakeBytes where
  c0c1 : Option (List Nat)
  s0s1s2 : Option (List Nat)
  c2 : Option (List Nat)
  deriving DecidableEq, Repr

namespace HandshakeBytes

/-- `HandshakeBytes::HandshakeBytes()`. -/
def new : HandshakeBytes := ⟨none, none, none⟩

/-- `HandshakeBytes::ReadC0C1(rw)`. -/
def ReadC0C1 (hb : HandshakeBytes) (rw : Socket) : ErrorCode × HandshakeBytes × Socket :=
  if hb.c0c1.isSome then (.ERROR_SUCCESS, hb, rw)
  else
    ((rw.ReadFully 1537).1, { hb with c0c1 := some (rw.ReadFully 1537).2.1 },
      (rw.ReadFully 1537).2.2)

/-- `HandshakeBytes::ReadC2(rw)`. -/
def ReadC2 (hb : HandshakeBytes) (rw : Socket) : ErrorCode × HandshakeBytes × Socket :=
  if hb.c2.isSome then (.ERROR_SUCCESS, hb, rw)
  else
    ((rw.ReadFully 1536).1, { hb with c2 := some (rw.ReadFully 1536).2.1 },
      (rw.ReadFully 1536).2.2)

/-- `HandshakeBytes::CreateS0S1S2(c1)`.  `random` are the 3073 bytes that
`Utils::RandomGenerate` puts into the new block and `now` is `::time(NULL)`;
`c1` is `none` for a null pointer. -/
def CreateS0S1S2 (hb : HandshakeBytes) (c1 : Option (List Nat)) (random : List Nat)
    (now : Int) : ErrorCode × HandshakeBytes :=
  if hb.s0s1s2.isSome then (.ERROR_SUCCESS, hb)
  else
    let i := BufferReader.Initialize random 9
    if i.1 ≠ .ERROR_SUCCESS then (i.1, { hb with s0s1s2 := some random })
    else
      let m1 := i.2.Write1Bytes 0x03
      let m2 := m1.Write4Bytes now
      let m3 :=
        match hb.c0c1 with
        | some c0c1 => m2.WriteBytes (c0c1.drop 1) 4
        | none => m2
      let block :=
        match c1 with
        | some c1 => m3.buf_.take 1537 ++ c1.take 1536 ++ m3.buf_.drop 3073
        | none => m3.buf_
      (.ERROR_SUCCESS, { hb with s0s1s2 := some block })

end HandshakeBytes

/-- `SimpleHandshake::HandshakeWithClient(handshake_bytes, rw)`; `random` and
`now` are those of `CreateS0S1S2`. -/
def HandshakeWithClient (hb : HandshakeBytes) (rw : Socket) (random : List Nat) (now : Int) :
    ErrorCode × HandshakeBytes × Socket :=
  let r := hb.ReadC0C1 rw
  if r.1 ≠ .ERROR_SUCCESS then r
  else if (r.2.1.c0c1.getD []).getD 0 0 ≠ 0x03 then (.ERROR_RTMP_PLAIN_REQUIRED, r.2.1, r.2.2)
  else
    let c := r.2.1.CreateS0S1S2 (r.2.1.c0c1.map (fun b => b.drop 1)) random now
    if c.1 ≠ .ERROR_SUCCESS then (c.1, c.2, r.2.2)
    else
      let w := r.2.2.Write ((c.2.s0s1s2.getD []).take 3073)
      if w.1 ≠ .ERROR_SUCCESS then (w.1, c.2, w.2)
      else c.2.ReadC2 w.2

/-! ## Requests and URLs (`protocol/rtmp/stack.cpp`) -/

/-- `std::string::find(pat)` from the offset `i` of the characters that are
left: the first position at which `pat` starts, `none` for `npos`.  A
`std::string` is the list of its characters. -/
def find_from (pat : List Char) : List Char → Nat → Option Nat
  | [], i => if pat = [] then some i else none
  | c :: s, i => if pat.isPrefixOf (c :: s) then some i else find_from pat s (i + 1)

/-- `s.find(pat)`. -/
def find (s pat : List Char) : Option Nat := find_from pat s 0

namespace Utils

/-- Modelled from the spec: the scan of `Utils::StringReplace` (the body of
`Utils` is not part of the sources): `skip` characters of a match are still to
be passed over. -/
def StringReplace_scan (old_str new_str : List Char) : Nat → List Char → List Char
  | _, [] => []
  | skip + 1, _ :: s => StringReplace_scan old_str new_str skip s
  | 0, c :: s =>
    if old_str.isPrefixOf (c :: s) then
      new_str ++ StringReplace_scan old_str new_str (old_str.length - 1) s
    else c :: StringReplace_scan old_str new_str 0 s

/-- Modelled from the spec: `Utils::StringReplace(str, old_str, new_str)`
substitutes `new_str` for every occurrence of `old_str`, from left to right;
an empty `old_str` changes nothing. -/
def StringReplace (str old_str new_str : List Char) : List Char :=
  if old_str = [] then str else StringReplace_scan old_str new_str 0 str

/-- Modelled from the spec: `Utils::StringEndsWith(str, flag)`. -/
def StringEndsWith (str flag : List Char) : Bool := flag.isSuffixOf str

/-- Modelled from the spec: `Utils::StringEraseLastSubstr(str, erase)` removes
the last occurrence of `erase`. -/
def StringEraseLastSubstr (str erase : List Char) : List Char :=
  match find str.reverse erase.reverse with
  | none => str
  | some i => (str.reverse.take i ++ str.reverse.drop (i + erase.length)).reverse

/-- Modelled from the spec: `Utils::StringRemove(str, remove_chars)` removes
every character that is in `remove_chars`. -/
def StringRemove (str remove_chars : List Char) : List Char :=
  str.filter (fun c => !(remove_chars.contains c))

/-- Modelled from the spec: `Utils::StringTrimStart(str, trim_chars)` removes
the leading characters that are in `trim_chars`. -/
def StringTrimStart (str trim_chars : List Char) : List Char :=
  str.dropWhile (fun c => trim_chars.contains c)

/-- Modelled from the spec: `Utils::StringTrimEnd(str, trim_chars)` removes the
trailing characters that are in `trim_chars`. -/
def StringTrimEnd (str trim_chars : List Char) : List Char :=
  (str.reverse.dropWhile (fun c => trim_chars.contains c)).reverse

end Utils

/-- Modelled from the spec: the name of the default vhost (the constants header
is not part of the sources). -/
abbrev RTMP_DEFAULT_VHOST : List Char := "__defaultVhost__".toList

/-- Modelled from the spec: the default port. -/
abbrev RTMP_DEFAULT_PORT : List Char := "1935".toList

/-- Modelled from the spec: the query that names the default vhost. -/
abbrev RTMP_DEFAULT_VHOST_PARAM : List Char := "?vhost=__defaultVhost__".toList

/-- The static function `vhost_resolve(vhost, app, param)`: the three reference
parameters after the call. -/
def vhost_resolve (vhost app param : List Char) : List Char × List Char × List Char :=
  let param :=
    match find app "?".toList with
    | some pos => app.drop pos
    | none => param
  let app := Utils.StringReplace app ",".toList "?".toList
  let app := Utils.StringReplace app "...".toList "?".toList
  let app := Utils.StringReplace app "&&".toList "?".toList
  let app := Utils.StringReplace app "=".toList "?".toList
  let app :=
    if Utils.StringEndsWith app "/_definst_".toList then
      Utils.StringEraseLastSubstr app "/_definst_".toList
    else app
  match find app "?".toList with
  | none => (vhost, app, param)
  | some pos =>
    let query := app.drop (pos + 1)
    let app := app.take pos
    match find query "vhost?".toList with
    | none => (vhost, app, param)
    | some pos =>
      let query := query.drop (pos + 6)
      if query ≠ [] then
        match find query "?".toList with
        | some pos => (query.take pos, app, param)
        | none => (query, app, param)
      else (vhost, app, param)

/-- The static function `generate_stream_url(vhost, app, stream)`. -/
def generate_stream_url (vhost app stream : List Char) : List Char :=
  let retstr : List Char := if vhost ≠ RTMP_DEFAULT_VHOST then vhost else []
  retstr ++ "/".toList ++ app ++ "/".toList ++ stream

/-- A `Request`: its strings, and the two numbers the constructor sets.  The
AMF0 object `args` is not represented. -/
structure Request where
  ip : List Char
  tc_url : List Char
  page_url : List Char
  swf_url : List Char
  schema : List Char
  host : List Char
  vhost : List Char
  port : List Char
  app : List Char
  stream : List Char
  param : List Char
  object_encoding : Int
  duration : Int
  deriving DecidableEq, Repr

/-- `Request::Request()`: empty strings, `object_encoding = 3`, `duration = -1`. -/
def Request.new : Request := ⟨[], [], [], [], [], [], [], [], [], [], [], 3, -1⟩

/-- `DiscoveryTcUrl(tc_url, schema, host, vhost, app, stream, port, param)`, the
seven reference parameters being the members of `r`. -/
def DiscoveryTcUrl (tc_url : List Char) (r : Request) : Request :=
  let url := tc_url
  let s1 : List Char × List Char :=
    match find url "://".toList with
    | some pos => (url.take pos, url.drop (pos + 3))
    | none => (r.schema, url)
  let schema := s1.1
  let url := s1.2
  let s2 : List Char × List Char × List Char :=
    match find url "/".toList with
    | some pos =>
      let host := url.take pos
      match find host ":".toList with
      | some pos2 => (host.take pos2, host.drop (pos2 + 1), url.drop (pos + 1))
      | none => (host, RTMP_DEFAULT_PORT, url.drop (pos + 1))
    | none => (r.host, r.port, url)
  let host := s2.1
  let port := s2.2.1
  let url := s2.2.2
  let app := url
  let vhost := host
  let v1 := vhost_resolve vhost app r.param
  let v2 := vhost_resolve v1.1 r.stream v1.2.2
  let param := if v2.2.2 = RTMP_DEFAULT_VHOST_PARAM then [] else v2.2.2
  { r with schema := schema, host := host, port := port, vhost := v2.1, app := v1.2.1,
           stream := v2.2.1, param := param }

/-- `Request::Strip()`. -/
def Request.Strip (r : Request) : Request :=
  let host := Utils.StringRemove r.host "/ \n\r\t".toList
  let vhost := Utils.StringRemove r.vhost "/ \n\r\t".toList
  let app := Utils.StringRemove r.app " \n\r\t".toList
  let stream := Utils.StringRemove r.stream " \n\r\t".toList
  let app := Utils.StringTrimEnd app "/".toList
  let stream := Utils.StringTrimEnd stream "/".toList
  let app := Utils.StringTrimStart app "/".toList
  let stream := Utils.StringTrimStart stream "/".toList
  { r with host := host, vhost := vhost, app := app, stream := stream }

/-- `Request::GetStreamUrl()`. -/
def Request.GetStreamUrl (r : Request) : List Char :=
  generate_stream_url r.vhost r.app r.stream

/-- The statements of `Connection::StreamServiceCycle` from the call of
`DiscoveryTcUrl` to the two checks of the request, on the request that
`IdentifyClient` has left: the result code of a check that fails,
`ERROR_SUCCESS` when the run goes on to `Source::FetchOrCreate`, and the
request. -/
def StreamServiceCycle_tcurl (request_ : Request) : ErrorCode × Request :=
  let r := (DiscoveryTcUrl request_.tc_url request_).Strip
  if r.schema = [] ∨ r.vhost = [] ∨ r.port = [] ∨ r.app = [] then (.ERROR_RTMP_REQ_TCURL, r)
  else if r.stream = [] then (.ERROR_RTMP_STREAM_NAME_EMPTY, r)
  else (.ERROR_SUCCESS, r)

/-! ## Well-formed chunks on the wire -/

/-- The byte sequence `bh` is a basic header for chunk type `fmt` and chunk
stream `cid`, in the 1-byte, 2-byte or 3-byte form. -/
def IsBasicHeader : List Nat → Nat → Nat → Prop
  | [a], fmt, cid => a = fmt * 64 + cid ∧ 2 ≤ cid ∧ cid ≤ 63
  | [a, x], fmt, cid => a = fmt * 64 ∧ x < 256 ∧ cid = 64 + x
  | [a, x, y], fmt, cid => a = fmt * 64 + 1 ∧ x < 256 ∧ y < 256 ∧ cid = 64 + x + 256 * y
  | _, _, _ => False

/-- The fmt=3 chunks that carry the bytes `R` in runs of `min(c, remaining)`
bytes, each behind the basic header `bh3`; `fuel` bounds the number of chunks. -/
def fmt3_chunks (bh3 : List Nat) (c : Nat) : Nat → List Nat → List Nat
  | 0, _ => []
  | fuel + 1, R =>
    if R = [] then [] else bh3 ++ R.take c ++ fmt3_chunks bh3 c fuel (R.drop c)

/-- A message on the wire: a fmt=0 chunk with basic header `bh0` and the 11
message header bytes `mh`, carrying the first `min(c, remaining)` bytes of `P`,
followed by the fmt=3 chunks for the rest of `P`. -/
def message_chunks (bh0 mh bh3 : List Nat) (c : Nat) (P : List Nat) : List Nat :=
  bh0 ++ mh ++ P.take c ++ fmt3_chunks bh3 c P.length (P.drop c)

/-- The header a fmt=0 chunk with the given 11 header bytes establishes. -/
def fmt0_header (perfer_cid : Int) (t0 t1 t2 l0 l1 l2 ty s0 s1 s2 s3 : Nat) : MessageHeader :=
  { timestamp_delta := ((t0 * 65536 + t1 * 256 + t2 : Nat) : Int)
    payload_length := ((l0 * 65536 + l1 * 256 + l2 : Nat) : Int)
    message_type := (ty : Int)
    stream_id := to_int32 (s0 * 16777216 + s1 * 65536 + s2 * 256 + s3)
    timestamp := ((t0 * 65536 + t1 * 256 + t2 : Nat) : Int)
    perfer_cid := perfer_cid }

/-- The number of chunks `fmt3_chunks` makes for the bytes `R`. -/
def chunk_count (c : Nat) : Nat → List Nat → Nat
  | 0, _ => 0
  | fuel + 1, R => if R = [] then 0 else 1 + chunk_count c fuel (R.drop c)

/-- The chunk stream `cid` of `p` holds a message in progress with header `H`
of which the bytes `Q` have arrived, no extended timestamp being in use; the
chunk size is `c` and the buffer capacity `cap`. -/
def InProgress (p : Protocol) (cid c : Nat) (cap : Int) (H : MessageHeader) (Q : List Nat) :
    Prop :=
  p.in_chunk_size_ = c ∧ p.in_buffer_.capacity_ = cap ∧
  (p.find_cs cid).msg = some ⟨H, Q.length, some Q⟩ ∧ (p.find_cs cid).header = H ∧
  (p.find_cs cid).extended_timestamp = false ∧ (p.find_cs cid).msg_count ≠ 0

/-- The protocol state after one chunk: the selected chunk stream has become
`cs` and the receive buffer `b`. -/
def Protocol.after_chunk (p : Protocol) (cid : Nat) (cs : ChunkStream) (b : InBuffer) :
    Protocol :=
  { p.store_cs cid cs with in_buffer_ := b }

/-- The reassembly invariant of a chunk stream: the payload length of its header
is not negative, and a message in progress has a size between 0 and that
payload length, which also bounds it by the payload length of its own header. -/
def ChunkStream.SizeInvariant (cs : ChunkStream) : Prop :=
  0 ≤ cs.header.payload_length ∧
  ∀ m, cs.msg = some m →
    0 ≤ m.size ∧ m.size ≤ cs.header.payload_length ∧ m.size ≤ m.header.payload_length

/-! ## Concrete inputs -/

/-- The message header bytes of a fmt=0 chunk: timestamp 5, payload length 3,
message type 9 (video), stream id bytes `00 00 00 01`. -/
def demo_mh : List Nat := [0, 0, 5, 0, 0, 3, 9, 0, 0, 0, 1]

/-- A receiver with inbound chunk size 2 whose connection delivers the 3-byte
message `10 20 30` on chunk stream 3 as a fmt=0 chunk and a fmt=3 chunk. -/
def demo_receiver : Protocol :=
  { Protocol.new (message_chunks [3] demo_mh [195] 2 [10, 20, 30]) 0 ⟨[], 0, 0⟩ with
      in_chunk_size_ := 2 }

/-- A payload one byte longer than the receive buffer. -/
def big_payload : List Nat := List.replicate 131073 0

/-- A receiver whose inbound chunk size is 131073 and whose connection delivers
`big_payload` on chunk stream 3 as one fmt=0 chunk (payload length field
`02 00 01` = 131073). -/
def big_receiver : Protocol :=
  { Protocol.new (message_chunks [3] [0, 0, 5, 2, 0, 1, 9, 0, 0, 0, 1] [195] 131073 big_payload)
      0 ⟨[], 0, 0⟩ with
      in_chunk_size_ := 131073 }

/-- A receive buffer of the default capacity in front of a connection that
delivers `data`. -/
def buffer_of (data : List Nat) : InBuffer := ⟨RS_DEFAULT_RECV_BUFFER_SIZE, data, 0, 0⟩

/-- The header of a video message on chunk stream 3: timestamp 5, stream id 1. -/
def demo_header (payload_length : Int) : MessageHeader :=
  { timestamp_delta := 0, payload_length := payload_length, message_type := 9, stream_id := 1,
    timestamp := 5, perfer_cid := 3 }

/-- A sender with the outbound chunk size `c` whose writer accepts `n` writes. -/
def demo_sender (c : Int) (n : Nat) : Protocol :=
  { Protocol.new [] 0 ⟨[], n, 0⟩ with out_chunk_size_ := c }

/-- A fresh receiver with the inbound chunk size `c` in front of a connection
that delivers `wire`. -/
def fresh_receiver (c : Int) (wire : List Nat) (reader_ret : Nat) (rw : Writer) : Protocol :=
  { Protocol.new wire reader_ret rw with in_chunk_size_ := c }

/-- A stand-in for the AMF0 codec in concrete runs: every block reads as the
command name `command` followed by the transaction id `transaction_id`, the
packet decoders accept every block, and every command packet encodes to the
three bytes of an empty AMF0 string on chunk stream 3. -/
def demo_codec (command : String) (transaction_id : Rat) : Amf0Codec :=
  { AMF0ReadString := fun m => (.ERROR_SUCCESS, m.Skip 3, command)
    AMF0ReadNumber := fun m => (.ERROR_SUCCESS, m.Skip 9, transaction_id)
    Decode := fun _ m => (.ERROR_SUCCESS, m)
    Encode := fun _ => (.ERROR_SUCCESS, 3, some [2, 0, 0])
    GetMessageType := fun _ => RTMP_MSG_AMF0_COMMAND
    GetPreferCID := fun _ => 3 }

/-- A control message on chunk stream 2 with the given type and payload. -/
def control_message (message_type : Int) (payload : List Nat) : CommonMessage :=
  { header := { MessageHeader.new with
      payload_length := payload.length, message_type := message_type, perfer_cid := 2 }
    size := payload.length
    payload := some payload }

/-- A source with an active publisher: metadata and sequence headers cached,
source id 7. -/
def busy_source : Source :=
  { can_publish_ := false, cache_metadata_ := some [1], cache_sh_video_ := some [2],
    cache_sh_audio_ := some [3], source_id_ := 7, prev_source_id_ := 0, die_at_ := 0 }

/-- Surroundings in which everything succeeds: the vhost is not an edge and the
receive thread ends with success, leaving the source as it is. -/
def demo_env : PublishEnv :=
  { vhost_is_edge := false, handler_ret := .ERROR_SUCCESS, context_id := 8, die_at := 100,
    recv_thread_run := fun s => (.ERROR_SUCCESS, s) }

/-- A reader that has the bytes `pending` and hands out one byte per call. -/
def demo_reader (pending : List Nat) (ret : Nat) : Reader :=
  { pending := pending, burst := fun _ => 0, ret := ret, calls := 0 }

/-- A connection on which the peer has sent `pending` and one write succeeds. -/
def demo_socket (pending : List Nat) : Socket := ⟨pending, 0, 1, 0, []⟩

/-- A video message of 129 bytes on chunk stream 3 with the extended timestamp
bytes `t3 t2 t1 t0`, in chunks of 128 bytes: the fmt=0 chunk with the 24-bit
field `ff ff ff`, the extended timestamp and 128 payload bytes `aa`, then a
fmt=3 chunk that repeats the extended timestamp and carries the last payload
byte `bb`. -/
def extended_wire (t3 t2 t1 t0 : Nat) : List Nat :=
  [3, 0xff, 0xff, 0xff, 0, 0, 129, 9, 0, 0, 0, 1, t3, t2, t1, t0] ++ List.replicate 128 0xaa ++
    [0xc3, t3, t2, t1, t0, 0xbb]

/-- The chunk stream 3 as the first chunk of `extended_wire 8 0 0 1` leaves it:
128 of the 129 payload bytes have arrived, an extended timestamp is expected,
and the header holds the timestamp 1. -/
def extended_stream : ChunkStream :=
  { cid := 3, fmt := 0
    msg := some ⟨⟨0xffffff, 129, 9, 1, 1, 3⟩, 128, some (List.replicate 128 0xaa)⟩
    header := ⟨0xffffff, 129, 9, 1, 1, 3⟩
    extended_timestamp := true, msg_count := 1 }

end rtmp

/-! ## Basic facts about the receive buffer -/

namespace rtmp

theorem InBuffer.unread_advance (b : InBuffer) (k : Nat) :
    (b.advance k).unread = b.unread.drop k := by
  simp [InBuffer.advance, InBuffer.unread, List.drop_drop, Nat.add_comm]

theorem InBuffer.advance_advance (b : InBuffer) (j k : Nat) :
    (b.advance j).advance k = b.advance (j + k) := by
  simp [InBuffer.advance, Nat.add_assoc]

theorem InBuffer.Grow_advance (b : InBuffer) (k : Nat) (n : Int) :
    (b.advance k).Grow n =
      if n ≤ 0 then .rs_assert_failed
      else if b.capacity_ < n then .ERROR_READER_BUFFER_OVERFLOW
      else if ((b.unread.drop k).length : Int) < n then .reader_error b.reader_ret
      else .ERROR_SUCCESS := by
  simp only [InBuffer.Grow, InBuffer.unread_advance]
  simp [InBuffer.advance]

theorem InBuffer.Read1Bytes_eq (b : InBuffer) :
    b.Read1Bytes = (b.unread.headD 0, b.advance 1) := rfl

theorem InBuffer.ReadSlice_eq (b : InBuffer) (n : Int) :
    b.ReadSlice n = (b.unread.take n.toNat, b.advance n.toNat) := rfl

theorem InBuffer.Grow_ok (b : InBuffer) (n : Int) (h0 : 0 < n) (hc : n ≤ b.capacity_)
    (hl : n ≤ (b.unread.length : Int)) : b.Grow n = .ERROR_SUCCESS := by
  unfold InBuffer.Grow
  rw [if_neg (by omega), if_neg (by omega), if_neg (by omega)]

theorem InBuffer.Grow_overflow (b : InBuffer) (n : Int) (h0 : 0 < n) (hc : b.capacity_ < n) :
    b.Grow n = .ERROR_READER_BUFFER_OVERFLOW := by
  unfold InBuffer.Grow
  rw [if_neg (by omega), if_pos hc]

theorem InBuffer.Grow_advance_ok (b : InBuffer) (k : Nat) (n : Int) (h0 : 0 < n)
    (hc : n ≤ b.capacity_) (hl : (k : Int) + n ≤ (b.unread.length : Int)) :
    (b.advance k).Grow n = .ERROR_SUCCESS := by
  rw [InBuffer.Grow_advance, if_neg (by omega), if_neg (by omega), if_neg]
  rw [List.length_drop]
  omega

/-- Decoding of a well-formed basic header in front of the unread bytes. -/
theorem ReadBasicHeader_decodes (b : InBuffer) (bh rest : List Nat) (fmt cid : Nat)
    (hbh : IsBasicHeader bh fmt cid) (hfmt : fmt ≤ 3) (hcap : 2 ≤ b.capacity_)
    (hu : b.unread = bh ++ rest) :
    ReadBasicHeader b 0 0 = (.ERROR_SUCCESS, b.advance bh.length, fmt, cid) := by
  have hlen := congrArg List.length hu
  match bh, hbh with
  | [a], h =>
    obtain ⟨ha, h2, h63⟩ := h
    simp at hlen
    have hg : b.Grow 1 = .ERROR_SUCCESS := b.Grow_ok 1 (by omega) (by omega) (by omega)
    have hm : a % 64 = cid := by omega
    have hd : a / 64 % 4 = fmt := by omega
    simp only [ReadBasicHeader, hg, InBuffer.Read1Bytes_eq, hu]
    simp [hm, hd]
    omega
  | [a, x], h =>
    obtain ⟨ha, hx, hc⟩ := h
    simp at hlen
    have hg : b.Grow 1 = .ERROR_SUCCESS := b.Grow_ok 1 (by omega) (by omega) (by omega)
    have hg2 : (b.advance 1).Grow 1 = .ERROR_SUCCESS :=
      b.Grow_advance_ok 1 1 (by omega) (by omega) (by omega)
    have hm : a % 64 = 0 := by omega
    have hd : a / 64 % 4 = fmt := by omega
    simp only [ReadBasicHeader, hg, hg2, InBuffer.Read1Bytes_eq, hu, InBuffer.unread_advance,
      InBuffer.advance_advance]
    simp [hm, hd, hc, Nat.mod_eq_of_lt hx]
  | [a, x, y], h =>
    obtain ⟨ha, hx, hy, hc⟩ := h
    simp at hlen
    have hg : b.Grow 1 = .ERROR_SUCCESS := b.Grow_ok 1 (by omega) (by omega) (by omega)
    have hg2 : (b.advance 1).Grow 2 = .ERROR_SUCCESS :=
      b.Grow_advance_ok 1 2 (by omega) (by omega) (by omega)
    have hm : a % 64 = 1 := by omega
    have hd : a / 64 % 4 = fmt := by omega
    simp only [ReadBasicHeader, hg, hg2, InBuffer.Read1Bytes_eq, hu, InBuffer.unread_advance,
      InBuffer.advance_advance]
    simp [hm, hd, hc, Nat.mod_eq_of_lt hx, Nat.mod_eq_of_lt hy]
    omega

theorem to_int8_mod (n : Nat) (h : n < 256) : to_int8 n % 256 = (n : Int) := by
  unfold to_int8
  split <;> omega

/-- A fmt=0 chunk without extended timestamp on a chunk stream with no message
in progress. -/
theorem ReadMessageHeader_fmt0 (b : InBuffer) (cs : ChunkStream)
    (t0 t1 t2 l0 l1 l2 ty s0 s1 s2 s3 : Nat) (rest : List Nat)
    (ht0 : t0 < 256) (ht1 : t1 < 256) (ht2 : t2 < 256) (hty : ty < 256)
    (ht : t0 * 65536 + t1 * 256 + t2 < 16777215)
    (hmsg : cs.msg = none) (hcap : 11 ≤ b.capacity_)
    (hu : b.unread = [t0, t1, t2, l0, l1, l2, ty, s0, s1, s2, s3] ++ rest) :
    ReadMessageHeader b cs 0 =
      (.ERROR_SUCCESS, b.advance 11,
        { cs with
            msg := some ⟨fmt0_header cs.header.perfer_cid t0 t1 t2 l0 l1 l2 ty s0 s1 s2 s3, 0, none⟩
            header := fmt0_header cs.header.perfer_cid t0 t1 t2 l0 l1 l2 ty s0 s1 s2 s3
            extended_timestamp := false
            msg_count := cs.msg_count + 1 }) := by
  have hlen := congrArg List.length hu
  simp at hlen
  have hg : b.Grow 11 = .ERROR_SUCCESS := b.Grow_ok 11 (by omega) hcap (by omega)
  have hext : ¬ (16777215 ≤ (t0 : Int) * 65536 + (t1 : Int) * 256 + (t2 : Int)) := by omega
  have hmodi : ((t0 : Int) * 65536 + (t1 : Int) * 256 + (t2 : Int)) % 134217728
      = (t0 : Int) * 65536 + (t1 : Int) * 256 + (t2 : Int) := by omega
  simp [ReadMessageHeader, ReadMessageHeader_finish, ReadMessageHeader_fields,
    ReadMessageHeader_extended, mh_sizes, hmsg,
    hg, InBuffer.ReadSlice_eq, hu, BufferReader.Initialize, BufferReader.Read3Bytes,
    BufferReader.Read1Bytes, BufferReader.Read4Bytes, BufferReader.at_, hext, hmodi,
    to_int8_mod ty hty, fmt0_header, CommonMessage.new]

/-- A fmt=3 chunk that continues a message in progress, no extended timestamp. -/
theorem ReadMessageHeader_fmt3_continue (b : InBuffer) (cs : ChunkStream) (m : CommonMessage)
    (hmsg : cs.msg = some m) (hext : cs.extended_timestamp = false)
    (hcount : cs.msg_count ≠ 0) :
    ReadMessageHeader b cs 3 =
      (.ERROR_SUCCESS, b,
        { cs with
            header := { cs.header with timestamp := cs.header.timestamp % 134217728 }
            msg := some { m with
              header := { cs.header with timestamp := cs.header.timestamp % 134217728 } }
            msg_count := cs.msg_count + 1 }) := by
  simp [ReadMessageHeader, ReadMessageHeader_finish, ReadMessageHeader_fields,
    ReadMessageHeader_extended, mh_sizes, hmsg,
    hext, hcount, RTMP_FMT_TYPE0, RTMP_FMT_TYPE2]

/-- One payload run: `ReadMessagePayload` on a message in progress whose next
`rs_min(remaining, in_chunk_size_)` bytes are available. -/
theorem ReadMessagePayload_chunk (c : Int) (b : InBuffer) (cs : ChunkStream) (m : CommonMessage)
    (k : Int) (hmsg : cs.msg = some m) (hpl : 0 < cs.header.payload_length)
    (hk : rs_min (cs.header.payload_length - m.size) c = k)
    (hg : b.Grow k = .ERROR_SUCCESS) :
    ReadMessagePayload c b cs =
      if cs.header.payload_length = m.size + k then
        (.ERROR_SUCCESS, b.advance k.toNat, { cs with msg := none },
          some ⟨m.header, m.size + k,
            some ((m.payload.getD []).take m.size.toNat ++ b.unread.take k.toNat)⟩)
      else
        (.ERROR_SUCCESS, b.advance k.toNat,
          { cs with msg := some ⟨m.header, m.size + k,
              some ((m.payload.getD []).take m.size.toNat ++ b.unread.take k.toNat)⟩ },
          none) := by
  have hpl' : ¬ cs.header.payload_length ≤ 0 := by omega
  unfold ReadMessagePayload
  rw [if_neg hpl', hmsg]
  simp only [hk, hg, InBuffer.ReadSlice_eq]
  cases hp : m.payload <;> simp [hp]

theorem Protocol.find_store (p : Protocol) (cid : Nat) (cs : ChunkStream) :
    (p.store_cs cid cs).find_cs cid = cs := by
  unfold Protocol.store_cs Protocol.find_cs
  split <;> simp [*]

theorem Protocol.find_set_buffer (p : Protocol) (cid : Nat) (b : InBuffer) :
    ({ p with in_buffer_ := b } : Protocol).find_cs cid = p.find_cs cid := rfl

/-- A fmt=3 continuation chunk leaves everything but `msg_count` as it is when
the message already carries the chunk stream's header and the timestamp is
below 2^27. -/
theorem ReadMessageHeader_fmt3_same (b : InBuffer) (cs : ChunkStream) (sz : Int)
    (pl : Option (List Nat)) (hmsg : cs.msg = some ⟨cs.header, sz, pl⟩)
    (hext : cs.extended_timestamp = false) (hcount : cs.msg_count ≠ 0)
    (h0 : 0 ≤ cs.header.timestamp) (h1 : cs.header.timestamp < 134217728) :
    ReadMessageHeader b cs 3 = (.ERROR_SUCCESS, b, { cs with msg_count := cs.msg_count + 1 }) := by
  rw [ReadMessageHeader_fmt3_continue b cs _ hmsg hext hcount]
  have hmod : cs.header.timestamp % 134217728 = cs.header.timestamp := by omega
  rw [hmod]
  rcases cs with ⟨cid, fmt, msg, ⟨a1, a2, a3, a4, a5, a6⟩, ext, cnt⟩
  simp at hmsg ⊢
  exact hmsg.symm

theorem Protocol.after_chunk_find (p : Protocol) (cid : Nat) (cs : ChunkStream) (b : InBuffer) :
    (p.after_chunk cid cs b).find_cs cid = cs := by
  unfold Protocol.after_chunk
  rw [Protocol.find_set_buffer, Protocol.find_store]

theorem Protocol.after_chunk_in_chunk_size (p : Protocol) (cid : Nat) (cs : ChunkStream)
    (b : InBuffer) : (p.after_chunk cid cs b).in_chunk_size_ = p.in_chunk_size_ := by
  unfold Protocol.after_chunk Protocol.store_cs
  split <;> rfl

theorem Protocol.after_chunk_in_buffer (p : Protocol) (cid : Nat) (cs : ChunkStream)
    (b : InBuffer) : (p.after_chunk cid cs b).in_buffer_ = b := by
  unfold Protocol.after_chunk Protocol.store_cs
  split <;> rfl

/-- `RecvInterlacedMessage` when its three steps succeed. -/
theorem RecvInterlacedMessage_ok (p : Protocol) (b1 b2 b3 : InBuffer) (fmt cid : Nat)
    (cs2 cs3 : ChunkStream) (msg : Option CommonMessage)
    (e1 : ReadBasicHeader p.in_buffer_ 0 0 = (.ERROR_SUCCESS, b1, fmt, cid))
    (e2 : ReadMessageHeader b1 (p.find_cs cid) fmt = (.ERROR_SUCCESS, b2, cs2))
    (e3 : ReadMessagePayload p.in_chunk_size_ b2 cs2 = (.ERROR_SUCCESS, b3, cs3, msg)) :
    RecvInterlacedMessage p = (.ERROR_SUCCESS, p.after_chunk cid cs3 b3, msg) := by
  simp only [RecvInterlacedMessage, e1, e2, e3]
  simp [Protocol.after_chunk]

/-- One fmt=3 chunk of a message in progress. -/
theorem recv_next_chunk (p : Protocol) (cid c : Nat) (cap : Int) (H : MessageHeader)
    (Q R bh3 rest : List Nat)
    (hin : InProgress p cid c cap H Q) (hbh : IsBasicHeader bh3 3 cid) (hc : 1 ≤ c)
    (hR : R ≠ []) (hL : H.payload_length = ((Q.length + R.length : Nat) : Int))
    (ht0 : 0 ≤ H.timestamp) (ht1 : H.timestamp < 134217728)
    (hcap2 : 2 ≤ cap) (hcap : ((min c R.length : Nat) : Int) ≤ cap)
    (hu : p.in_buffer_.unread = bh3 ++ R.take c ++ rest) :
    (RecvInterlacedMessage p).1 = .ERROR_SUCCESS ∧
    (RecvInterlacedMessage p).2.1.in_buffer_.unread = rest ∧
    (if R.length ≤ c then
        (RecvInterlacedMessage p).2.2 =
          some ⟨H, ((Q.length + R.length : Nat) : Int), some (Q ++ R)⟩
     else
        (RecvInterlacedMessage p).2.2 = none ∧
        InProgress (RecvInterlacedMessage p).2.1 cid c cap H (Q ++ R.take c)) := by
  obtain ⟨hcs, hcapeq, hmsg, hhdr, hext, hcnt⟩ := hin
  have hRpos : 0 < R.length := List.length_pos.mpr hR
  have e1 := ReadBasicHeader_decodes p.in_buffer_ bh3 (R.take c ++ rest) 3 cid hbh (by omega)
    (by omega) (by simpa using hu)
  have hmsg' : (p.find_cs cid).msg = some ⟨(p.find_cs cid).header, (Q.length : Int), some Q⟩ := by
    rw [hhdr]; exact hmsg
  have e2 := ReadMessageHeader_fmt3_same (p.in_buffer_.advance bh3.length) (p.find_cs cid) _ _
    hmsg' hext hcnt (by rw [hhdr]; exact ht0) (by rw [hhdr]; exact ht1)
  have hk : rs_min ((p.find_cs cid).header.payload_length - (Q.length : Int)) p.in_chunk_size_
      = ((min c R.length : Nat) : Int) := by
    rw [hhdr, hL, hcs]; unfold rs_min; split <;> omega
  have hun : (p.in_buffer_.advance bh3.length).unread = R.take c ++ rest := by
    rw [InBuffer.unread_advance, hu]; simp
  have hg : (p.in_buffer_.advance bh3.length).Grow ((min c R.length : Nat) : Int)
      = .ERROR_SUCCESS := by
    apply InBuffer.Grow_ok
    · omega
    · simpa [InBuffer.advance, hcapeq] using hcap
    · rw [hun, List.length_append, List.length_take]; omega
  have e3 := ReadMessagePayload_chunk p.in_chunk_size_ (p.in_buffer_.advance bh3.length)
    { p.find_cs cid with msg_count := (p.find_cs cid).msg_count + 1 }
    ⟨(p.find_cs cid).header, Q.length, some Q⟩ _ (by simpa using hmsg')
    (by simp [hhdr, hL]; omega) (by simpa using hk) hg
  have htake : List.take (min c R.length) (R.take c ++ rest) = R.take c := by
    rw [List.take_append_of_le_length (by simp)]
    simp [List.take_take]
  simp only [hun, Int.toNat_ofNat, htake, InBuffer.advance_advance, hhdr] at e3
  simp only [hhdr] at e2
  by_cases hle : R.length ≤ c
  · rw [if_pos (by simp [hL]; omega)] at e3
    rw [RecvInterlacedMessage_ok p _ _ _ _ _ _ _ _ e1 e2 e3]
    simp only [if_pos hle, Protocol.after_chunk_in_buffer, InBuffer.unread_advance, hu]
    refine ⟨trivial, ?_, ?_⟩
    · simp
    · simp [List.take_of_length_le hle, Nat.min_eq_right hle]
  · rw [if_neg (by simp [hL]; omega)] at e3
    rw [RecvInterlacedMessage_ok p _ _ _ _ _ _ _ _ e1 e2 e3]
    simp only [if_neg hle, Protocol.after_chunk_in_buffer, InBuffer.unread_advance, hu]
    refine ⟨trivial, ?_, trivial, ?_⟩
    · simp
    · unfold InProgress
      simp only [Protocol.after_chunk_find, Protocol.after_chunk_in_chunk_size,
        Protocol.after_chunk_in_buffer]
      refine ⟨hcs, by simpa [InBuffer.advance] using hcapeq, ?_, trivial, hext, by omega⟩
      simp

/-- The fmt=0 chunk that starts a message. -/
theorem recv_first_chunk (p : Protocol) (cid c : Nat) (cap : Int)
    (bh0 : List Nat) (t0 t1 t2 l0 l1 l2 ty s0 s1 s2 s3 : Nat) (P rest : List Nat)
    (hbh : IsBasicHeader bh0 0 cid)
    (ht0 : t0 < 256) (ht1 : t1 < 256) (ht2 : t2 < 256) (hty : ty < 256)
    (ht : t0 * 65536 + t1 * 256 + t2 < 16777215)
    (hc : 1 ≤ c) (hP : P ≠ []) (hL : l0 * 65536 + l1 * 256 + l2 = P.length)
    (hcs : p.in_chunk_size_ = c) (hcapeq : p.in_buffer_.capacity_ = cap)
    (hcap11 : 11 ≤ cap) (hcap : ((min c P.length : Nat) : Int) ≤ cap)
    (hmsg : (p.find_cs cid).msg = none)
    (hu : p.in_buffer_.unread =
      bh0 ++ [t0, t1, t2, l0, l1, l2, ty, s0, s1, s2, s3] ++ P.take c ++ rest) :
    (RecvInterlacedMessage p).1 = .ERROR_SUCCESS ∧
    (RecvInterlacedMessage p).2.1.in_buffer_.unread = rest ∧
    (if P.length ≤ c then
        (RecvInterlacedMessage p).2.2 =
          some ⟨fmt0_header (p.find_cs cid).header.perfer_cid t0 t1 t2 l0 l1 l2 ty s0 s1 s2 s3,
            (P.length : Int), some P⟩
     else
        (RecvInterlacedMessage p).2.2 = none ∧
        InProgress (RecvInterlacedMessage p).2.1 cid c cap
          (fmt0_header (p.find_cs cid).header.perfer_cid t0 t1 t2 l0 l1 l2 ty s0 s1 s2 s3)
          (P.take c)) := by
  have hPpos : 0 < P.length := List.length_pos.mpr hP
  have e1 := ReadBasicHeader_decodes p.in_buffer_ bh0
    ([t0, t1, t2, l0, l1, l2, ty, s0, s1, s2, s3] ++ P.take c ++ rest) 0 cid hbh (by omega)
    (by omega) (by simpa using hu)
  have hun1 : (p.in_buffer_.advance bh0.length).unread =
      [t0, t1, t2, l0, l1, l2, ty, s0, s1, s2, s3] ++ (P.take c ++ rest) := by
    rw [InBuffer.unread_advance, hu]; simp
  have e2 := ReadMessageHeader_fmt0 (p.in_buffer_.advance bh0.length) (p.find_cs cid)
    t0 t1 t2 l0 l1 l2 ty s0 s1 s2 s3 (P.take c ++ rest) ht0 ht1 ht2 hty ht hmsg
    (by simpa [InBuffer.advance, hcapeq] using hcap11) hun1
  have hun : ((p.in_buffer_.advance bh0.length).advance 11).unread = P.take c ++ rest := by
    rw [InBuffer.unread_advance, hun1]; simp
  have hg : ((p.in_buffer_.advance bh0.length).advance 11).Grow ((min c P.length : Nat) : Int)
      = .ERROR_SUCCESS := by
    apply InBuffer.Grow_ok
    · omega
    · simpa [InBuffer.advance, hcapeq] using hcap
    · rw [hun, List.length_append, List.length_take]; omega
  have hpl : (fmt0_header (p.find_cs cid).header.perfer_cid t0 t1 t2 l0 l1 l2 ty s0 s1 s2
      s3).payload_length = (P.length : Int) := by
    simp only [fmt0_header]; omega
  have e3 := ReadMessagePayload_chunk p.in_chunk_size_
    ((p.in_buffer_.advance bh0.length).advance 11)
    { p.find_cs cid with
        msg := some ⟨fmt0_header (p.find_cs cid).header.perfer_cid t0 t1 t2 l0 l1 l2 ty s0 s1
          s2 s3, 0, none⟩
        header := fmt0_header (p.find_cs cid).header.perfer_cid t0 t1 t2 l0 l1 l2 ty s0 s1 s2 s3
        extended_timestamp := false
        msg_count := (p.find_cs cid).msg_count + 1 }
    ⟨fmt0_header (p.find_cs cid).header.perfer_cid t0 t1 t2 l0 l1 l2 ty s0 s1 s2 s3, 0, none⟩
    ((min c P.length : Nat) : Int) rfl (by simp only [hpl]; omega)
    (by simp only [hpl, hcs]; unfold rs_min; split <;> omega) hg
  have htake : List.take (min c P.length) (P.take c ++ rest) = P.take c := by
    rw [List.take_append_of_le_length (by simp)]
    simp [List.take_take]
  have hfin : (p.in_buffer_.advance (bh0.length + 11 + min c P.length)).unread = rest := by
    rw [← InBuffer.advance_advance, ← InBuffer.advance_advance, InBuffer.unread_advance, hun]
    exact List.drop_left' (by simp)
  simp only [hun, Int.toNat_ofNat, htake, hpl] at e3
  simp only [InBuffer.advance_advance] at e3 e2
  by_cases hle : P.length ≤ c
  · rw [if_pos (by omega)] at e3
    rw [RecvInterlacedMessage_ok p _ _ _ _ _ _ _ _ e1 e2 e3]
    simp only [if_pos hle, Protocol.after_chunk_in_buffer, hfin]
    refine ⟨trivial, trivial, ?_⟩
    · simp [List.take_of_length_le hle, Nat.min_eq_right hle]
  · rw [if_neg (by omega)] at e3
    rw [RecvInterlacedMessage_ok p _ _ _ _ _ _ _ _ e1 e2 e3]
    simp only [if_neg hle, Protocol.after_chunk_in_buffer, hfin]
    refine ⟨trivial, trivial, trivial, ?_⟩
    · unfold InProgress
      simp only [Protocol.after_chunk_find, Protocol.after_chunk_in_chunk_size,
        Protocol.after_chunk_in_buffer]
      refine ⟨hcs, by simpa [InBuffer.advance] using hcapeq, ?_, trivial, trivial, by omega⟩
      simp

theorem fmt3_chunks_nil (bh3 : List Nat) (c fuel : Nat) : fmt3_chunks bh3 c fuel [] = [] := by
  cases fuel <;> simp [fmt3_chunks]

theorem chunk_count_nil (c fuel : Nat) : chunk_count c fuel [] = 0 := by
  cases fuel <;> simp [chunk_count]

theorem chunk_count_pos (c fuel : Nat) (R : List Nat) (hR : R ≠ []) (hf : R.length ≤ fuel) :
    1 ≤ chunk_count c fuel R := by
  cases fuel with
  | zero =>
    have := List.length_pos.mpr hR
    omega
  | succ n => simp [chunk_count, hR]

/-- The number of chunks is the quotient rounded up. -/
theorem chunk_count_eq (c : Nat) (hc : 1 ≤ c) :
    ∀ (fuel : Nat) (R : List Nat), R.length ≤ fuel →
      chunk_count c fuel R = (R.length + c - 1) / c := by
  intro fuel
  induction fuel with
  | zero =>
    intro R hR
    have h0 : R.length = 0 := by omega
    simp only [chunk_count, h0]
    exact (Nat.div_eq_of_lt (by omega)).symm
  | succ n ih =>
    intro R hR
    by_cases hnil : R = []
    · subst hnil
      simp only [chunk_count, if_true, List.length_nil]
      exact (Nat.div_eq_of_lt (by omega)).symm
    · have hpos : 0 < R.length := List.length_pos.mpr hnil
      simp only [chunk_count, if_neg hnil]
      rw [ih (R.drop c) (by rw [List.length_drop]; omega), List.length_drop]
      by_cases hle : R.length ≤ c
      · have h1 : (R.length - c + c - 1) / c = 0 := Nat.div_eq_of_lt (by omega)
        have h2 : (R.length + c - 1) / c = 1 :=
          Nat.div_eq_of_lt_le (by omega) (by omega)
        omega
      · have h3 : R.length + c - 1 = (R.length - c + c - 1) + c := by omega
        rw [h3, Nat.add_div_right _ (by omega : 0 < c)]
        omega

/-- The fmt=3 chunks of the rest of a message: every chunk but the last
returns no message, the last returns the whole payload. -/
theorem recv_rest (cid c : Nat) (cap : Int) (H : MessageHeader) (bh3 : List Nat)
    (hbh : IsBasicHeader bh3 3 cid) (hc : 1 ≤ c)
    (ht0 : 0 ≤ H.timestamp) (ht1 : H.timestamp < 134217728) (hcap2 : 2 ≤ cap) :
    ∀ (fuel : Nat) (p : Protocol) (Q R rest : List Nat),
      R.length ≤ fuel → R ≠ [] → InProgress p cid c cap H Q →
      H.payload_length = ((Q.length + R.length : Nat) : Int) →
      ((min c R.length : Nat) : Int) ≤ cap →
      p.in_buffer_.unread = fmt3_chunks bh3 c fuel R ++ rest →
      (recv_chunks (chunk_count c fuel R) p).1 =
        List.replicate (chunk_count c fuel R - 1) (.ERROR_SUCCESS, none) ++
          [(.ERROR_SUCCESS, some ⟨H, H.payload_length, some (Q ++ R)⟩)] ∧
      (recv_chunks (chunk_count c fuel R) p).2.in_buffer_.unread = rest := by
  intro fuel
  induction fuel with
  | zero =>
    intro p Q R rest hf hR
    have := List.length_pos.mpr hR
    omega
  | succ n ih =>
    intro p Q R rest hf hR hin hL hcap hu
    have hpos : 0 < R.length := List.length_pos.mpr hR
    simp only [fmt3_chunks, if_neg hR] at hu
    have hstep := recv_next_chunk p cid c cap H Q R bh3
      (fmt3_chunks bh3 c n (R.drop c) ++ rest) hin hbh hc hR hL ht0 ht1 hcap2 hcap
      (by simpa [List.append_assoc] using hu)
    obtain ⟨hs1, hs2, hs3⟩ := hstep
    simp only [chunk_count, if_neg hR]
    rw [Nat.add_comm 1]
    simp only [recv_chunks]
    by_cases hle : R.length ≤ c
    · rw [if_pos hle] at hs3
      have hdrop : R.drop c = [] := List.drop_eq_nil_of_le hle
      rw [hdrop, fmt3_chunks_nil, List.nil_append] at hs2
      simp only [hdrop, chunk_count_nil, recv_chunks, hs1, hs3, hL]
      exact ⟨by simp, hs2⟩
    · rw [if_neg hle] at hs3
      obtain ⟨hs3, hin'⟩ := hs3
      have hdne : R.drop c ≠ [] := by
        intro h
        have := congrArg List.length h
        simp at this
        omega
      have hdl : (R.drop c).length = R.length - c := List.length_drop _ _
      have hih := ih (RecvInterlacedMessage p).2.1 (Q ++ R.take c) (R.drop c) rest
        (by omega) hdne hin'
        (by rw [hL, List.length_append, List.length_take, hdl]; congr 1; omega)
        (by rw [hdl]; omega) hs2
      obtain ⟨hi1, hi2⟩ := hih
      have hk := chunk_count_pos c n (R.drop c) hdne (by omega)
      obtain ⟨j, hj⟩ : ∃ j, chunk_count c n (R.drop c) = j + 1 := ⟨_, (Nat.sub_add_cancel hk).symm⟩
      rw [hj] at hi1 hi2 ⊢
      refine ⟨?_, hi2⟩
      rw [hi1, hs1, hs3]
      simp [List.replicate_succ, List.append_assoc]

/-- Reassembly of one message sent as a fmt=0 chunk followed by fmt=3 chunks:
every call of `RecvInterlacedMessage` but the last returns no message, the
last one returns the message with the whole payload. -/
theorem recv_message (p : Protocol) (cid c : Nat) (cap : Int)
    (bh0 bh3 : List Nat) (t0 t1 t2 l0 l1 l2 ty s0 s1 s2 s3 : Nat) (P rest : List Nat)
    (hbh0 : IsBasicHeader bh0 0 cid) (hbh3 : IsBasicHeader bh3 3 cid)
    (ht0 : t0 < 256) (ht1 : t1 < 256) (ht2 : t2 < 256) (hty : ty < 256)
    (ht : t0 * 65536 + t1 * 256 + t2 < 16777215)
    (hc : 1 ≤ c) (hP : P ≠ []) (hL : l0 * 65536 + l1 * 256 + l2 = P.length)
    (hcs : p.in_chunk_size_ = c) (hcapeq : p.in_buffer_.capacity_ = cap)
    (hcap11 : 11 ≤ cap) (hcap : ((min c P.length : Nat) : Int) ≤ cap)
    (hmsg : (p.find_cs cid).msg = none)
    (hu : p.in_buffer_.unread =
      message_chunks bh0 [t0, t1, t2, l0, l1, l2, ty, s0, s1, s2, s3] bh3 c P ++ rest) :
    (recv_chunks ((P.length + c - 1) / c) p).1 =
      List.replicate ((P.length + c - 1) / c - 1) (.ERROR_SUCCESS, none) ++
        [(.ERROR_SUCCESS,
          some ⟨fmt0_header (p.find_cs cid).header.perfer_cid t0 t1 t2 l0 l1 l2 ty s0 s1 s2 s3,
            (P.length : Int), some P⟩)] ∧
    (recv_chunks ((P.length + c - 1) / c) p).2.in_buffer_.unread = rest := by
  have hPpos : 0 < P.length := List.length_pos.mpr hP
  have hdl : (P.drop c).length = P.length - c := List.length_drop _ _
  have hn : (P.length + c - 1) / c = chunk_count c P.length (P.drop c) + 1 := by
    rw [← chunk_count_eq c hc (P.length + 1) P (by omega)]
    simp only [chunk_count, if_neg hP]
    omega
  rw [hn]
  simp only [recv_chunks, Nat.add_sub_cancel]
  have hstep := recv_first_chunk p cid c cap bh0 t0 t1 t2 l0 l1 l2 ty s0 s1 s2 s3 P
    (fmt3_chunks bh3 c P.length (P.drop c) ++ rest) hbh0 ht0 ht1 ht2 hty ht hc hP hL hcs hcapeq
    hcap11 hcap hmsg (by simpa [message_chunks, List.append_assoc] using hu)
  obtain ⟨hs1, hs2, hs3⟩ := hstep
  by_cases hle : P.length ≤ c
  · rw [if_pos hle] at hs3
    have hdrop : P.drop c = [] := List.drop_eq_nil_of_le hle
    rw [hdrop, fmt3_chunks_nil, List.nil_append] at hs2
    simp only [hdrop, chunk_count_nil, recv_chunks, hs1, hs3]
    exact ⟨by simp, hs2⟩
  · rw [if_neg hle] at hs3
    obtain ⟨hs3, hin⟩ := hs3
    have hdne : P.drop c ≠ [] := by
      intro h
      have := congrArg List.length h
      simp at this
      omega
    have hpl : (fmt0_header (p.find_cs cid).header.perfer_cid t0 t1 t2 l0 l1 l2 ty s0 s1 s2
        s3).payload_length = (P.length : Int) := by
      simp only [fmt0_header]; omega
    have hrest := recv_rest cid c cap
      (fmt0_header (p.find_cs cid).header.perfer_cid t0 t1 t2 l0 l1 l2 ty s0 s1 s2 s3) bh3 hbh3 hc
      (by simp only [fmt0_header]; omega) (by simp only [fmt0_header]; omega) (by omega)
      P.length (RecvInterlacedMessage p).2.1 (P.take c) (P.drop c) rest (by omega) hdne hin
      (by rw [hpl, List.length_take, hdl]; congr 1; omega) (by rw [hdl]; omega) hs2
    obtain ⟨hr1, hr2⟩ := hrest
    rw [List.take_append_drop, hpl] at hr1
    refine ⟨?_, hr2⟩
    rw [hr1, hs1, hs3]
    obtain ⟨j, hj⟩ : ∃ j, chunk_count c P.length (P.drop c) = j + 1 :=
      ⟨_, (Nat.sub_add_cancel (chunk_count_pos c P.length (P.drop c) hdne (by omega))).symm⟩
    rw [hj]
    simp [List.replicate_succ]

/-- `ReadMessagePayload` when `Grow` fails for the payload run. -/
theorem ReadMessagePayload_grow_fails (c : Int) (b : InBuffer) (cs : ChunkStream)
    (m : CommonMessage) (k : Int) (hmsg : cs.msg = some m) (hpl : 0 < cs.header.payload_length)
    (hk : rs_min (cs.header.payload_length - m.size) c = k)
    (hg : b.Grow k ≠ .ERROR_SUCCESS) :
    (ReadMessagePayload c b cs).1 = b.Grow k ∧ (ReadMessagePayload c b cs).2.2.2 = none := by
  have hpl' : ¬ cs.header.payload_length ≤ 0 := by omega
  unfold ReadMessagePayload
  rw [if_neg hpl', hmsg]
  simp [hk, hg]

/-- `RecvInterlacedMessage` when the payload step fails. -/
theorem RecvInterlacedMessage_payload_fails (p : Protocol) (b1 b2 : InBuffer) (fmt cid : Nat)
    (cs2 : ChunkStream) (e : ErrorCode)
    (e1 : ReadBasicHeader p.in_buffer_ 0 0 = (.ERROR_SUCCESS, b1, fmt, cid))
    (e2 : ReadMessageHeader b1 (p.find_cs cid) fmt = (.ERROR_SUCCESS, b2, cs2))
    (e3 : (ReadMessagePayload p.in_chunk_size_ b2 cs2).1 = e) (he : e ≠ .ERROR_SUCCESS) :
    (RecvInterlacedMessage p).1 = e ∧ (RecvInterlacedMessage p).2.2 = none := by
  simp only [RecvInterlacedMessage, e1, e2, e3]
  simp [he]

/-- A fmt=0 chunk whose payload run is larger than the receive buffer: the
call fails with the buffer overflow code and returns no message. -/
theorem recv_first_chunk_overflow (p : Protocol) (cid c : Nat) (cap : Int)
    (bh0 : List Nat) (t0 t1 t2 l0 l1 l2 ty s0 s1 s2 s3 : Nat) (P rest : List Nat)
    (hbh : IsBasicHeader bh0 0 cid)
    (ht0 : t0 < 256) (ht1 : t1 < 256) (ht2 : t2 < 256) (hty : ty < 256)
    (ht : t0 * 65536 + t1 * 256 + t2 < 16777215)
    (hP : P ≠ []) (hL : l0 * 65536 + l1 * 256 + l2 = P.length)
    (hcs : p.in_chunk_size_ = c) (hcapeq : p.in_buffer_.capacity_ = cap)
    (hcap11 : 11 ≤ cap) (hcap : cap < ((min c P.length : Nat) : Int))
    (hmsg : (p.find_cs cid).msg = none)
    (hu : p.in_buffer_.unread =
      bh0 ++ [t0, t1, t2, l0, l1, l2, ty, s0, s1, s2, s3] ++ rest) :
    (RecvInterlacedMessage p).1 = .ERROR_READER_BUFFER_OVERFLOW ∧
    (RecvInterlacedMessage p).2.2 = none := by
  have hPpos : 0 < P.length := List.length_pos.mpr hP
  have e1 := ReadBasicHeader_decodes p.in_buffer_ bh0
    ([t0, t1, t2, l0, l1, l2, ty, s0, s1, s2, s3] ++ rest) 0 cid hbh (by omega)
    (by omega) (by simpa using hu)
  have hun1 : (p.in_buffer_.advance bh0.length).unread =
      [t0, t1, t2, l0, l1, l2, ty, s0, s1, s2, s3] ++ rest := by
    rw [InBuffer.unread_advance, hu]; simp
  have e2 := ReadMessageHeader_fmt0 (p.in_buffer_.advance bh0.length) (p.find_cs cid)
    t0 t1 t2 l0 l1 l2 ty s0 s1 s2 s3 rest ht0 ht1 ht2 hty ht hmsg
    (by simpa [InBuffer.advance, hcapeq] using hcap11) hun1
  have hg : ((p.in_buffer_.advance bh0.length).advance 11).Grow ((min c P.length : Nat) : Int)
      = .ERROR_READER_BUFFER_OVERFLOW := by
    apply InBuffer.Grow_overflow
    · omega
    · simpa [InBuffer.advance, hcapeq] using hcap
  have hpl : (fmt0_header (p.find_cs cid).header.perfer_cid t0 t1 t2 l0 l1 l2 ty s0 s1 s2
      s3).payload_length = (P.length : Int) := by
    simp only [fmt0_header]; omega
  have e3 := ReadMessagePayload_grow_fails p.in_chunk_size_
    ((p.in_buffer_.advance bh0.length).advance 11)
    { p.find_cs cid with
        msg := some ⟨fmt0_header (p.find_cs cid).header.perfer_cid t0 t1 t2 l0 l1 l2 ty s0 s1
          s2 s3, 0, none⟩
        header := fmt0_header (p.find_cs cid).header.perfer_cid t0 t1 t2 l0 l1 l2 ty s0 s1 s2 s3
        extended_timestamp := false
        msg_count := (p.find_cs cid).msg_count + 1 }
    ⟨fmt0_header (p.find_cs cid).header.perfer_cid t0 t1 t2 l0 l1 l2 ty s0 s1 s2 s3, 0, none⟩
    ((min c P.length : Nat) : Int) rfl (by simp only [hpl]; omega)
    (by simp only [hpl, hcs]; unfold rs_min; split <;> omega) (by rw [hg]; decide)
  rw [hg] at e3
  exact RecvInterlacedMessage_payload_fails p _ _ _ _ _ _ e1 e2 e3.1 (by decide)

/-! ## Reassembly of a chunked message -/

/-- C1, as amended: for every payload `P` of length `L ≥ 1` and every inbound
chunk size `c ≥ 1` such that a chunk's payload run fits the receive buffer
(`min c L ≤ 131072`), when the receiver is fed, on one chunk stream with no
message in progress, a fmt=0 chunk (timestamp field below `0xFFFFFF`, length
field `L`) followed by the
fmt=3 chunks carrying the successive `min(c, remaining)` bytes of `P`, the
first `⌈L/c⌉ - 1` calls of `RecvInterlacedMessage` succeed without a message and
the last call returns one message of size `L` whose payload is `P`. -/
theorem reassembly_of_chunked_message (p : Protocol) (cid c : Nat)
    (bh0 bh3 : List Nat) (t0 t1 t2 l0 l1 l2 ty s0 s1 s2 s3 : Nat) (P rest : List Nat)
    (hbh0 : IsBasicHeader bh0 0 cid) (hbh3 : IsBasicHeader bh3 3 cid)
    (ht0 : t0 < 256) (ht1 : t1 < 256) (ht2 : t2 < 256) (hty : ty < 256)
    (ht : t0 * 65536 + t1 * 256 + t2 < 0xFFFFFF)
    (hc : 1 ≤ c) (hP : 1 ≤ P.length) (hL : l0 * 65536 + l1 * 256 + l2 = P.length)
    (hfit : min c P.length ≤ 131072)
    (hcs : p.in_chunk_size_ = c)
    (hcap : p.in_buffer_.capacity_ = RS_DEFAULT_RECV_BUFFER_SIZE)
    (hmsg : (p.find_cs cid).msg = none)
    (hu : p.in_buffer_.unread =
      message_chunks bh0 [t0, t1, t2, l0, l1, l2, ty, s0, s1, s2, s3] bh3 c P ++ rest) :
    (recv_chunks ((P.length + c - 1) / c) p).1 =
      List.replicate ((P.length + c - 1) / c - 1) (.ERROR_SUCCESS, none) ++
        [(.ERROR_SUCCESS,
          some ⟨fmt0_header (p.find_cs cid).header.perfer_cid t0 t1 t2 l0 l1 l2 ty s0 s1 s2 s3,
            (P.length : Int), some P⟩)] :=
  (recv_message p cid c RS_DEFAULT_RECV_BUFFER_SIZE bh0 bh3 t0 t1 t2 l0 l1 l2 ty s0 s1 s2 s3 P
    rest hbh0 hbh3 ht0 ht1 ht2 hty ht hc (List.length_pos.mp hP) hL hcs hcap (by decide)
    (by simp only [RS_DEFAULT_RECV_BUFFER_SIZE]; omega) hmsg hu).1

/-- Witness for C1: the 3-byte message `10 20 30` sent with chunk size 2. -/
theorem reassembly_of_chunked_message_witness :
    (recv_chunks 2 demo_receiver).1 =
      [(.ERROR_SUCCESS, none),
       (.ERROR_SUCCESS, some ⟨⟨5, 3, 9, 1, 5, 3⟩, 3, some [10, 20, 30]⟩)] :=
  reassembly_of_chunked_message demo_receiver 3 2 [3] [195] 0 0 5 0 0 3 9 0 0 0 1 [10, 20, 30] []
    (by simp [IsBasicHeader]) (by simp [IsBasicHeader]) (by decide) (by decide) (by decide)
    (by decide) (by decide) (by decide) (by decide) (by decide) (by decide) rfl rfl rfl rfl

/-- C1, counterexample to the claim as stated: with `L = c = 131073` the message
is one fmt=0 chunk (`⌈L/c⌉ = 1`), and the call that should return it fails with
the buffer overflow code and returns no message. -/
theorem reassembly_fails_beyond_buffer :
    big_payload.length = 131073 ∧ (131073 + 131073 - 1) / 131073 = 1 ∧
    (recv_chunks 1 big_receiver).1 = [(.ERROR_READER_BUFFER_OVERFLOW, none)] := by
  have hlen : big_payload.length = 131073 := List.length_replicate _ _
  have hne : big_payload ≠ [] := by
    intro h
    rw [h] at hlen
    simp at hlen
  have h := recv_first_chunk_overflow big_receiver 3 131073 RS_DEFAULT_RECV_BUFFER_SIZE [3]
    0 0 5 2 0 1 9 0 0 0 1 big_payload
    (big_payload.take 131073 ++ fmt3_chunks [195] 131073 big_payload.length
      (big_payload.drop 131073))
    (by simp [IsBasicHeader]) (by decide) (by decide) (by decide) (by decide) (by decide)
    hne (by rw [hlen]) rfl rfl (by decide) (by rw [hlen]; decide) rfl
    (by simp [big_receiver, Protocol.new, InBuffer.unread, message_chunks])
  refine ⟨hlen, by decide, ?_⟩
  simp only [recv_chunks, h.1, h.2]

/-! ## The basic header -/

/-- C3: `ReadBasicHeader` decodes the basic header for every first byte `x`:
fmt is `x / 64`, the top two bits (0..3); with `c = x % 64` (`x & 0x3f`), if
`c ≥ 2` the cid is `c` and one byte is consumed; if `c = 0` the cid is 64 plus
the next byte and two bytes are consumed; if `c = 1` the cid is 64 plus the next
byte plus 256 times the byte after it and three bytes are consumed. -/
theorem ReadBasicHeader_decodes_every_first_byte (b : InBuffer) (x : Nat) (rest : List Nat)
    (hx : x < 256) (hcap : 2 ≤ b.capacity_) (hu : b.unread = x :: rest) :
    x / 64 ≤ 3 ∧
    (2 ≤ x % 64 →
      ReadBasicHeader b 0 0 = (.ERROR_SUCCESS, b.advance 1, x / 64, x % 64)) ∧
    (x % 64 = 0 → ∀ (y : Nat) (rest1 : List Nat), y < 256 → rest = y :: rest1 →
      ReadBasicHeader b 0 0 = (.ERROR_SUCCESS, b.advance 2, x / 64, 64 + y)) ∧
    (x % 64 = 1 → ∀ (y z : Nat) (rest2 : List Nat), y < 256 → z < 256 →
      rest = y :: z :: rest2 →
      ReadBasicHeader b 0 0 = (.ERROR_SUCCESS, b.advance 3, x / 64, 64 + y + 256 * z)) := by
  refine ⟨by omega, ?_, ?_, ?_⟩
  · intro h
    exact ReadBasicHeader_decodes b [x] rest (x / 64) (x % 64)
      ⟨by omega, h, by omega⟩ (by omega) hcap (by simpa using hu)
  · intro h y rest1 hy hr
    exact ReadBasicHeader_decodes b [x, y] rest1 (x / 64) (64 + y)
      ⟨by omega, hy, rfl⟩ (by omega) hcap (by simpa [hr] using hu)
  · intro h y z rest2 hy hz hr
    exact ReadBasicHeader_decodes b [x, y, z] rest2 (x / 64) (64 + y + 256 * z)
      ⟨by omega, hy, hz, rfl⟩ (by omega) hcap (by simpa [hr] using hu)

/-- Witness for C3: the first byte `0x41` (fmt 1, low bits 1) followed by
`0x02 0x01` is chunk stream 64 + 2 + 256 = 322, three bytes consumed. -/
theorem ReadBasicHeader_decodes_every_first_byte_witness :
    ReadBasicHeader (buffer_of [0x41, 2, 1, 7]) 0 0 =
      (.ERROR_SUCCESS, (buffer_of [0x41, 2, 1, 7]).advance 3, 1, 322) :=
  (ReadBasicHeader_decodes_every_first_byte (buffer_of [0x41, 2, 1, 7]) 0x41 [2, 1, 7]
    (by decide) (by decide) rfl).2.2.2 (by decide) 2 1 [7] (by decide) (by decide) rfl

/-! ## The message header -/

/-- C4: for a fmt=0 chunk on a chunk stream with no message in progress whose
24-bit timestamp field `t` is below `0xFFFFFF`, `ReadMessageHeader` succeeds,
consumes exactly 11 bytes and sets `header.timestamp = t`,
`header.payload_length` to the 3-byte big-endian length field,
`header.message_type` to the type byte and `header.stream_id` to the 4-byte
stream-id field (read by `Read4Bytes`); the message it starts carries a copy of
that header. -/
theorem ReadMessageHeader_fmt0_sets_header (b : InBuffer) (cs : ChunkStream)
    (t0 t1 t2 l0 l1 l2 ty s0 s1 s2 s3 : Nat) (rest : List Nat)
    (ht0 : t0 < 256) (ht1 : t1 < 256) (ht2 : t2 < 256) (hty : ty < 256)
    (ht : t0 * 65536 + t1 * 256 + t2 < 0xFFFFFF)
    (hmsg : cs.msg = none) (hcap : 11 ≤ b.capacity_)
    (hu : b.unread = [t0, t1, t2, l0, l1, l2, ty, s0, s1, s2, s3] ++ rest) :
    (ReadMessageHeader b cs 0).1 = .ERROR_SUCCESS ∧
    (ReadMessageHeader b cs 0).2.1 = b.advance 11 ∧
    (ReadMessageHeader b cs 0).2.1.unread = rest ∧
    (ReadMessageHeader b cs 0).2.2.header.timestamp =
      ((t0 * 65536 + t1 * 256 + t2 : Nat) : Int) ∧
    (ReadMessageHeader b cs 0).2.2.header.payload_length =
      ((l0 * 65536 + l1 * 256 + l2 : Nat) : Int) ∧
    (ReadMessageHeader b cs 0).2.2.header.message_type = (ty : Int) ∧
    (ReadMessageHeader b cs 0).2.2.header.stream_id =
      to_int32 (s0 * 16777216 + s1 * 65536 + s2 * 256 + s3) ∧
    (ReadMessageHeader b cs 0).2.2.msg =
      some ⟨(ReadMessageHeader b cs 0).2.2.header, 0, none⟩ := by
  rw [ReadMessageHeader_fmt0 b cs t0 t1 t2 l0 l1 l2 ty s0 s1 s2 s3 rest ht0 ht1 ht2 hty ht hmsg
    hcap hu]
  refine ⟨rfl, rfl, ?_, ?_, ?_, ?_, ?_, ?_⟩
  · rw [InBuffer.unread_advance, hu]
    rfl
  all_goals simp only [fmt0_header]

/-- Witness for C4: the header `00 00 05 | 00 00 03 | 09 | 00 00 00 01` on the
fresh chunk stream 3. -/
theorem ReadMessageHeader_fmt0_sets_header_witness :
    (ReadMessageHeader (buffer_of (demo_mh ++ [10, 20])) (ChunkStream.new 3) 0).2.1.unread
      = [10, 20] ∧
    (ReadMessageHeader (buffer_of (demo_mh ++ [10, 20])) (ChunkStream.new 3) 0).2.2.header.timestamp
      = 5 :=
  have h := ReadMessageHeader_fmt0_sets_header (buffer_of (demo_mh ++ [10, 20]))
    (ChunkStream.new 3) 0 0 5 0 0 3 9 0 0 0 1 [10, 20] (by decide) (by decide) (by decide)
    (by decide) (by decide) rfl (by decide) rfl
  ⟨h.2.2.1, h.2.2.2.1⟩

theorem InBuffer.Grow_ne_chunk_start (b : InBuffer) (n : Int) :
    b.Grow n ≠ .ERROR_RTMP_CHUNK_START := by
  unfold InBuffer.Grow
  split_ifs <;> simp

/-- The header fields block reports a chunk start error only for a chunk that
continues a message. -/
theorem ReadMessageHeader_fields_first (b : InBuffer) (cs : ChunkStream) (fmt : Nat)
    (mh_size : Int) :
    (ReadMessageHeader_fields b cs fmt true mh_size).1 ≠ .ERROR_RTMP_CHUNK_START := by
  unfold ReadMessageHeader_fields BufferReader.Initialize
  simp only []
  split_ifs <;> simp_all

theorem ReadMessageHeader_extended_ne_chunk_start (b : InBuffer) (cs : ChunkStream)
    (first : Bool) :
    (ReadMessageHeader_extended b cs first).1 ≠ .ERROR_RTMP_CHUNK_START := by
  unfold ReadMessageHeader_extended
  simp only []
  split_ifs <;> simp [InBuffer.Grow_ne_chunk_start]

/-- A chunk that passes the two start checks on a chunk stream without a
message in progress never fails with the chunk start error. -/
theorem ReadMessageHeader_first_no_chunk_start (b : InBuffer) (cs : ChunkStream) (fmt : Nat)
    (hmsg : cs.msg = none)
    (hpass : ¬ (cs.msg_count = 0 ∧ fmt ≠ 0 ∧ ¬ (cs.cid = 2 ∧ fmt = 1))) :
    (ReadMessageHeader b cs fmt).1 ≠ .ERROR_RTMP_CHUNK_START := by
  unfold ReadMessageHeader
  simp only [RTMP_FMT_TYPE0, RTMP_FMT_TYPE1, RTMP_CID_PROTOCOL_CONTROL]
  rw [if_neg hpass, if_neg (by simp [hmsg])]
  simp only [hmsg, Option.isNone_none]
  split_ifs
  · exact InBuffer.Grow_ne_chunk_start _ _
  · exact ReadMessageHeader_fields_first _ _ _ _
  · exact ReadMessageHeader_extended_ne_chunk_start _ _ _
  · simp

/-- C9, counterexample to the claim as stated: the connection delivers the basic
header `03` of a fmt=0 chunk and then the reader fails.  `ReadMessageHeader`
has made the message object before it asks for the header bytes, so the chunk
stream 3 is left with `msg_count = 0` and a message.  A fmt=0 chunk on this
chunk stream fails with `ERROR_RTMP_CHUNK_START`, although fmt is 0. -/
theorem ReadMessageHeader_fresh_with_message :
    (RecvInterlacedMessage (Protocol.new [3] 0 ⟨[], 0, 0⟩)).1 = .reader_error 0 ∧
    ((RecvInterlacedMessage (Protocol.new [3] 0 ⟨[], 0, 0⟩)).2.1.find_cs 3).msg_count = 0 ∧
    ((RecvInterlacedMessage (Protocol.new [3] 0 ⟨[], 0, 0⟩)).2.1.find_cs 3).msg =
      some CommonMessage.new ∧
    (ReadMessageHeader (buffer_of (demo_mh ++ [10, 20, 30]))
      ((RecvInterlacedMessage (Protocol.new [3] 0 ⟨[], 0, 0⟩)).2.1.find_cs 3) 0).1 =
        .ERROR_RTMP_CHUNK_START := by
  decide

/-- C9, as amended: on a chunk stream with `msg_count = 0`, `ReadMessageHeader`
fails with `ERROR_RTMP_CHUNK_START` whenever fmt is not 0 and it is not the
tolerated case cid = 2 with fmt = 1, and returns the chunk stream and the
buffer unchanged.  When the chunk stream holds no message these are the only
failures with that code, and each of them returns the chunk stream and the
buffer unchanged.  When it holds a message (a first read that failed has left
one), a fmt=0 chunk fails with that code too, again with the chunk stream and
the buffer unchanged. -/
theorem ReadMessageHeader_fresh_chunk_start (b : InBuffer) (cs : ChunkStream) (fmt : Nat)
    (hcount : cs.msg_count = 0) :
    (fmt ≠ 0 ∧ ¬ (cs.cid = 2 ∧ fmt = 1) →
      ReadMessageHeader b cs fmt = (.ERROR_RTMP_CHUNK_START, b, cs)) ∧
    (cs.msg = none →
      ((ReadMessageHeader b cs fmt).1 = .ERROR_RTMP_CHUNK_START ↔
        (fmt ≠ 0 ∧ ¬ (cs.cid = 2 ∧ fmt = 1))) ∧
      ((ReadMessageHeader b cs fmt).1 = .ERROR_RTMP_CHUNK_START →
        (ReadMessageHeader b cs fmt).2.2 = cs ∧ (ReadMessageHeader b cs fmt).2.1 = b)) ∧
    (cs.msg.isSome = true →
      ReadMessageHeader b cs 0 = (.ERROR_RTMP_CHUNK_START, b, cs)) := by
  have hfail : fmt ≠ 0 ∧ ¬ (cs.cid = 2 ∧ fmt = 1) →
      ReadMessageHeader b cs fmt = (.ERROR_RTMP_CHUNK_START, b, cs) := by
    intro hc
    unfold ReadMessageHeader
    simp only [RTMP_FMT_TYPE0, RTMP_FMT_TYPE1, RTMP_CID_PROTOCOL_CONTROL]
    rw [if_pos ⟨hcount, hc⟩]
  refine ⟨hfail, ?_, ?_⟩
  · intro hmsg
    by_cases hc : fmt ≠ 0 ∧ ¬ (cs.cid = 2 ∧ fmt = 1)
    · rw [hfail hc]
      exact ⟨⟨fun _ => hc, fun _ => rfl⟩, fun _ => ⟨rfl, rfl⟩⟩
    · have hne : (ReadMessageHeader b cs fmt).1 ≠ .ERROR_RTMP_CHUNK_START :=
         ReadMessageHeader_first_no_chunk_start b cs fmt hmsg (fun h => hc h.2)
      exact ⟨⟨fun h => absurd h hne, fun h => absurd h hc⟩, fun h => absurd h hne⟩
  · intro hsome
    unfold ReadMessageHeader
    simp only [RTMP_FMT_TYPE0, RTMP_FMT_TYPE1, RTMP_CID_PROTOCOL_CONTROL]
    rw [if_neg (by simp), if_pos ⟨hsome, trivial⟩]

/-- Witness for C9: a fmt=3 chunk on the chunk stream 3 as constructed is refused
and the chunk stream stays as constructed; a fmt=0 chunk on the chunk stream 3
with `msg_count = 0` and a message is refused. -/
theorem ReadMessageHeader_fresh_chunk_start_witness :
    (ReadMessageHeader (buffer_of [10, 20]) (ChunkStream.new 3) 3).1 = .ERROR_RTMP_CHUNK_START ∧
    (ReadMessageHeader (buffer_of [10, 20]) (ChunkStream.new 3) 3).2.2 = ChunkStream.new 3 ∧
    (ReadMessageHeader (buffer_of demo_mh)
        { ChunkStream.new 3 with msg := some CommonMessage.new } 0).1 =
      .ERROR_RTMP_CHUNK_START :=
  have h := ReadMessageHeader_fresh_chunk_start (buffer_of [10, 20]) (ChunkStream.new 3) 3 rfl
  have h2 := ReadMessageHeader_fresh_chunk_start (buffer_of demo_mh)
    { ChunkStream.new 3 with msg := some CommonMessage.new } 0 rfl
  ⟨((h.2.1 rfl).1).mpr (by decide), ((h.2.1 rfl).2 (((h.2.1 rfl).1).mpr (by decide))).1,
    congrArg (fun x => x.1) (h2.2.2 rfl)⟩

/-- C10: a fmt=0 chunk on a chunk stream that has a message in progress fails
with `ERROR_RTMP_CHUNK_START`; the chunk stream (the message in progress with
its bytes and header, and the chunk stream's header) and the buffer are
returned unchanged. -/
theorem ReadMessageHeader_fmt0_in_progress (b : InBuffer) (cs : ChunkStream)
    (m : CommonMessage) (hmsg : cs.msg = some m) :
    ReadMessageHeader b cs 0 = (.ERROR_RTMP_CHUNK_START, b, cs) := by
  unfold ReadMessageHeader
  simp [hmsg]

/-- Witness for C10: a second fmt=0 chunk while 2 of 3 bytes have arrived. -/
theorem ReadMessageHeader_fmt0_in_progress_witness :
    ReadMessageHeader (buffer_of demo_mh)
        { ChunkStream.new 3 with
            msg := some ⟨⟨5, 3, 9, 1, 5, 3⟩, 2, some [10, 20]⟩
            header := ⟨5, 3, 9, 1, 5, 3⟩
            msg_count := 1 } 0 =
      (.ERROR_RTMP_CHUNK_START, buffer_of demo_mh,
        { ChunkStream.new 3 with
            msg := some ⟨⟨5, 3, 9, 1, 5, 3⟩, 2, some [10, 20]⟩
            header := ⟨5, 3, 9, 1, 5, 3⟩
            msg_count := 1 }) :=
  ReadMessageHeader_fmt0_in_progress (buffer_of demo_mh) _ ⟨⟨5, 3, 9, 1, 5, 3⟩, 2, some [10, 20]⟩ rfl

/-- C7, the code at the failing input: a fmt=0 chunk whose 24-bit field is
`0xFFFFFF` and whose extended timestamp is `08 00 00 00` (T = 2^27 < 2^31) is
accepted and leaves `header.timestamp = 0`: the final mask `0x7ffffff` keeps 27
bits, not 31. -/
theorem extended_timestamp_loses_bit_27 :
    (ReadMessageHeader
      (buffer_of [0xff, 0xff, 0xff, 0, 0, 3, 9, 0, 0, 0, 1, 0x08, 0, 0, 0, 10, 20, 30])
      (ChunkStream.new 3) 0).1 = .ERROR_SUCCESS ∧
    (ReadMessageHeader
      (buffer_of [0xff, 0xff, 0xff, 0, 0, 3, 9, 0, 0, 0, 1, 0x08, 0, 0, 0, 10, 20, 30])
      (ChunkStream.new 3) 0).2.2.header.timestamp = 0 ∧
    (0x08000000 : Int) % 0x80000000 = 134217728 := by
  decide

/-- C8, counterexample to the claim as stated: the stream-id bytes `01 00 00 00`
are decoded as 16777216, not 1, and stream id 1 is emitted as `00 00 00 01`. -/
theorem stream_id_not_little_endian :
    (ReadMessageHeader (buffer_of [0, 0, 5, 0, 0, 3, 9, 1, 0, 0, 0]) (ChunkStream.new 3)
      0).2.2.header.stream_id = 16777216 ∧
    chunk_header_c0 3 5 3 9 1 = [3, 0, 0, 5, 0, 0, 3, 9, 0, 0, 0, 1] := by
  decide

theorem byte_of_lt (v : Int) (k : Nat) : byte_of v k < 256 := by
  unfold byte_of
  omega

/-- Decoding the four bytes of a 32-bit value, most significant first, gives
the value back when it is in the `int32_t` range. -/
theorem to_int32_bytes (v : Int) (h0 : -2147483648 ≤ v) (h1 : v < 2147483648) :
    to_int32 (byte_of v 3 * 16777216 + byte_of v 2 * 65536 + byte_of v 1 * 256 + byte_of v 0)
      = v := by
  unfold to_int32 byte_of
  simp only [pow_zero, pow_one, Int.reducePow]
  split <;> omega

/-- C8, as amended: the message stream id is big-endian in this codec.
`ReadMessageHeader` decodes the 4 stream-id bytes of a fmt=0 header most
significant byte first, `chunk_header_c0` writes `stream_id` most significant
byte first at offsets 8..11, and decoding the bytes it writes gives
`stream_id` back for every `int32_t` value. -/
theorem stream_id_big_endian (b : InBuffer) (cs : ChunkStream)
    (t0 t1 t2 l0 l1 l2 ty s0 s1 s2 s3 : Nat) (rest : List Nat)
    (perfer_cid timestamp payload_length message_type stream_id : Int)
    (ht0 : t0 < 256) (ht1 : t1 < 256) (ht2 : t2 < 256) (hty : ty < 256)
    (ht : t0 * 65536 + t1 * 256 + t2 < 0xFFFFFF)
    (hs0 : -2147483648 ≤ stream_id) (hs1 : stream_id < 2147483648)
    (hmsg : cs.msg = none) (hcap : 11 ≤ b.capacity_)
    (hu : b.unread = [t0, t1, t2, l0, l1, l2, ty, s0, s1, s2, s3] ++ rest) :
    (ReadMessageHeader b cs 0).2.2.header.stream_id =
      to_int32 (s0 * 16777216 + s1 * 65536 + s2 * 256 + s3) ∧
    ((chunk_header_c0 perfer_cid timestamp payload_length message_type stream_id).drop 8).take 4
      = [byte_of stream_id 3, byte_of stream_id 2, byte_of stream_id 1, byte_of stream_id 0] ∧
    to_int32 (byte_of stream_id 3 * 16777216 + byte_of stream_id 2 * 65536
      + byte_of stream_id 1 * 256 + byte_of stream_id 0) = stream_id := by
  refine ⟨?_, ?_, to_int32_bytes stream_id hs0 hs1⟩
  · rw [ReadMessageHeader_fmt0 b cs t0 t1 t2 l0 l1 l2 ty s0 s1 s2 s3 rest ht0 ht1 ht2 hty ht
      hmsg hcap hu]
    simp only [fmt0_header]
  · unfold chunk_header_c0
    split_ifs <;> simp

/-- Witness for C8: the bytes `00 00 00 01` are stream id 1, and stream id 1 is
written as `00 00 00 01`. -/
theorem stream_id_big_endian_witness :
    (ReadMessageHeader (buffer_of demo_mh) (ChunkStream.new 3) 0).2.2.header.stream_id = 1 ∧
    ((chunk_header_c0 3 5 3 9 1).drop 8).take 4 = [0, 0, 0, 1] :=
  have h := stream_id_big_endian (buffer_of demo_mh) (ChunkStream.new 3) 0 0 5 0 0 3 9 0 0 0 1 []
    3 5 3 9 1 (by decide) (by decide) (by decide) (by decide) (by decide) (by decide) (by decide)
    rfl (by decide) rfl
  ⟨h.1, h.2.1⟩

/-! ## Header compression -/

/-- The shape of a successful `ReadMessageHeader`: both start checks pass, the
two blocks succeed, and the three final statements are applied. -/
theorem ReadMessageHeader_success_form (b : InBuffer) (cs : ChunkStream) (fmt : Nat)
    (h : (ReadMessageHeader b cs fmt).1 = .ERROR_SUCCESS) :
    ∃ (b2 b3 : InBuffer) (cs2 cs3 : ChunkStream),
      ¬ (cs.msg_count = 0 ∧ fmt ≠ 0 ∧ ¬ (cs.cid = 2 ∧ fmt = 1)) ∧
      ¬ (cs.msg.isSome = true ∧ fmt = 0) ∧
      ReadMessageHeader_fields b { cs with msg := some (cs.msg.getD CommonMessage.new) } fmt
        cs.msg.isNone (mh_sizes.getD fmt 0) = (.ERROR_SUCCESS, b2, cs2) ∧
      ReadMessageHeader_extended b2 cs2 cs.msg.isNone = (.ERROR_SUCCESS, b3, cs3) ∧
      ReadMessageHeader b cs fmt = (.ERROR_SUCCESS, b3, ReadMessageHeader_finish cs3) := by
  unfold ReadMessageHeader at h ⊢
  simp only [] at h ⊢
  by_cases h1 : cs.msg_count = 0 ∧ fmt ≠ RTMP_FMT_TYPE0 ∧
      ¬ (cs.cid = RTMP_CID_PROTOCOL_CONTROL ∧ fmt = RTMP_FMT_TYPE1)
  · rw [if_pos h1] at h
    simp at h
  rw [if_neg h1] at h ⊢
  by_cases h2 : cs.msg.isSome = true ∧ fmt = RTMP_FMT_TYPE0
  · rw [if_pos h2] at h
    simp at h
  rw [if_neg h2] at h ⊢
  by_cases h3 : mh_sizes.getD fmt 0 > 0 ∧ b.Grow (mh_sizes.getD fmt 0) ≠ .ERROR_SUCCESS
  · rw [if_pos h3] at h
    exact absurd h h3.2
  rw [if_neg h3] at h ⊢
  by_cases h4 : (ReadMessageHeader_fields b
      { cs with msg := some (cs.msg.getD CommonMessage.new) } fmt cs.msg.isNone
      (mh_sizes.getD fmt 0)).1 ≠ .ERROR_SUCCESS
  · rw [if_pos h4] at h
    exact absurd h h4
  rw [if_neg h4] at h ⊢
  by_cases h5 : (ReadMessageHeader_extended
      (ReadMessageHeader_fields b { cs with msg := some (cs.msg.getD CommonMessage.new) } fmt
        cs.msg.isNone (mh_sizes.getD fmt 0)).2.1
      (ReadMessageHeader_fields b { cs with msg := some (cs.msg.getD CommonMessage.new) } fmt
        cs.msg.isNone (mh_sizes.getD fmt 0)).2.2 cs.msg.isNone).1 ≠ .ERROR_SUCCESS
  · rw [if_pos h5] at h
    exact absurd h h5
  rw [if_neg h5]
  exact ⟨_, _, _, _, h1, h2, Prod.ext (not_not.mp h4) rfl, Prod.ext (not_not.mp h5) rfl, rfl⟩

/-- What the header fields block leaves alone, whatever its result code. -/
theorem ReadMessageHeader_fields_frame (b : InBuffer) (cs : ChunkStream) (fmt : Nat)
    (first : Bool) (mh_size : Int) :
    (ReadMessageHeader_fields b cs fmt first mh_size).2.2.msg = cs.msg ∧
    (1 ≤ fmt → (ReadMessageHeader_fields b cs fmt first mh_size).2.2.header.stream_id
      = cs.header.stream_id) ∧
    (2 ≤ fmt →
      (ReadMessageHeader_fields b cs fmt first mh_size).2.2.header.payload_length
        = cs.header.payload_length ∧
      (ReadMessageHeader_fields b cs fmt first mh_size).2.2.header.message_type
        = cs.header.message_type) ∧
    (3 ≤ fmt → (ReadMessageHeader_fields b cs fmt first mh_size).2.2.header.timestamp_delta
      = cs.header.timestamp_delta) := by
  unfold ReadMessageHeader_fields BufferReader.Initialize
  simp only [RTMP_FMT_TYPE0, RTMP_FMT_TYPE1, RTMP_FMT_TYPE2]
  split_ifs <;> simp <;> omega

/-- The extended timestamp block changes nothing but `header.timestamp`. -/
theorem ReadMessageHeader_extended_frame (b : InBuffer) (cs : ChunkStream) (first : Bool) :
    (ReadMessageHeader_extended b cs first).2.2.msg = cs.msg ∧
    (ReadMessageHeader_extended b cs first).2.2.header.stream_id = cs.header.stream_id ∧
    (ReadMessageHeader_extended b cs first).2.2.header.payload_length
      = cs.header.payload_length ∧
    (ReadMessageHeader_extended b cs first).2.2.header.message_type = cs.header.message_type ∧
    (ReadMessageHeader_extended b cs first).2.2.header.timestamp_delta
      = cs.header.timestamp_delta := by
  unfold ReadMessageHeader_extended
  simp only []
  split_ifs <;> exact ⟨rfl, rfl, rfl, rfl, rfl⟩

/-- C5: header-compression inheritance as a frame property of
`ReadMessageHeader`: a successful fmt=1 chunk leaves `stream_id` unchanged; a
successful fmt=2 chunk leaves `payload_length`, `message_type` and `stream_id`
unchanged; a successful fmt=3 chunk leaves `payload_length`, `message_type`,
`stream_id` and `timestamp_delta` unchanged; in every case the in-progress
message's header equals the chunk stream's header afterwards. -/
theorem header_compression_inheritance (b : InBuffer) (cs : ChunkStream) (fmt : Nat)
    (h : (ReadMessageHeader b cs fmt).1 = .ERROR_SUCCESS) :
    (fmt = 1 →
      (ReadMessageHeader b cs fmt).2.2.header.stream_id = cs.header.stream_id) ∧
    (fmt = 2 →
      (ReadMessageHeader b cs fmt).2.2.header.payload_length = cs.header.payload_length ∧
      (ReadMessageHeader b cs fmt).2.2.header.message_type = cs.header.message_type ∧
      (ReadMessageHeader b cs fmt).2.2.header.stream_id = cs.header.stream_id) ∧
    (fmt = 3 →
      (ReadMessageHeader b cs fmt).2.2.header.payload_length = cs.header.payload_length ∧
      (ReadMessageHeader b cs fmt).2.2.header.message_type = cs.header.message_type ∧
      (ReadMessageHeader b cs fmt).2.2.header.stream_id = cs.header.stream_id ∧
      (ReadMessageHeader b cs fmt).2.2.header.timestamp_delta = cs.header.timestamp_delta) ∧
    (ReadMessageHeader b cs fmt).2.2.msg.map (fun m => m.header) =
      some (ReadMessageHeader b cs fmt).2.2.header := by
  obtain ⟨b2, b3, cs2, cs3, -, -, hf, he, hr⟩ := ReadMessageHeader_success_form b cs fmt h
  have ff := ReadMessageHeader_fields_frame b
    { cs with msg := some (cs.msg.getD CommonMessage.new) } fmt cs.msg.isNone
    (mh_sizes.getD fmt 0)
  have ef := ReadMessageHeader_extended_frame b2 cs2 cs.msg.isNone
  rw [hf] at ff
  rw [he] at ef
  simp only at ff ef
  obtain ⟨f0, f1, f2, f3⟩ := ff
  obtain ⟨e0, e1, e2, e3, e4⟩ := ef
  rw [hr]
  simp only [ReadMessageHeader_finish]
  refine ⟨?_, ?_, ?_, ?_⟩
  · intro hfmt
    rw [e1, f1 (by omega)]
  · intro hfmt
    have := f2 (by omega)
    exact ⟨by rw [e2, this.1], by rw [e3, this.2], by rw [e1, f1 (by omega)]⟩
  · intro hfmt
    have := f2 (by omega)
    exact ⟨by rw [e2, this.1], by rw [e3, this.2], by rw [e1, f1 (by omega)],
      by rw [e4, f3 (by omega)]⟩
  · rw [e0, f0]
    rfl

/-- Witness for C5: a fmt=3 chunk that continues the message of chunk stream 3
keeps length 3, type 9, stream id 1 and delta 5. -/
theorem header_compression_inheritance_witness :
    (ReadMessageHeader (buffer_of [30])
        { ChunkStream.new 3 with
            msg := some ⟨⟨5, 3, 9, 1, 5, 3⟩, 2, some [10, 20]⟩
            header := ⟨5, 3, 9, 1, 5, 3⟩
            msg_count := 1 } 3).2.2.header.payload_length = 3 ∧
    (ReadMessageHeader (buffer_of [30])
        { ChunkStream.new 3 with
            msg := some ⟨⟨5, 3, 9, 1, 5, 3⟩, 2, some [10, 20]⟩
            header := ⟨5, 3, 9, 1, 5, 3⟩
            msg_count := 1 } 3).2.2.header.stream_id = 1 :=
  have h := (header_compression_inheritance (buffer_of [30])
    { ChunkStream.new 3 with
        msg := some ⟨⟨5, 3, 9, 1, 5, 3⟩, 2, some [10, 20]⟩
        header := ⟨5, 3, 9, 1, 5, 3⟩
        msg_count := 1 } 3 (by decide)).2.2.1 rfl
  ⟨h.1, h.2.2.1⟩

/-! ## Timestamps -/

/-- The extended timestamp block does nothing when no extended timestamp is in
use. -/
theorem ReadMessageHeader_extended_off (b : InBuffer) (cs : ChunkStream) (first : Bool)
    (h : cs.extended_timestamp = false) :
    ReadMessageHeader_extended b cs first = (.ERROR_SUCCESS, b, cs) := by
  simp [ReadMessageHeader_extended, h]

/-- The header fields block of a fmt=1 or fmt=2 chunk whose delta field is below
`0xFFFFFF`: the delta is added to the timestamp and no extended timestamp is
announced. -/
theorem ReadMessageHeader_fields_delta (b : InBuffer) (cs : ChunkStream) (fmt : Nat)
    (first : Bool) (d0 d1 d2 : Nat) (rest : List Nat)
    (hfmt : fmt = 1 ∨ fmt = 2)
    (hd : d0 * 65536 + d1 * 256 + d2 < 16777215)
    (hu : b.unread = d0 :: d1 :: d2 :: rest) :
    (ReadMessageHeader_fields b cs fmt first (mh_sizes.getD fmt 0)).2.2.header.timestamp =
      cs.header.timestamp + ((d0 * 65536 + d1 * 256 + d2 : Nat) : Int) ∧
    (ReadMessageHeader_fields b cs fmt first (mh_sizes.getD fmt 0)).2.2.extended_timestamp
      = false := by
  have hext : ¬ (16777215 ≤ (d0 : Int) * 65536 + (d1 : Int) * 256 + (d2 : Int)) := by omega
  rcases hfmt with h | h <;> subst h
  · simp [ReadMessageHeader_fields, mh_sizes, BufferReader.Initialize,
      InBuffer.ReadSlice_eq, hu, BufferReader.Read3Bytes, BufferReader.at_,
      RTMP_FMT_TYPE0, RTMP_FMT_TYPE1, RTMP_FMT_TYPE2, RTMP_EXTENDED_TIMESTAMP, hext]
    split_ifs <;> simp
  · simp [ReadMessageHeader_fields, mh_sizes, BufferReader.Initialize,
      InBuffer.ReadSlice_eq, hu, BufferReader.Read3Bytes, BufferReader.at_,
      RTMP_FMT_TYPE0, RTMP_FMT_TYPE1, RTMP_FMT_TYPE2, RTMP_EXTENDED_TIMESTAMP, hext]

/-- The header fields block of a fmt=3 chunk. -/
theorem ReadMessageHeader_fields_fmt3 (b : InBuffer) (cs : ChunkStream) (first : Bool)
    (mh_size : Int) :
    ReadMessageHeader_fields b cs 3 first mh_size =
      if first = true ∧ cs.extended_timestamp = false then
        (.ERROR_SUCCESS, b,
          { cs with header := { cs.header with
              timestamp := cs.header.timestamp + cs.header.timestamp_delta } })
      else (.ERROR_SUCCESS, b, cs) := by
  simp [ReadMessageHeader_fields, RTMP_FMT_TYPE2]

/-- C6: timestamp accumulation without extended timestamps (timestamp fields and
sums below `0xFFFFFF`).  A successful fmt=1 or fmt=2 chunk with delta field `d`
sets `header.timestamp` to the previous timestamp plus `d`; a successful fmt=3
chunk that starts a new message sets it to the previous timestamp plus the
stored `timestamp_delta`; a successful fmt=3 chunk that continues a message in
progress leaves it unchanged. -/
theorem timestamp_accumulation (b : InBuffer) (cs : ChunkStream)
    (h0 : 0 ≤ cs.header.timestamp) :
    (∀ (fmt d0 d1 d2 : Nat) (rest : List Nat), fmt = 1 ∨ fmt = 2 →
      b.unread = d0 :: d1 :: d2 :: rest →
      d0 * 65536 + d1 * 256 + d2 < 0xFFFFFF →
      cs.header.timestamp + ((d0 * 65536 + d1 * 256 + d2 : Nat) : Int) < 0xFFFFFF →
      (ReadMessageHeader b cs fmt).1 = .ERROR_SUCCESS →
      (ReadMessageHeader b cs fmt).2.2.header.timestamp =
        cs.header.timestamp + ((d0 * 65536 + d1 * 256 + d2 : Nat) : Int)) ∧
    (cs.msg = none → cs.extended_timestamp = false →
      0 ≤ cs.header.timestamp + cs.header.timestamp_delta →
      cs.header.timestamp + cs.header.timestamp_delta < 0xFFFFFF →
      (ReadMessageHeader b cs 3).1 = .ERROR_SUCCESS →
      (ReadMessageHeader b cs 3).2.2.header.timestamp =
        cs.header.timestamp + cs.header.timestamp_delta) ∧
    (cs.msg ≠ none → cs.extended_timestamp = false →
      cs.header.timestamp < 0xFFFFFF →
      (ReadMessageHeader b cs 3).1 = .ERROR_SUCCESS →
      (ReadMessageHeader b cs 3).2.2.header.timestamp = cs.header.timestamp) := by
  refine ⟨?_, ?_, ?_⟩
  · intro fmt d0 d1 d2 rest hfmt hu hd hsum hok
    obtain ⟨b2, b3, cs2, cs3, -, -, hf, he, hr⟩ := ReadMessageHeader_success_form b cs fmt hok
    have hfd := ReadMessageHeader_fields_delta b
      { cs with msg := some (cs.msg.getD CommonMessage.new) } fmt cs.msg.isNone d0 d1 d2 rest
      hfmt hd hu
    rw [hf] at hfd
    simp only at hfd
    rw [ReadMessageHeader_extended_off b2 cs2 _ hfd.2] at he
    have hcs : cs3 = cs2 := by
      have := congrArg (fun r => r.2.2) he
      exact this.symm
    rw [hr, hcs]
    simp only [ReadMessageHeader_finish, hfd.1]
    omega
  · intro hmsg hext h1 h2 hok
    obtain ⟨b2, b3, cs2, cs3, -, -, hf, he, hr⟩ := ReadMessageHeader_success_form b cs 3 hok
    rw [ReadMessageHeader_fields_fmt3, if_pos (by simp [hmsg, hext])] at hf
    have hcs2 : cs2 = { cs with
        msg := some (cs.msg.getD CommonMessage.new)
        header := { cs.header with
          timestamp := cs.header.timestamp + cs.header.timestamp_delta } } :=
      (congrArg (fun r => r.2.2) hf).symm
    rw [ReadMessageHeader_extended_off b2 cs2 _ (by rw [hcs2]; exact hext)] at he
    have hcs : cs3 = cs2 := (congrArg (fun r => r.2.2) he).symm
    rw [hr, hcs, hcs2]
    simp only [ReadMessageHeader_finish]
    omega
  · intro hmsg hext h1 hok
    obtain ⟨b2, b3, cs2, cs3, -, -, hf, he, hr⟩ := ReadMessageHeader_success_form b cs 3 hok
    have hnone : cs.msg.isNone = false := by
      cases hm : cs.msg
      · exact absurd hm hmsg
      · rfl
    rw [ReadMessageHeader_fields_fmt3, if_neg (by simp [hnone])] at hf
    have hcs2 : cs2 = { cs with msg := some (cs.msg.getD CommonMessage.new) } :=
      (congrArg (fun r => r.2.2) hf).symm
    rw [ReadMessageHeader_extended_off b2 cs2 _ (by rw [hcs2]; exact hext)] at he
    have hcs : cs3 = cs2 := (congrArg (fun r => r.2.2) he).symm
    rw [hr, hcs, hcs2]
    simp only [ReadMessageHeader_finish]
    omega

/-- Witness for C6: a fmt=2 chunk with delta field `00 00 28` (40) on a chunk
stream whose timestamp is 5 gives timestamp 45. -/
theorem timestamp_accumulation_witness :
    (ReadMessageHeader (buffer_of [0, 0, 40, 10, 20])
        { ChunkStream.new 3 with header := ⟨5, 3, 9, 1, 5, 3⟩, msg_count := 1 }
        2).2.2.header.timestamp = 45 :=
  (timestamp_accumulation (buffer_of [0, 0, 40, 10, 20])
    { ChunkStream.new 3 with header := ⟨5, 3, 9, 1, 5, 3⟩, msg_count := 1 } (by decide)).1
    2 0 0 40 [10, 20] (Or.inr rfl) rfl (by decide) (by decide) (by decide)

/-! ## The emitter -/

theorem fmt3_chunks_fuel (bh3 : List Nat) (c : Nat) (hc : 1 ≤ c) :
    ∀ (n m : Nat) (R : List Nat), R.length ≤ n → R.length ≤ m →
      fmt3_chunks bh3 c n R = fmt3_chunks bh3 c m R := by
  intro n
  induction n with
  | zero =>
    intro m R hn _
    have : R = [] := List.length_eq_zero.mp (by omega)
    subst this
    rw [fmt3_chunks_nil, fmt3_chunks_nil]
  | succ n ih =>
    intro m R hn hm
    by_cases hR : R = []
    · subst hR
      rw [fmt3_chunks_nil, fmt3_chunks_nil]
    · have hpos : 0 < R.length := List.length_pos.mpr hR
      obtain ⟨k, rfl⟩ : ∃ k, m = k + 1 := ⟨m - 1, by omega⟩
      simp only [fmt3_chunks, if_neg hR]
      rw [ih k (R.drop c) (by rw [List.length_drop]; omega) (by rw [List.length_drop]; omega)]

/-- The three low bytes of a value below 2^24, most significant first. -/
theorem byte_of_24 (v : Int) (h0 : 0 ≤ v) (h1 : v < 16777216) :
    ((byte_of v 2 * 65536 + byte_of v 1 * 256 + byte_of v 0 : Nat) : Int) = v := by
  unfold byte_of
  simp only [pow_zero, pow_one, Int.reducePow]
  omega

/-- The fmt=0 header written for a timestamp below `0xFFFFFF`: the basic header
byte and the 11 message header bytes. -/
theorem chunk_header_c0_short (perfer_cid timestamp payload_length message_type stream_id : Int)
    (h : timestamp < 16777215) :
    chunk_header_c0 perfer_cid timestamp payload_length message_type stream_id =
      [(perfer_cid % 64).toNat] ++
      [byte_of timestamp 2, byte_of timestamp 1, byte_of timestamp 0,
       byte_of payload_length 2, byte_of payload_length 1, byte_of payload_length 0,
       byte_of message_type 0,
       byte_of stream_id 3, byte_of stream_id 2, byte_of stream_id 1, byte_of stream_id 0] := by
  have h2 : ¬ timestamp ≥ 16777215 := by omega
  simp [chunk_header_c0, h, h2]

/-- The loop of `DoSimpleSend` after the first chunk: the rest `R` of the
payload leaves as fmt=3 chunks. -/
theorem DoSimpleSend_loop_rest (c : Nat) (hc : 1 ≤ c) (H : MessageHeader) (P : List Nat) :
    ∀ (n : Nat) (R : List Nat) (p : Nat) (w : Writer), R.length ≤ n → 0 < p →
      p + R.length = P.length → P.drop p = R → chunk_count c n R ≤ w.ok_writes →
      DoSimpleSend_loop c H P P.length (n + 1) p w =
        some (.ERROR_SUCCESS,
          ⟨w.sent ++ fmt3_chunks (chunk_header_c3 H.perfer_cid (H.timestamp % 4294967296)) c n R,
            w.ok_writes - chunk_count c n R, w.write_ret⟩) := by
  intro n
  induction n with
  | zero =>
    intro R p w hn hp hlen _ _
    have hR : R = [] := List.length_eq_zero.mp (by omega)
    subst hR
    have : ¬ ((p : Int) < (P.length : Int)) := by simp at hlen; omega
    simp [DoSimpleSend_loop, this, fmt3_chunks, chunk_count]
  | succ n ih =>
    intro R p w hn hp hlen hdrop hw
    by_cases hR : R = []
    · subst hR
      have : ¬ ((p : Int) < (P.length : Int)) := by simp at hlen; omega
      simp [DoSimpleSend_loop, this, fmt3_chunks, chunk_count]
    · have hpos : 0 < R.length := List.length_pos.mpr hR
      have hlt : (p : Int) < (P.length : Int) := by omega
      have hp0 : ¬ ((p : Int) = 0) := by omega
      simp only [chunk_count, if_neg hR] at hw
      obtain ⟨k, hk⟩ : ∃ k, w.ok_writes = k + 1 := ⟨w.ok_writes - 1, by omega⟩
      have hmin : rs_min ((P.length : Int) - (p : Int)) (c : Int) = ((min c R.length : Nat) : Int) := by
        unfold rs_min; split <;> omega
      have hslice : (P.drop p).take (min c R.length) = R.take c := by
        rw [hdrop]
        by_cases hle : R.length ≤ c
        · rw [Nat.min_eq_right hle, List.take_of_length_le (le_refl _), List.take_of_length_le hle]
        · rw [Nat.min_eq_left (by omega)]
      have hdrop2 : P.drop (p + min c R.length) = R.drop c := by
        rw [← List.drop_drop, hdrop]
        by_cases hle : R.length ≤ c
        · rw [Nat.min_eq_right hle, List.drop_of_length_le (le_refl _), List.drop_of_length_le hle]
        · rw [Nat.min_eq_left (by omega)]
      have hih := ih (R.drop c) (p + min c R.length)
        ⟨w.sent ++ (chunk_header_c3 H.perfer_cid (H.timestamp % 4294967296) ++ R.take c), k,
          w.write_ret⟩
        (by rw [List.length_drop]; omega) (by omega) (by rw [List.length_drop]; omega) hdrop2
        (by simp only; omega)
      rw [DoSimpleSend_loop]
      simp only [if_pos hlt, if_neg hp0, hmin, Int.toNat_ofNat, hslice, Writer.WriteEv, hk]
      simp only [ne_eq, not_true_eq_false, if_false, List.flatten, List.append_nil]
      rw [← Nat.cast_add, hih]
      simp only [fmt3_chunks, if_neg hR, chunk_count, List.append_assoc]
      congr 3
      omega

/-- `DoSimpleSend` of a non-empty payload with enough fuel and enough accepted
writes: a fmt=0 chunk followed by fmt=3 chunks leaves through the writer. -/
theorem DoSimpleSend_sends (ps : Protocol) (H : MessageHeader) (P : List Nat) (c n : Nat)
    (hc : 1 ≤ c) (hP : P ≠ []) (hn : (P.drop c).length ≤ n)
    (hout : ps.out_chunk_size_ = c)
    (hw : 1 + chunk_count c n (P.drop c) ≤ ps.rw_.ok_writes) :
    DoSimpleSend (n + 2) ps H P P.length =
      some (.ERROR_SUCCESS,
        { ps with rw_ :=
          ⟨ps.rw_.sent ++
            (chunk_header_c0 H.perfer_cid (H.timestamp % 4294967296) H.payload_length
                H.message_type H.stream_id ++ P.take c ++
              fmt3_chunks (chunk_header_c3 H.perfer_cid (H.timestamp % 4294967296)) c n
                (P.drop c)),
            ps.rw_.ok_writes - (1 + chunk_count c n (P.drop c)), ps.rw_.write_ret⟩ }) := by
  have hpos : 0 < P.length := List.length_pos.mpr hP
  have hlt : (0 : Int) < (P.length : Int) := by omega
  obtain ⟨k, hk⟩ : ∃ k, ps.rw_.ok_writes = k + 1 := ⟨ps.rw_.ok_writes - 1, by omega⟩
  have hmin : rs_min ((P.length : Int) - 0) (c : Int) = ((min c P.length : Nat) : Int) := by
    unfold rs_min; split <;> omega
  have hslice : P.take (min c P.length) = P.take c := by
    by_cases hle : P.length ≤ c
    · rw [Nat.min_eq_right hle, List.take_of_length_le (le_refl _), List.take_of_length_le hle]
    · rw [Nat.min_eq_left (by omega)]
  have hdrop : P.drop (min c P.length) = P.drop c := by
    by_cases hle : P.length ≤ c
    · rw [Nat.min_eq_right hle, List.drop_of_length_le (le_refl _), List.drop_of_length_le hle]
    · rw [Nat.min_eq_left (by omega)]
  have hrest := DoSimpleSend_loop_rest c hc H P n (P.drop c) (min c P.length)
    ⟨ps.rw_.sent ++ (chunk_header_c0 H.perfer_cid (H.timestamp % 4294967296) H.payload_length
      H.message_type H.stream_id ++ P.take c), k, ps.rw_.write_ret⟩
    hn (by omega) (by rw [List.length_drop]; omega) hdrop (by simp only; omega)
  unfold DoSimpleSend
  rw [hout, DoSimpleSend_loop]
  simp only [if_pos hlt, if_true, hmin, Int.toNat_ofNat, Int.toNat_zero, List.drop_zero, hslice,
    Writer.WriteEv, hk]
  simp only [ne_eq, not_true_eq_false, if_false, List.flatten, List.append_nil, Int.zero_add]
  rw [hrest]
  simp only [Option.map_some', List.append_assoc]
  congr 4
  omega

/-! ## Round trip of the emitter and the receiver -/

theorem fresh_receiver_find_cs (c : Int) (wire : List Nat) (reader_ret : Nat) (rw : Writer)
    (cid : Nat) : (fresh_receiver c wire reader_ret rw).find_cs cid = ChunkStream.new cid := by
  unfold fresh_receiver Protocol.new Protocol.find_cs
  split <;> rfl

/-- C2, as amended: round trip of the chunk emitter and the chunk receiver.  For
every message header with preferred cid in 2..63, timestamp in `[0, 0xFFFFFF)`,
message type in 0..127 and any 32-bit stream id, every non-empty payload
shorter than 2^24 bytes and every chunk size `c ≥ 1` such that one chunk's
payload run fits the receive buffer (`min c L ≤ 131072`), `DoSimpleSend` with
`out_chunk_size_ = c` (enough fuel, every write accepted) returns success, and
the bytes it wrote, fed to a fresh receiver with `in_chunk_size_ = c`,
reassemble to exactly one message, returned by the last of `⌈L/c⌉` calls, with
the same payload, payload length, message type, stream id and timestamp. -/
theorem emit_receive_round_trip (ps : Protocol) (H : MessageHeader) (P : List Nat)
    (c fuel reader_ret : Nat) (rw : Writer)
    (hcid : 2 ≤ H.perfer_cid ∧ H.perfer_cid ≤ 63)
    (hts : 0 ≤ H.timestamp ∧ H.timestamp < 0xFFFFFF)
    (hmt : 0 ≤ H.message_type ∧ H.message_type ≤ 127)
    (hsid : -2147483648 ≤ H.stream_id ∧ H.stream_id < 2147483648)
    (hpl : H.payload_length = (P.length : Int))
    (hP : 1 ≤ P.length) (hlen : P.length < 16777216)
    (hc : 1 ≤ c) (hfit : min c P.length ≤ 131072)
    (hout : ps.out_chunk_size_ = c)
    (hw : (P.length + c - 1) / c ≤ ps.rw_.ok_writes)
    (hfuel : P.length + 2 ≤ fuel) :
    ∃ (ps1 : Protocol) (wire : List Nat),
      DoSimpleSend fuel ps H P P.length = some (.ERROR_SUCCESS, ps1) ∧
      ps1.rw_.sent = ps.rw_.sent ++ wire ∧
      (recv_chunks ((P.length + c - 1) / c) (fresh_receiver c wire reader_ret rw)).1 =
        List.replicate ((P.length + c - 1) / c - 1) (.ERROR_SUCCESS, none) ++
          [(.ERROR_SUCCESS,
            some ⟨{ H with timestamp_delta := H.timestamp }, (P.length : Int), some P⟩)] := by
  have hPne : P ≠ [] := List.length_pos.mp hP
  obtain ⟨n, rfl⟩ : ∃ n, fuel = n + 2 := ⟨fuel - 2, by omega⟩
  have hdl : (P.drop c).length = P.length - c := List.length_drop _ _
  have hcount : 1 + chunk_count c n (P.drop c) = (P.length + c - 1) / c := by
    rw [← chunk_count_eq c hc (n + 1) P (by omega)]
    simp only [chunk_count, if_neg hPne]
  have hsend := DoSimpleSend_sends ps H P c n hc hPne (by omega) hout (by omega)
  have htsmod : H.timestamp % 4294967296 = H.timestamp := by omega
  rw [htsmod] at hsend
  refine ⟨_, _, hsend, rfl, ?_⟩
  rw [chunk_header_c0_short _ _ _ _ _ (by omega),
    fmt3_chunks_fuel _ c hc n P.length (P.drop c) (by omega) (by omega)]
  have hk2 : 2 ≤ (H.perfer_cid % 64).toNat := by omega
  have hk63 : (H.perfer_cid % 64).toNat ≤ 63 := by omega
  have hc3 : chunk_header_c3 H.perfer_cid H.timestamp = [3 * 64 + (H.perfer_cid % 64).toNat] := by
    have h2 : ¬ H.timestamp ≥ 16777215 := by omega
    simp [chunk_header_c3, h2]
  have h24 := byte_of_24 H.timestamp hts.1 (by omega)
  have hl24 := byte_of_24 H.payload_length (by omega) (by omega)
  have hrecv := recv_message (fresh_receiver c
      ([(H.perfer_cid % 64).toNat] ++
        [byte_of H.timestamp 2, byte_of H.timestamp 1, byte_of H.timestamp 0,
         byte_of H.payload_length 2, byte_of H.payload_length 1, byte_of H.payload_length 0,
         byte_of H.message_type 0,
         byte_of H.stream_id 3, byte_of H.stream_id 2, byte_of H.stream_id 1,
         byte_of H.stream_id 0] ++ P.take c ++
        fmt3_chunks (chunk_header_c3 H.perfer_cid H.timestamp) c P.length (P.drop c))
      reader_ret rw)
    (H.perfer_cid % 64).toNat c RS_DEFAULT_RECV_BUFFER_SIZE
    [(H.perfer_cid % 64).toNat] (chunk_header_c3 H.perfer_cid H.timestamp)
    (byte_of H.timestamp 2) (byte_of H.timestamp 1) (byte_of H.timestamp 0)
    (byte_of H.payload_length 2) (byte_of H.payload_length 1) (byte_of H.payload_length 0)
    (byte_of H.message_type 0)
    (byte_of H.stream_id 3) (byte_of H.stream_id 2) (byte_of H.stream_id 1)
    (byte_of H.stream_id 0) P []
    ⟨by omega, hk2, hk63⟩ (by rw [hc3]; exact ⟨rfl, hk2, hk63⟩)
    (byte_of_lt _ _) (byte_of_lt _ _) (byte_of_lt _ _) (byte_of_lt _ _)
    (by omega) hc hPne (by omega) rfl rfl (by decide)
    (by simp only [RS_DEFAULT_RECV_BUFFER_SIZE]; omega)
    (by rw [fresh_receiver_find_cs]; rfl)
    (by simp [fresh_receiver, Protocol.new, InBuffer.unread, message_chunks])
  rw [hrecv.1, fresh_receiver_find_cs]
  congr 4
  have hmt8 : ((byte_of H.message_type 0 : Nat) : Int) = H.message_type := by
    unfold byte_of
    simp only [pow_zero]
    omega
  have hsid := to_int32_bytes H.stream_id hsid.1 hsid.2
  have hcidk : (((H.perfer_cid % 64).toNat : Nat) : Int) = H.perfer_cid := by omega
  rcases H with ⟨a1, a2, a3, a4, a5, a6⟩
  simp only [fmt0_header, ChunkStream.new, MessageHeader.new] at *
  simp only [h24, hl24, hmt8, hsid, hcidk]

/-- Witness for C2: the 3-byte video message `10 20 30` sent and received with
chunk size 2. -/
theorem emit_receive_round_trip_witness :
    ∃ (ps1 : Protocol) (wire : List Nat),
      DoSimpleSend 5 (demo_sender 2 2) (demo_header 3) [10, 20, 30] 3
        = some (.ERROR_SUCCESS, ps1) ∧
      ps1.rw_.sent = [] ++ wire ∧
      (recv_chunks 2 (fresh_receiver 2 wire 0 ⟨[], 0, 0⟩)).1 =
        [(.ERROR_SUCCESS, none),
         (.ERROR_SUCCESS, some ⟨⟨5, 3, 9, 1, 5, 3⟩, 3, some [10, 20, 30]⟩)] :=
  emit_receive_round_trip (demo_sender 2 2) (demo_header 3) [10, 20, 30] 2 5 0 ⟨[], 0, 0⟩
    (by decide) (by decide) (by decide) (by decide) rfl (by decide) (by decide) (by decide)
    (by decide) rfl (by decide) (by decide)

/-- C2, counterexample to the claim as stated: with chunk size 131073 the
131073-byte payload leaves `DoSimpleSend` as one fmt=0 chunk, and the fresh
receiver with the same chunk size fails on it with the buffer overflow code and
returns no message. -/
theorem round_trip_fails_beyond_buffer :
    ∃ (ps1 : Protocol),
      DoSimpleSend 3 (demo_sender 131073 1) (demo_header 131073) big_payload 131073
        = some (.ERROR_SUCCESS, ps1) ∧
      (recv_chunks 1 (fresh_receiver 131073 ps1.rw_.sent 0 ⟨[], 0, 0⟩)).1 =
        [(.ERROR_READER_BUFFER_OVERFLOW, none)] := by
  have hlen : big_payload.length = 131073 := List.length_replicate _ _
  have hne : big_payload ≠ [] := by
    intro h
    rw [h] at hlen
    simp at hlen
  have hdrop : big_payload.drop 131073 = [] := List.drop_of_length_le (by omega)
  have hsend := DoSimpleSend_sends (demo_sender 131073 1) (demo_header 131073) big_payload
    131073 1 (by decide) hne (by rw [hdrop]; decide) rfl
    (by rw [hdrop, chunk_count_nil]; decide)
  rw [hlen] at hsend
  refine ⟨_, hsend, ?_⟩
  have hc0 : chunk_header_c0 (demo_header 131073).perfer_cid
      ((demo_header 131073).timestamp % 4294967296) (demo_header 131073).payload_length
      (demo_header 131073).message_type (demo_header 131073).stream_id
      = [3] ++ [0, 0, 5, 2, 0, 1, 9, 0, 0, 0, 1] := by decide
  have h := recv_first_chunk_overflow
    (fresh_receiver 131073
      ((demo_sender 131073 1).rw_.sent ++
        (chunk_header_c0 (demo_header 131073).perfer_cid
          ((demo_header 131073).timestamp % 4294967296) (demo_header 131073).payload_length
          (demo_header 131073).message_type (demo_header 131073).stream_id ++
          big_payload.take 131073 ++
          fmt3_chunks (chunk_header_c3 (demo_header 131073).perfer_cid
            ((demo_header 131073).timestamp % 4294967296)) 131073 1
            (big_payload.drop 131073))) 0 ⟨[], 0, 0⟩)
    3 131073 RS_DEFAULT_RECV_BUFFER_SIZE [3] 0 0 5 2 0 1 9 0 0 0 1 big_payload
    (big_payload.take 131073 ++
      fmt3_chunks (chunk_header_c3 (demo_header 131073).perfer_cid
        ((demo_header 131073).timestamp % 4294967296)) 131073 1 (big_payload.drop 131073))
    (by simp [IsBasicHeader]) (by decide) (by decide) (by decide) (by decide) (by decide)
    hne (by rw [hlen]) rfl rfl (by decide) (by rw [hlen]; decide)
    (by rw [fresh_receiver_find_cs]; rfl)
    (by
      rw [hc0]
      simp [fresh_receiver, Protocol.new, InBuffer.unread, demo_sender])
  simp only [recv_chunks, h.1, h.2]

/-! ## Length mismatch on a continued message -/

/-- C11: a fmt=1 chunk that arrives while a message is in progress and whose
payload-length field differs from the stored `payload_length` makes
`ReadMessageHeader` fail with `ERROR_RTMP_CHUNK_START`; the stored
`payload_length`, `message_type` and `stream_id` and the message in progress are
as before the call. -/
theorem ReadMessageHeader_fmt1_length_mismatch (b : InBuffer) (cs : ChunkStream)
    (m : CommonMessage) (t0 t1 t2 l0 l1 l2 ty : Nat) (rest : List Nat)
    (hmsg : cs.msg = some m) (hcap : 7 ≤ b.capacity_)
    (hun : b.unread = [t0, t1, t2, l0, l1, l2, ty] ++ rest)
    (hlen : cs.header.payload_length ≠ ((l0 * 65536 + l1 * 256 + l2 : Nat) : Int)) :
    (ReadMessageHeader b cs 1).1 = .ERROR_RTMP_CHUNK_START ∧
    (ReadMessageHeader b cs 1).2.2.header.payload_length = cs.header.payload_length ∧
    (ReadMessageHeader b cs 1).2.2.header.message_type = cs.header.message_type ∧
    (ReadMessageHeader b cs 1).2.2.header.stream_id = cs.header.stream_id ∧
    (ReadMessageHeader b cs 1).2.2.msg = some m := by
  have hg : b.Grow 7 = .ERROR_SUCCESS :=
    InBuffer.Grow_ok b 7 (by decide) hcap (by rw [hun]; simp; omega)
  have hf : ∀ c : ChunkStream, c.header = cs.header →
      (ReadMessageHeader_fields b c 1 false 7).1 = .ERROR_RTMP_CHUNK_START ∧
      (ReadMessageHeader_fields b c 1 false 7).2.2.header.payload_length =
        cs.header.payload_length ∧
      (ReadMessageHeader_fields b c 1 false 7).2.2.header.message_type =
        cs.header.message_type ∧
      (ReadMessageHeader_fields b c 1 false 7).2.2.header.stream_id = cs.header.stream_id ∧
      (ReadMessageHeader_fields b c 1 false 7).2.2.msg = c.msg := by
    intro c hc
    have hlen2 : ¬ cs.header.payload_length = (l0 : Int) * 65536 + (l1 : Int) * 256 + (l2 : Int) := by
      intro h
      apply hlen
      rw [h]
      push_cast
      rfl
    simp [ReadMessageHeader_fields, InBuffer.ReadSlice, hun, BufferReader.Initialize,
      BufferReader.Read3Bytes, BufferReader.at_, RTMP_FMT_TYPE2, RTMP_FMT_TYPE1, RTMP_FMT_TYPE0,
      RTMP_EXTENDED_TIMESTAMP, hc]
    split_ifs <;> simp_all
  unfold ReadMessageHeader
  simp only [RTMP_FMT_TYPE0, RTMP_FMT_TYPE1, RTMP_CID_PROTOCOL_CONTROL]
  split_ifs with h1 h2 h3 h4 h5
  · exact ⟨rfl, rfl, rfl, rfl, hmsg⟩
  · simp at h2
  · simp [mh_sizes, hg] at h3
  · simp only [mh_sizes, List.getD_cons_succ, List.getD_cons_zero, hmsg, Option.isNone_some,
      Option.getD_some]
    exact hf _ rfl
  · exfalso
    apply h4
    simp only [mh_sizes, List.getD_cons_succ, List.getD_cons_zero, hmsg, Option.isNone_some,
      Option.getD_some]
    have h := (hf { cs with msg := some m } rfl).1
    rw [h]
    simp
  · exfalso
    apply h4
    simp only [mh_sizes, List.getD_cons_succ, List.getD_cons_zero, hmsg, Option.isNone_some,
      Option.getD_some]
    have h := (hf { cs with msg := some m } rfl).1
    rw [h]
    simp

/-- Witness for C11: while 2 of 3 bytes of a message have arrived on chunk
stream 3, a fmt=1 chunk that announces 4 bytes is refused and the stored
length stays 3. -/
theorem ReadMessageHeader_fmt1_length_mismatch_witness :
    (ReadMessageHeader (buffer_of [0, 0, 1, 0, 0, 4, 8, 30])
        { ChunkStream.new 3 with
            msg := some ⟨⟨5, 3, 9, 1, 5, 3⟩, 2, some [10, 20]⟩
            header := ⟨5, 3, 9, 1, 5, 3⟩
            msg_count := 1 } 1).1 = .ERROR_RTMP_CHUNK_START ∧
    (ReadMessageHeader (buffer_of [0, 0, 1, 0, 0, 4, 8, 30])
        { ChunkStream.new 3 with
            msg := some ⟨⟨5, 3, 9, 1, 5, 3⟩, 2, some [10, 20]⟩
            header := ⟨5, 3, 9, 1, 5, 3⟩
            msg_count := 1 } 1).2.2.header.payload_length = 3 ∧
    (ReadMessageHeader (buffer_of [0, 0, 1, 0, 0, 4, 8, 30])
        { ChunkStream.new 3 with
            msg := some ⟨⟨5, 3, 9, 1, 5, 3⟩, 2, some [10, 20]⟩
            header := ⟨5, 3, 9, 1, 5, 3⟩
            msg_count := 1 } 1).2.2.header.message_type = 9 :=
  have h := ReadMessageHeader_fmt1_length_mismatch (buffer_of [0, 0, 1, 0, 0, 4, 8, 30])
    { ChunkStream.new 3 with
        msg := some ⟨⟨5, 3, 9, 1, 5, 3⟩, 2, some [10, 20]⟩
        header := ⟨5, 3, 9, 1, 5, 3⟩
        msg_count := 1 }
    ⟨⟨5, 3, 9, 1, 5, 3⟩, 2, some [10, 20]⟩ 0 0 1 0 0 4 8 [30] rfl (by decide) rfl (by decide)
  ⟨h.1, h.2.1, h.2.2.1⟩

/-! ## The protocol engine: control messages -/

/-- `DecodeMessage` on a `set_chunk_size` message with at least four payload
bytes makes a `SetChunkSizePacket` that holds the 32-bit value of the first
four. -/
theorem DecodeMessage_set_chunk_size (codec : Amf0Codec) (p : Protocol) (msg : CommonMessage)
    (b0 b1 b2 b3 : Nat) (rest : List Nat)
    (htype : msg.header.message_type = 1)
    (hpayload : msg.payload = some (b0 :: b1 :: b2 :: b3 :: rest)) (hsize : 4 ≤ msg.size) :
    DecodeMessage codec p msg =
      (.ERROR_SUCCESS,
        some (.SetChunkSizePacket (to_int32 (b0 * 16777216 + b1 * 65536 + b2 * 256 + b3)))) := by
  have hs : ¬ msg.size ≤ 0 := by omega
  unfold DecodeMessage
  simp only [hpayload, BufferReader.Initialize, if_neg hs]
  simp [DoDecodeMessage, MessageHeader.IsAMF3Command, MessageHeader.IsAMF3Data,
    MessageHeader.IsAMF0Command, MessageHeader.IsAMF0Data, MessageHeader.IsSetChunkSize, htype,
    DoDecodeMessage_decode, Packet.Decode, BufferReader.Require, hsize, BufferReader.Read4Bytes,
    BufferReader.at_]

/-- C12, as amended: a `set_chunk_size` message whose value `v` is at least 128
makes `OnRecvMessage` succeed and set `in_chunk_size_` to `v` itself, also when
`v` is above 65536; nothing else of the engine state changes. -/
theorem OnRecvMessage_set_chunk_size (codec : Amf0Codec) (p : Protocol) (msg : CommonMessage)
    (b0 b1 b2 b3 : Nat) (rest : List Nat)
    (htype : msg.header.message_type = 1)
    (hpayload : msg.payload = some (b0 :: b1 :: b2 :: b3 :: rest)) (hsize : 4 ≤ msg.size)
    (hv : 128 ≤ to_int32 (b0 * 16777216 + b1 * 65536 + b2 * 256 + b3)) :
    OnRecvMessage codec p msg =
      (.ERROR_SUCCESS,
        { p with in_chunk_size_ := to_int32 (b0 * 16777216 + b1 * 65536 + b2 * 256 + b3) }) := by
  have hlt : ¬ to_int32 (b0 * 16777216 + b1 * 65536 + b2 * 256 + b3) < 128 := by omega
  unfold OnRecvMessage
  simp only [ResponseAckMessage, ite_self, ne_eq, not_true_eq_false, if_false,
    DecodeMessage_set_chunk_size codec p msg b0 b1 b2 b3 rest htype hpayload hsize, htype,
    RTMP_MSG_SET_CHUNK_SIZE, RTMP_MIN_CHUNK_SIZE, true_or, if_true, hlt, false_or]

/-- Witness for C12: the values 4096 and 65537 are both adopted as they are. -/
theorem OnRecvMessage_set_chunk_size_witness :
    OnRecvMessage (demo_codec "" 0) (Protocol.new [] 0 ⟨[], 0, 0⟩)
        (control_message 1 [0, 0, 16, 0]) =
      (.ERROR_SUCCESS, { Protocol.new [] 0 ⟨[], 0, 0⟩ with in_chunk_size_ := 4096 }) ∧
    OnRecvMessage (demo_codec "" 0) (Protocol.new [] 0 ⟨[], 0, 0⟩)
        (control_message 1 [0, 1, 0, 1]) =
      (.ERROR_SUCCESS, { Protocol.new [] 0 ⟨[], 0, 0⟩ with in_chunk_size_ := 65537 }) :=
  ⟨OnRecvMessage_set_chunk_size (demo_codec "" 0) (Protocol.new [] 0 ⟨[], 0, 0⟩)
      (control_message 1 [0, 0, 16, 0]) 0 0 16 0 [] rfl rfl (by decide) (by decide),
   OnRecvMessage_set_chunk_size (demo_codec "" 0) (Protocol.new [] 0 ⟨[], 0, 0⟩)
      (control_message 1 [0, 1, 0, 1]) 0 1 0 1 [] rfl rfl (by decide) (by decide)⟩

/-- C12, counterexample to the claim as stated: the value 65537 is above 65536
and `in_chunk_size_` becomes 65537, not `min(65537, 65536) = 65536`. -/
theorem set_chunk_size_not_clamped :
    (OnRecvMessage (demo_codec "" 0) (Protocol.new [] 0 ⟨[], 0, 0⟩)
      (control_message 1 [0, 1, 0, 1])).1 = .ERROR_SUCCESS ∧
    (OnRecvMessage (demo_codec "" 0) (Protocol.new [] 0 ⟨[], 0, 0⟩)
      (control_message 1 [0, 1, 0, 1])).2.in_chunk_size_ = 65537 ∧
    rs_min 65537 65536 = 65536 := by
  decide

/-- A message of type 5 with a payload block passes through `OnRecvMessage`
without a packet being made and without a change of the engine state. -/
theorem OnRecvMessage_type5 (codec : Amf0Codec) (p : Protocol) (msg : CommonMessage)
    (payload : List Nat) (htype : msg.header.message_type = 5)
    (hpayload : msg.payload = some payload) (hsize : 0 < msg.size) :
    DecodeMessage codec p msg = (.ERROR_SUCCESS, none) ∧
    OnRecvMessage codec p msg = (.ERROR_SUCCESS, p) := by
  have hs : ¬ msg.size ≤ 0 := by omega
  have hd : DecodeMessage codec p msg = (.ERROR_SUCCESS, none) := by
    simp [DecodeMessage, hpayload, BufferReader.Initialize, hs, DoDecodeMessage,
      MessageHeader.IsAMF3Command, MessageHeader.IsAMF3Data, MessageHeader.IsAMF0Command,
      MessageHeader.IsAMF0Data, MessageHeader.IsSetChunkSize, htype]
  refine ⟨hd, ?_⟩
  unfold OnRecvMessage
  rw [hd]
  simp [ResponseAckMessage, htype]

/-- C14, the code at the failing input: for a `window_ack_size` message (type
5) with the four payload bytes `w0 w1 w2 w3`, whatever they are,
`DecodeMessage` succeeds without making a packet (`DoDecodeMessage` has no
branch for the type), and `OnRecvMessage` succeeds and returns the engine state
as it was: `in_ack_size_.window` keeps its value, 0 on a new engine that
receives the window 2500000 (`00 26 25 a0`). -/
theorem window_ack_size_not_adopted (codec : Amf0Codec) (p : Protocol) (w0 w1 w2 w3 : Nat) :
    DecodeMessage codec p (control_message 5 [w0, w1, w2, w3]) = (.ERROR_SUCCESS, none) ∧
    OnRecvMessage codec p (control_message 5 [w0, w1, w2, w3]) = (.ERROR_SUCCESS, p) ∧
    (OnRecvMessage codec (Protocol.new [] 0 ⟨[], 0, 0⟩)
      (control_message 5 [0, 38, 37, 160])).2.in_ack_size_.window = 0 := by
  have h := OnRecvMessage_type5 codec p (control_message 5 [w0, w1, w2, w3]) [w0, w1, w2, w3]
    rfl rfl (by simp [control_message])
  have h2 := OnRecvMessage_type5 codec (Protocol.new [] 0 ⟨[], 0, 0⟩)
    (control_message 5 [0, 38, 37, 160]) [0, 38, 37, 160] rfl rfl (by decide)
  refine ⟨h.1, h.2, ?_⟩
  rw [h2.2]
  rfl

/-- C13, the code at the failing input: the connection delivers a complete
`set_chunk_size` message with the value 127 and then a 3-byte video message.
`OnRecvMessage` fails on the first with `ERROR_RTMP_CHUNK_START`, but
`RecvMessage` goes on reading and returns success with the video message;
`in_chunk_size_` is still 128. -/
theorem RecvMessage_continues_after_chunk_size_error :
    (OnRecvMessage (demo_codec "" 0) (Protocol.new [] 0 ⟨[], 0, 0⟩)
      (control_message 1 [0, 0, 0, 127])).1 = .ERROR_RTMP_CHUNK_START ∧
    (RecvMessage (demo_codec "" 0) 2
      (Protocol.new
        ([2, 0, 0, 0, 0, 0, 4, 1, 0, 0, 0, 0, 0, 0, 0, 127] ++
         [3, 0, 0, 5, 0, 0, 3, 9, 0, 0, 0, 1, 10, 20, 30]) 0 ⟨[], 0, 0⟩)).map
        (fun r => (r.1, r.2.2, r.2.1.in_chunk_size_)) =
      some (.ERROR_SUCCESS, some ⟨⟨5, 3, 9, 1, 5, 3⟩, 3, some [10, 20, 30]⟩, 128) := by
  decide

/-! ## The request table -/

theorem OnSendPacket_requests (p : Protocol) (header : MessageHeader) (packet : Packet) :
    (OnSendPacket p header packet).2.requests_ = p.requests_ := by
  unfold OnSendPacket
  split_ifs
  · cases packet <;> rfl
  · rfl

theorem DoSimpleSend_requests (fuel : Nat) (p : Protocol) (header : MessageHeader)
    (payload : List Nat) (size : Int) (r : ErrorCode × Protocol)
    (h : DoSimpleSend fuel p header payload size = some r) : r.2.requests_ = p.requests_ := by
  unfold DoSimpleSend at h
  cases hl : DoSimpleSend_loop p.out_chunk_size_ header payload size fuel 0 p.rw_ with
  | none => simp [hl] at h
  | some w =>
    simp [hl] at h
    rw [← h]

theorem DoSendAndFreePacket_requests (codec : Amf0Codec) (fuel : Nat) (p : Protocol)
    (packet : Packet) (stream_id : Int) (r : ErrorCode × Protocol)
    (h : DoSendAndFreePacket codec fuel p packet stream_id = some r) :
    r.2.requests_ = p.requests_ := by
  unfold DoSendAndFreePacket at h
  simp only [] at h
  by_cases h1 : (packet.Encode codec).1 ≠ .ERROR_SUCCESS
  · rw [if_pos h1] at h
    simp at h
    rw [← h]
  · rw [if_neg h1] at h
    cases he : (packet.Encode codec).2.2 with
    | none =>
      rw [he] at h
      simp at h
      rw [← h]
    | some payload =>
      rw [he] at h
      simp only [] at h
      by_cases h2 : (packet.Encode codec).2.1 ≤ 0
      · rw [if_pos h2] at h
        simp at h
        rw [← h]
      · rw [if_neg h2] at h
        split at h
        · simp at h
        · rename_i r1 hr1
          have hq := DoSimpleSend_requests _ _ _ _ _ _ hr1
          by_cases h3 : r1.1 = .ERROR_SUCCESS
          · rw [if_pos h3] at h
            simp at h
            rw [← h, OnSendPacket_requests, hq]
          · rw [if_neg h3] at h
            simp at h
            rw [← h, hq]

theorem ManualResponseFlush_loop_requests (codec : Amf0Codec) (fuel : Nat) :
    ∀ (n : Nat) (rest kept : List Packet) (p : Protocol) (r : ErrorCode × Protocol),
      rest.length ≤ n → ManualResponseFlush_loop codec fuel kept rest p = some r →
      r.2.requests_ = p.requests_ := by
  intro n
  induction n with
  | zero =>
    intro rest kept p r hn h
    have : rest = [] := List.length_eq_zero.mp (by omega)
    subst this
    simp [ManualResponseFlush_loop] at h
    rw [← h]
  | succ n ih =>
    intro rest kept p r hn h
    match rest, hn, h with
    | [], _, h =>
      simp [ManualResponseFlush_loop] at h
      rw [← h]
    | [packet], _, h =>
      simp only [ManualResponseFlush_loop] at h
      split at h
      · simp at h
      · rename_i r1 hr1
        have hq := DoSendAndFreePacket_requests _ _ _ _ _ _ hr1
        split_ifs at h
        · simp at h
          rw [← h, hq]
        · simp at h
          rw [← h, hq]
    | packet :: next :: rest1, hn, h =>
      simp only [ManualResponseFlush_loop] at h
      split at h
      · simp at h
      · rename_i r1 hr1
        have hq := DoSendAndFreePacket_requests _ _ _ _ _ _ hr1
        split_ifs at h
        · simp at h
          rw [← h, hq]
        · have := ih rest1 _ _ _ (by simp at hn; omega) h
          rw [this, hq]

/-- No path through `SendAndFreePacket` writes the request table. -/
theorem SendAndFreePacket_requests (codec : Amf0Codec) (fuel : Nat) (p : Protocol)
    (packet : Packet) (stream_id : Int) (r : ErrorCode × Protocol)
    (h : SendAndFreePacket codec fuel p packet stream_id = some r) :
    r.2.requests_ = p.requests_ := by
  unfold SendAndFreePacket at h
  split at h
  · simp at h
  · rename_i r1 hr1
    have hq := DoSendAndFreePacket_requests _ _ _ _ _ _ hr1
    split_ifs at h
    · simp at h
      rw [← h, hq]
    · have := ManualResponseFlush_loop_requests codec fuel _ _ _ _ _ (le_refl _) h
      rw [this, hq]

/-- C15, the code on every run and so at the failing input: when
`SendAndFreePacket` returns, the request table is as it was before the call,
whatever packet was sent; on an engine whose table has no entry for the
transaction id `t`, a later `_result` or `_error` with that id therefore makes
`DoDecodeMessage` fail with `ERROR_RTMP_NO_REQUEST` and make no packet. -/
theorem requests_never_recorded (codec : Amf0Codec) (fuel : Nat) (p : Protocol)
    (packet : Packet) (stream_id : Int) (r : ErrorCode × Protocol) (header : MessageHeader)
    (manager m1 m2 : BufferReader) (command : String) (t : Rat)
    (hsend : SendAndFreePacket codec fuel p packet stream_id = some r)
    (hnone : p.requests_ t = none)
    (htype : header.message_type = 20)
    (hread : codec.AMF0ReadString manager = (.ERROR_SUCCESS, m1, command))
    (hcmd : command = "_result" ∨ command = "_error")
    (hnum : codec.AMF0ReadNumber m1 = (.ERROR_SUCCESS, m2, t)) :
    r.2.requests_ = p.requests_ ∧
    DoDecodeMessage codec r.2 header manager =
      (.ERROR_RTMP_NO_REQUEST, m2.Skip (-1 * m2.Pos), none) := by
  have hq := SendAndFreePacket_requests codec fuel p packet stream_id r hsend
  refine ⟨hq, ?_⟩
  unfold DoDecodeMessage
  rw [if_neg (by simp [MessageHeader.IsAMF3Command, MessageHeader.IsAMF3Data, htype]),
    if_pos (by simp [MessageHeader.IsAMF0Command, htype])]
  simp only [hread, hnum, hq, hnone]
  rw [if_neg (by simp), if_pos hcmd, if_neg (by simp)]

/-- Witness for C15, the failing input: a new engine sends a `ConnectAppPacket`
(the write succeeds: one fmt=0 chunk on chunk stream 3), then decodes a
`_result` with transaction id 1. -/
theorem requests_never_recorded_witness :
    SendAndFreePacket (demo_codec "_result" 1) 2 (Protocol.new [] 0 ⟨[], 1, 0⟩)
        (.amf0 .ConnectAppPacket) 0 =
      some (.ERROR_SUCCESS,
        { Protocol.new [] 0 ⟨[], 1, 0⟩ with
            rw_ := ⟨[3, 0, 0, 0, 0, 0, 3, 20, 0, 0, 0, 0, 2, 0, 0], 0, 0⟩ }) ∧
    DoDecodeMessage (demo_codec "_result" 1)
        { Protocol.new [] 0 ⟨[], 1, 0⟩ with
            rw_ := ⟨[3, 0, 0, 0, 0, 0, 3, 20, 0, 0, 0, 0, 2, 0, 0], 0, 0⟩ }
        { MessageHeader.new with message_type := 20 } ⟨[2, 0, 0], 0, 3⟩ =
      (.ERROR_RTMP_NO_REQUEST, ⟨[2, 0, 0], 0, 3⟩, none) :=
  ⟨rfl,
   (requests_never_recorded (demo_codec "_result" 1) 2 (Protocol.new [] 0 ⟨[], 1, 0⟩)
      (.amf0 .ConnectAppPacket) 0 _ { MessageHeader.new with message_type := 20 }
      ⟨[2, 0, 0], 0, 3⟩ ⟨[2, 0, 0], 3, 3⟩ ⟨[2, 0, 0], 12, 3⟩ "_result" 1 rfl rfl rfl rfl
      (Or.inl rfl) rfl).2⟩

/-! ## Decoding of command messages -/

/-- C17: for every message header whose type is AMF3 command (17) or AMF3 data
(15), `DoDecodeMessage` returns `ERROR_RTMP_AMF3_NO_SUPPORT` and no packet,
whatever the payload block of the manager holds and whatever the AMF0 codec
and the engine state are; the manager comes back as it was handed in (nothing
was read from it). -/
theorem DoDecodeMessage_amf3_no_support (codec : Amf0Codec) (p : Protocol)
    (header : MessageHeader) (manager : BufferReader)
    (h : header.message_type = 17 ∨ header.message_type = 15) :
    DoDecodeMessage codec p header manager = (.ERROR_RTMP_AMF3_NO_SUPPORT, manager, none) := by
  unfold DoDecodeMessage
  rw [if_pos]
  rcases h with h | h
  · left
    simp [MessageHeader.IsAMF3Command, h]
  · right
    simp [MessageHeader.IsAMF3Data, h]

/-- Witness for C17: an AMF3 command message with the payload `01 02 03`. -/
theorem DoDecodeMessage_amf3_no_support_witness :
    DoDecodeMessage (demo_codec "connect" 1) (Protocol.new [] 0 ⟨[], 0, 0⟩)
        { MessageHeader.new with message_type := 17, payload_length := 3 } ⟨[1, 2, 3], 0, 3⟩ =
      (.ERROR_RTMP_AMF3_NO_SUPPORT, ⟨[1, 2, 3], 0, 3⟩, none) :=
  DoDecodeMessage_amf3_no_support _ _ _ _ (Or.inl rfl)

/-- C18: when the source cannot be published to (`CanPublish` is false),
`acquire_publish` returns `ERROR_SYSTEM_STREAM_BUSY` and `Publishing` returns
that code, each with the source and the record of calls as they were: no
`OnPublish`, no receive thread and no `OnUnpublish`, and `can_publish_`, the
caches and the source id of the active publisher are unchanged. -/
theorem Publishing_busy (env : PublishEnv) (w : PublishState)
    (hbusy : w.source.CanPublish false = false) :
    acquire_publish env w false = (.ERROR_SYSTEM_STREAM_BUSY, w) ∧
    Publishing env w = (.ERROR_SYSTEM_STREAM_BUSY, w) := by
  have ha : acquire_publish env w false = (.ERROR_SYSTEM_STREAM_BUSY, w) := by
    unfold acquire_publish
    rw [if_pos hbusy]
  refine ⟨ha, ?_⟩
  unfold Publishing
  simp [ha]

/-- Witness for C18: a second publisher on a source with an active one. -/
theorem Publishing_busy_witness :
    acquire_publish demo_env ⟨busy_source, [.OnPublish, .recv_thread_Start]⟩ false =
      (.ERROR_SYSTEM_STREAM_BUSY, ⟨busy_source, [.OnPublish, .recv_thread_Start]⟩) ∧
    Publishing demo_env ⟨busy_source, [.OnPublish, .recv_thread_Start]⟩ =
      (.ERROR_SYSTEM_STREAM_BUSY, ⟨busy_source, [.OnPublish, .recv_thread_Start]⟩) :=
  Publishing_busy demo_env ⟨busy_source, [.OnPublish, .recv_thread_Start]⟩ rfl

/-! ## `FastBuffer::Grow` -/

theorem FastBuffer.Size_append (b : FastBuffer) (d : List Nat) :
    FastBuffer.Size { b with buf_ := b.buf_ ++ d } = b.Size + d.length := by
  simp only [FastBuffer.Size, FastBuffer.end_, List.length_append]
  push_cast
  ring

/-- A successful `Read` of a positive size hands out between one byte and
`size` bytes, taken from the front of the pending ones. -/
theorem Reader.Read_ok (r : Reader) (size : Int) (hp : r.pending ≠ []) (hs : 0 < size) :
    (r.Read size).1 = .ERROR_SUCCESS ∧ 1 ≤ (r.Read size).2.1.length ∧
    ((r.Read size).2.1.length : Int) ≤ size ∧
    (r.Read size).2.1 ++ (r.Read size).2.2.pending = r.pending ∧
    (r.Read size).2.2.ret = r.ret := by
  have hl : 1 ≤ r.pending.length := by
    cases hr : r.pending with
    | nil => exact absurd hr hp
    | cons a t => simp
  have h1 : 1 ≤ size.toNat := by omega
  unfold Reader.Read
  rw [if_neg hp]
  simp only [List.length_take, List.take_append_drop]
  refine ⟨trivial, ?_, ?_, trivial, trivial⟩
  · omega
  · have : (min (min (min size.toNat (r.burst r.calls + 1)) r.pending.length) r.pending.length :
        Int) ≤ (size.toNat : Int) := by
      have : min (min (min size.toNat (r.burst r.calls + 1)) r.pending.length) r.pending.length
          ≤ size.toNat := by omega
      exact_mod_cast this
    omega

theorem Reader.Read_fail (r : Reader) (size : Int) (hp : r.pending = []) :
    (r.Read size).1 = .reader_error r.ret := by
  unfold Reader.Read
  rw [if_pos hp]

/-- The read loop of `Grow`, entered with enough free space for the missing
bytes: with fuel above the number of missing bytes it returns; it never
reports an overflow; if it succeeds, `required_size` bytes are readable; if
the reader holds fewer bytes than are missing, it returns the reader's code. -/
theorem FastBuffer.Grow_loop_spec (n : Int) :
    ∀ (fuel : Nat) (b : FastBuffer) (r : Reader) (fs : Int),
      (n - b.Size).toNat < fuel → (b.Size < n → n - b.Size ≤ fs) →
      ∃ res, FastBuffer.Grow_loop n fuel b r fs = some res ∧
        res.1 ≠ .ERROR_READER_BUFFER_OVERFLOW ∧
        (res.1 = .ERROR_SUCCESS → n ≤ res.2.1.Size) ∧
        ((r.pending.length : Int) < n - b.Size → res.1 = .reader_error r.ret) := by
  intro fuel
  induction fuel with
  | zero =>
    intro b r fs hf _
    omega
  | succ fuel ih =>
    intro b r fs hf hfs
    unfold FastBuffer.Grow_loop
    by_cases hlt : b.Size < n
    · rw [if_pos hlt]
      by_cases hp : r.pending = []
      · have herr := Reader.Read_fail r fs hp
        simp only [herr]
        rw [if_pos (by simp)]
        exact ⟨_, rfl, by simp, by simp, fun _ => rfl⟩
      · have hfs0 : 0 < fs := by
          have := hfs hlt
          omega
        obtain ⟨h1, h2, h3, h4, h5⟩ := Reader.Read_ok r fs hp hfs0
        simp only []
        rw [if_neg (by simp [h1]), if_neg (by omega)]
        have hsz := FastBuffer.Size_append b (r.Read fs).2.1
        obtain ⟨res, hres, ho, hs, he⟩ :=
          ih { b with buf_ := b.buf_ ++ (r.Read fs).2.1 } (r.Read fs).2.2
            (fs - (r.Read fs).2.1.length) (by rw [hsz]; omega) (by rw [hsz]; intro _; omega)
        refine ⟨res, hres, ho, hs, ?_⟩
        intro hpl
        rw [← h5]
        apply he
        rw [hsz]
        have hlen := congrArg List.length h4
        simp only [List.length_append] at hlen
        omega
    · rw [if_neg hlt]
      refine ⟨_, rfl, by simp, fun _ => ?_, fun h => ?_⟩
      · show n ≤ b.Size
        omega
      · exfalso
        have : (0 : Int) ≤ (r.pending.length : Int) := Int.natCast_nonneg _
        omega

/-- The compaction step of `Grow` on a buffer whose cursors are in order: the
unread bytes end up at the start of the block, unchanged. -/
theorem FastBuffer.compact_spec (b : FastBuffer) (hstart : b.start_ ≤ b.end_)
    (hend : (b.end_ : Int) ≤ b.capacity_) (b1 : FastBuffer)
    (hb1 : b1 =
      if (b.end_ : Int) - b.start_ = 0 then { b with buf_ := [], start_ := 0 }
      else if (b.end_ : Int) - b.start_ < b.capacity_ ∧ b.start_ > 0 then
        { b with buf_ := b.buf_.drop b.start_, start_ := 0 }
      else b) :
    b1.capacity_ = b.capacity_ ∧ b1.start_ = 0 ∧ (b1.end_ : Int) = b.Size ∧
    b1.unread = b.unread := by
  have hsize : b.Size = (b.end_ : Int) - b.start_ := rfl
  have hlen : b.end_ = b.buf_.length := rfl
  subst hb1
  split_ifs with h1 h2
  · refine ⟨rfl, rfl, ?_, ?_⟩
    · simp only [FastBuffer.end_, List.length_nil]
      omega
    · simp only [FastBuffer.unread, List.drop_nil]
      symm
      apply List.drop_eq_nil_of_le
      omega
  · refine ⟨rfl, rfl, ?_, ?_⟩
    · simp only [FastBuffer.end_, List.length_drop]
      omega
    · simp [FastBuffer.unread]
  · have h0 : b.start_ = 0 := by
      by_contra hne
      apply h2
      constructor
      · omega
      · omega
    refine ⟨rfl, h0, ?_, rfl⟩
    omega

/-- The three ways through `Grow` for a positive request on a buffer whose
cursors are in order (`buf_ ≤ start_ ≤ end_ ≤ buf_ + capacity_`), with fuel above
the request: enough bytes buffered; a request above the capacity; a request
within the capacity that has to read. -/
theorem FastBuffer.Grow_cases (fuel : Nat) (b : FastBuffer) (r : Reader) (n : Int)
    (hn : 0 < n) (hfuel : n.toNat < fuel) (hstart : b.start_ ≤ b.end_)
    (hend : (b.end_ : Int) ≤ b.capacity_) :
    ∃ res, b.Grow fuel r n = some res ∧
      (n ≤ b.Size → res = (.ERROR_SUCCESS, b, r)) ∧
      (b.Size < n → b.capacity_ < n →
        res.1 = .ERROR_READER_BUFFER_OVERFLOW ∧ res.2.2 = r ∧ res.2.1.unread = b.unread) ∧
      (b.Size < n → n ≤ b.capacity_ →
        res.1 ≠ .ERROR_READER_BUFFER_OVERFLOW ∧
        (res.1 = .ERROR_SUCCESS → n ≤ res.2.1.Size) ∧
        ((r.pending.length : Int) < n - b.Size → res.1 = .reader_error r.ret)) := by
  have hsize : b.Size = (b.end_ : Int) - b.start_ := rfl
  have hs0 : 0 ≤ b.Size := by
    rw [hsize]
    omega
  unfold FastBuffer.Grow
  rw [if_neg (by omega)]
  by_cases hge : b.Size ≥ n
  · rw [if_pos hge]
    exact ⟨_, rfl, fun _ => rfl, fun h => by omega, fun h => by omega⟩
  · rw [if_neg hge]
    simp only []
    by_cases hfree : b.capacity_ - (b.end_ : Int) < n - ((b.end_ : Int) - b.start_)
    · rw [if_pos hfree]
      obtain ⟨hc1, hs1, he1, hu1⟩ := FastBuffer.compact_spec b hstart hend _ rfl
      have hsz1 : ∀ b1 : FastBuffer, b1.start_ = 0 → (b1.end_ : Int) = b.Size →
          b1.Size = b.Size := by
        intro b1 h0 he
        simp only [FastBuffer.Size, h0, he]
        simp [hsize]
      have hsz := hsz1 _ hs1 he1
      rw [hc1, he1]
      by_cases hov : b.capacity_ - b.Size < n - ((b.end_ : Int) - b.start_)
      · rw [if_pos hov]
        refine ⟨_, rfl, fun h => by omega, fun _ _ => ⟨rfl, rfl, hu1⟩, fun _ hc => by omega⟩
      · rw [if_neg hov]
        obtain ⟨res, hres, ho, hs, he⟩ := FastBuffer.Grow_loop_spec n fuel _ r
          (b.capacity_ - b.Size) (by rw [hsz]; omega) (by rw [hsz]; intro _; omega)
        rw [hsz] at he
        refine ⟨res, hres, fun h => by omega, fun _ hc => by omega, fun _ _ => ⟨ho, hs, he⟩⟩
    · rw [if_neg hfree]
      obtain ⟨res, hres, ho, hs, he⟩ := FastBuffer.Grow_loop_spec n fuel b r
        (b.capacity_ - (b.end_ : Int)) (by omega) (by intro _; omega)
      refine ⟨res, hres, fun h => by omega, fun _ hc => by omega, fun _ _ => ⟨ho, hs, he⟩⟩

/-- C19: `Grow(r, n)` with `n > 0` on a buffer whose cursors are in order, with
fuel above `n`, returns, and: if it returns success, at least `n` bytes are
readable; if fewer than `n` bytes were buffered, `n` is within the capacity and
the reader runs out before it has delivered the missing bytes, the result is
the reader's code as the reader returned it; if `n` bytes were already
buffered, the result is success with the buffer and the reader (its call count
included) as they were. -/
theorem FastBuffer_Grow_contract (fuel : Nat) (b : FastBuffer) (r : Reader) (n : Int)
    (hn : 0 < n) (hfuel : n.toNat < fuel) (hstart : b.start_ ≤ b.end_)
    (hend : (b.end_ : Int) ≤ b.capacity_) :
    ∃ res, b.Grow fuel r n = some res ∧
      (res.1 = .ERROR_SUCCESS → n ≤ res.2.1.Size) ∧
      (b.Size < n → n ≤ b.capacity_ → (r.pending.length : Int) < n - b.Size →
        res.1 = .reader_error r.ret) ∧
      (n ≤ b.Size → res = (.ERROR_SUCCESS, b, r)) := by
  obtain ⟨res, hres, h1, h2, h3⟩ := FastBuffer.Grow_cases fuel b r n hn hfuel hstart hend
  refine ⟨res, hres, ?_, ?_, h1⟩
  · intro hok
    by_cases hge : n ≤ b.Size
    · rw [h1 hge]
      exact hge
    · by_cases hc : b.capacity_ < n
      · have := (h2 (by omega) hc).1
        rw [this] at hok
        simp at hok
      · exact (h3 (by omega) (by omega)).2.1 hok
  · intro hlt hc hp
    exact (h3 hlt hc).2.2 hp

/-- Witness for C19: two bytes are buffered and three are asked for; a reader
that still has two bytes makes `Grow` succeed with three readable bytes, and a
reader that has none makes it return the reader's code 7. -/
theorem FastBuffer_Grow_contract_witness :
    (∃ res, FastBuffer.Grow 4 ⟨131072, [9, 10, 20], 1⟩ (demo_reader [30, 40] 7) 3 = some res ∧
      (res.1 = .ERROR_SUCCESS → (3 : Int) ≤ res.2.1.Size) ∧
      (FastBuffer.Size ⟨131072, [9, 10, 20], 1⟩ < 3 → (3 : Int) ≤ 131072 →
        (((demo_reader [30, 40] 7).pending.length : Nat) : Int) <
          3 - FastBuffer.Size ⟨131072, [9, 10, 20], 1⟩ →
        res.1 = .reader_error 7) ∧
      ((3 : Int) ≤ FastBuffer.Size ⟨131072, [9, 10, 20], 1⟩ →
        res = (.ERROR_SUCCESS, ⟨131072, [9, 10, 20], 1⟩, demo_reader [30, 40] 7))) ∧
    (FastBuffer.Grow 4 ⟨131072, [9, 10, 20], 1⟩ (demo_reader [30, 40] 7) 3).map
        (fun res => (res.1, res.2.1)) =
      some (.ERROR_SUCCESS, ⟨131072, [9, 10, 20, 30], 1⟩) ∧
    (FastBuffer.Grow 4 ⟨131072, [9, 10, 20], 1⟩ (demo_reader [] 7) 3).map
        (fun res => (res.1, res.2.1)) =
      some (.reader_error 7, ⟨131072, [9, 10, 20], 1⟩) :=
  ⟨FastBuffer_Grow_contract 4 ⟨131072, [9, 10, 20], 1⟩ (demo_reader [30, 40] 7) 3 (by decide)
      (by decide) (by decide) (by decide),
    by decide, by decide⟩

/-- C20: `Grow(r, n)` with `n > 0` on a buffer whose cursors are in order
returns `ERROR_READER_BUFFER_OVERFLOW` exactly when fewer than `n` bytes are
buffered and `n` is larger than the capacity; in that case the reader comes
back as it was (it was not called) and the unread bytes are the same; and when
`n` is within the capacity the result is never the overflow code, wherever the
two cursors stand. -/
theorem FastBuffer_Grow_overflow (fuel : Nat) (b : FastBuffer) (r : Reader) (n : Int)
    (hn : 0 < n) (hfuel : n.toNat < fuel) (hstart : b.start_ ≤ b.end_)
    (hend : (b.end_ : Int) ≤ b.capacity_) :
    ∃ res, b.Grow fuel r n = some res ∧
      (res.1 = .ERROR_READER_BUFFER_OVERFLOW ↔ (b.Size < n ∧ b.capacity_ < n)) ∧
      (res.1 = .ERROR_READER_BUFFER_OVERFLOW → res.2.2 = r ∧ res.2.1.unread = b.unread) ∧
      (n ≤ b.capacity_ → res.1 ≠ .ERROR_READER_BUFFER_OVERFLOW) := by
  obtain ⟨res, hres, h1, h2, h3⟩ := FastBuffer.Grow_cases fuel b r n hn hfuel hstart hend
  have hiff : res.1 = .ERROR_READER_BUFFER_OVERFLOW ↔ (b.Size < n ∧ b.capacity_ < n) := by
    constructor
    · intro hov
      by_cases hge : n ≤ b.Size
      · rw [h1 hge] at hov
        simp at hov
      · by_cases hc : b.capacity_ < n
        · exact ⟨by omega, hc⟩
        · exact absurd hov (h3 (by omega) (by omega)).1
    · intro h
      exact (h2 h.1 h.2).1
  refine ⟨res, hres, hiff, ?_, ?_⟩
  · intro hov
    have h := hiff.mp hov
    exact (h2 h.1 h.2).2
  · intro hc hov
    have h := hiff.mp hov
    omega

/-- Witness for C20: a buffer of capacity 4 that holds two unread bytes behind
one consumed byte; a request for 5 bytes overflows and leaves the reader and
the unread bytes alone, a request for 4 bytes does not overflow. -/
theorem FastBuffer_Grow_overflow_witness :
    (∃ res, FastBuffer.Grow 6 ⟨4, [9, 10, 20], 1⟩ (demo_reader [30, 40, 50] 7) 5 = some res ∧
      (res.1 = .ERROR_READER_BUFFER_OVERFLOW ↔
        (FastBuffer.Size ⟨4, [9, 10, 20], 1⟩ < 5 ∧ (4 : Int) < 5)) ∧
      (res.1 = .ERROR_READER_BUFFER_OVERFLOW →
        res.2.2 = demo_reader [30, 40, 50] 7 ∧
        res.2.1.unread = FastBuffer.unread ⟨4, [9, 10, 20], 1⟩) ∧
      ((5 : Int) ≤ 4 → res.1 ≠ .ERROR_READER_BUFFER_OVERFLOW)) ∧
    (FastBuffer.Grow 6 ⟨4, [9, 10, 20], 1⟩ (demo_reader [30, 40, 50] 7) 5).map
        (fun res => (res.1, res.2.1)) =
      some (.ERROR_READER_BUFFER_OVERFLOW, ⟨4, [10, 20], 0⟩) ∧
    (FastBuffer.Grow 6 ⟨4, [9, 10, 20], 1⟩ (demo_reader [30, 40, 50] 7) 4).map
        (fun res => (res.1, res.2.1)) =
      some (.ERROR_SUCCESS, ⟨4, [10, 20, 30, 40], 0⟩) :=
  ⟨FastBuffer_Grow_overflow 6 ⟨4, [9, 10, 20], 1⟩ (demo_reader [30, 40, 50] 7) 5 (by decide)
      (by decide) (by decide) (by decide),
    by decide, by decide⟩

/-! ## `FastBuffer::SetBuffer` -/

/-- C21, the code at the failing input: `SetBuffer` never changes `capacity_`;
on a new buffer `SetBuffer(262144)` leaves it at 131072, and a later `Grow` for
131073 bytes, which is less than `min(262144, 262144)`, fails with
`ERROR_READER_BUFFER_OVERFLOW` without calling the reader, whatever the reader
holds. -/
theorem SetBuffer_leaves_capacity (b : FastBuffer) (n : Int) (r : Reader) (fuel : Nat) :
    (b.SetBuffer n).capacity_ = b.capacity_ ∧
    (FastBuffer.new.SetBuffer 262144).capacity_ = 131072 ∧
    rs_min 262144 262144 = 262144 ∧
    (FastBuffer.new.SetBuffer 262144).Grow fuel r 131073 =
      some (.ERROR_READER_BUFFER_OVERFLOW, FastBuffer.new, r) := by
  refine ⟨?_, by decide, by decide, ?_⟩
  · unfold FastBuffer.SetBuffer
    simp only []
    split_ifs <;> rfl
  · have h : FastBuffer.new.SetBuffer 262144 = FastBuffer.new := by decide
    rw [h]
    simp [FastBuffer.Grow, FastBuffer.new, FastBuffer.Size, FastBuffer.end_,
      RS_DEFAULT_RECV_BUFFER_SIZE]

/-! ## The accessors of `BufferReader` -/

theorem to_int8_byte (v : Int) (h0 : -128 ≤ v) (h1 : v < 128) : to_int8 (byte_of v 0) = v := by
  unfold to_int8 byte_of
  simp only [pow_zero]
  split <;> omega

theorem to_int16_bytes (v : Int) (h0 : -32768 ≤ v) (h1 : v < 32768) :
    to_int16 (byte_of v 1 * 256 + byte_of v 0) = v := by
  unfold to_int16 byte_of
  simp only [pow_zero, pow_one]
  split <;> omega

theorem bytes_32 (x : Int) :
    ((byte_of x 3 * 16777216 + byte_of x 2 * 65536 + byte_of x 1 * 256 + byte_of x 0 : Nat) :
      Int) = x % 4294967296 := by
  unfold byte_of
  simp only [pow_zero, pow_one, Int.reducePow]
  omega

theorem byte_of_high (v : Int) :
    byte_of v 4 = byte_of (v / 4294967296) 0 ∧ byte_of v 5 = byte_of (v / 4294967296) 1 ∧
    byte_of v 6 = byte_of (v / 4294967296) 2 ∧ byte_of v 7 = byte_of (v / 4294967296) 3 := by
  unfold byte_of
  simp only [pow_zero, pow_one, Int.reducePow]
  refine ⟨?_, ?_, ?_, ?_⟩ <;> congr 2 <;> omega

theorem to_int64_bytes (v : Int) (h0 : -9223372036854775808 ≤ v)
    (h1 : v < 9223372036854775808) :
    to_int64 (byte_of v 7 * 72057594037927936 + byte_of v 6 * 281474976710656 +
      byte_of v 5 * 1099511627776 + byte_of v 4 * 4294967296 + byte_of v 3 * 16777216 +
      byte_of v 2 * 65536 + byte_of v 1 * 256 + byte_of v 0) = v := by
  have hlo := bytes_32 v
  have hhi := bytes_32 (v / 4294967296)
  obtain ⟨e4, e5, e6, e7⟩ := byte_of_high v
  rw [← e4, ← e5, ← e6, ← e7] at hhi
  have hsum : byte_of v 7 * 72057594037927936 + byte_of v 6 * 281474976710656 +
      byte_of v 5 * 1099511627776 + byte_of v 4 * 4294967296 + byte_of v 3 * 16777216 +
      byte_of v 2 * 65536 + byte_of v 1 * 256 + byte_of v 0 =
      (byte_of v 7 * 16777216 + byte_of v 6 * 65536 + byte_of v 5 * 256 + byte_of v 4) *
        4294967296 +
      (byte_of v 3 * 16777216 + byte_of v 2 * 65536 + byte_of v 1 * 256 + byte_of v 0) := by
    ring
  rw [hsum]
  generalize byte_of v 7 * 16777216 + byte_of v 6 * 65536 + byte_of v 5 * 256 + byte_of v 4 = H
    at hhi ⊢
  generalize byte_of v 3 * 16777216 + byte_of v 2 * 65536 + byte_of v 1 * 256 + byte_of v 0 = L
    at hlo ⊢
  unfold to_int64
  split <;> omega

theorem bytes_24 (v : Int) :
    ((byte_of v 2 * 65536 + byte_of v 1 * 256 + byte_of v 0 : Nat) : Int) = v % 16777216 := by
  unfold byte_of
  simp only [pow_zero, pow_one, Int.reducePow]
  omega

/-- What `store` leaves in the block: the bytes of `data` from the old cursor
on, with the cursor behind them. -/
theorem BufferReader.store_spec (m : BufferReader) (data : List Nat)
    (hroom : m.pos + data.length ≤ m.buf_.length) :
    (m.store data).pos = m.pos + data.length ∧
    (m.store data).buf_.length = m.buf_.length ∧
    ((m.store data).buf_.drop m.pos).take data.length = data ∧
    ∀ i, i < data.length → (m.store data).buf_.getD (m.pos + i) 0 = data.getD i 0 := by
  have hlen : (m.buf_.take m.pos).length = m.pos := by
    rw [List.length_take]
    omega
  refine ⟨rfl, ?_, ?_, ?_⟩
  · simp only [BufferReader.store, List.length_append, List.length_take, List.length_drop]
    omega
  · simp only [BufferReader.store, List.append_assoc]
    rw [List.drop_append_of_le_length (by omega), List.drop_of_length_le (by omega),
      List.nil_append, List.take_left']
    rfl
  · intro i hi
    simp only [BufferReader.store, List.append_assoc]
    rw [List.getD_append_right _ _ _ _ (by omega), hlen]
    have : m.pos + i - m.pos = i := by omega
    rw [this, List.getD_append _ _ _ _ hi]

/-- C22: on a reader whose block has room for the bytes written, `Write1Bytes`,
`Write2Bytes`, `Write4Bytes` and `Write8Bytes` put the bytes of the value at the
cursor, most significant first, and move the cursor by 1, 2, 4 and 8; read
from the same position, `Read1Bytes`, `Read2Bytes`, `Read4Bytes` and
`Read8Bytes` return the value written, for every value of the width;
`Read3Bytes` after `Write3Bytes` returns the low 24 bits of the value written;
and `Read3Bytes` on a block of bytes always returns a value in `[0, 2^24)`. -/
theorem BufferReader_accessors_round_trip (m : BufferReader) (v : Int) :
    (m.pos + 1 ≤ m.buf_.length → -128 ≤ v → v < 128 →
      (m.Write1Bytes v).pos = m.pos + 1 ∧
      ((m.Write1Bytes v).buf_.drop m.pos).take 1 = [byte_of v 0] ∧
      (BufferReader.Read1Bytes { m.Write1Bytes v with pos := m.pos }).1 = v) ∧
    (m.pos + 2 ≤ m.buf_.length → -32768 ≤ v → v < 32768 →
      (m.Write2Bytes v).pos = m.pos + 2 ∧
      ((m.Write2Bytes v).buf_.drop m.pos).take 2 = [byte_of v 1, byte_of v 0] ∧
      (BufferReader.Read2Bytes { m.Write2Bytes v with pos := m.pos }).1 = v) ∧
    (m.pos + 4 ≤ m.buf_.length → -2147483648 ≤ v → v < 2147483648 →
      (m.Write4Bytes v).pos = m.pos + 4 ∧
      ((m.Write4Bytes v).buf_.drop m.pos).take 4 =
        [byte_of v 3, byte_of v 2, byte_of v 1, byte_of v 0] ∧
      (BufferReader.Read4Bytes { m.Write4Bytes v with pos := m.pos }).1 = v) ∧
    (m.pos + 8 ≤ m.buf_.length → -9223372036854775808 ≤ v → v < 9223372036854775808 →
      (m.Write8Bytes v).pos = m.pos + 8 ∧
      ((m.Write8Bytes v).buf_.drop m.pos).take 8 =
        [byte_of v 7, byte_of v 6, byte_of v 5, byte_of v 4, byte_of v 3, byte_of v 2,
          byte_of v 1, byte_of v 0] ∧
      (BufferReader.Read8Bytes { m.Write8Bytes v with pos := m.pos }).1 = v) ∧
    (m.pos + 3 ≤ m.buf_.length →
      (m.Write3Bytes v).pos = m.pos + 3 ∧
      ((m.Write3Bytes v).buf_.drop m.pos).take 3 = [byte_of v 2, byte_of v 1, byte_of v 0] ∧
      (BufferReader.Read3Bytes { m.Write3Bytes v with pos := m.pos }).1 = v % 16777216) ∧
    ((∀ x ∈ m.buf_, x < 256) → 0 ≤ m.Read3Bytes.1 ∧ m.Read3Bytes.1 < 16777216) := by
  refine ⟨?_, ?_, ?_, ?_, ?_, ?_⟩
  · intro hroom h0 h1
    obtain ⟨hp, _, hb, ha⟩ := BufferReader.store_spec m [byte_of v 0] hroom
    refine ⟨hp, hb, ?_⟩
    have a0 := ha 0 (by simp)
    simp only [List.getD_cons_zero] at a0
    show to_int8 ((m.store [byte_of v 0]).buf_.getD (m.pos + 0) 0) = v
    rw [a0]
    exact to_int8_byte v h0 h1
  · intro hroom h0 h1
    obtain ⟨hp, _, hb, ha⟩ := BufferReader.store_spec m [byte_of v 1, byte_of v 0] hroom
    refine ⟨hp, hb, ?_⟩
    have a0 := ha 0 (by simp)
    have a1 := ha 1 (by simp)
    simp only [List.getD_cons_zero, List.getD_cons_succ] at a0 a1
    show to_int16 ((m.store [byte_of v 1, byte_of v 0]).buf_.getD (m.pos + 0) 0 * 256 +
      (m.store [byte_of v 1, byte_of v 0]).buf_.getD (m.pos + 1) 0) = v
    rw [a0, a1]
    exact to_int16_bytes v h0 h1
  · intro hroom h0 h1
    obtain ⟨hp, _, hb, ha⟩ := BufferReader.store_spec m
      [byte_of v 3, byte_of v 2, byte_of v 1, byte_of v 0] hroom
    refine ⟨hp, hb, ?_⟩
    have a0 := ha 0 (by simp)
    have a1 := ha 1 (by simp)
    have a2 := ha 2 (by simp)
    have a3 := ha 3 (by simp)
    simp only [List.getD_cons_zero, List.getD_cons_succ] at a0 a1 a2 a3
    show to_int32 ((m.store [byte_of v 3, byte_of v 2, byte_of v 1, byte_of v 0]).buf_.getD
        (m.pos + 0) 0 * 16777216 +
      (m.store [byte_of v 3, byte_of v 2, byte_of v 1, byte_of v 0]).buf_.getD (m.pos + 1) 0 *
        65536 +
      (m.store [byte_of v 3, byte_of v 2, byte_of v 1, byte_of v 0]).buf_.getD (m.pos + 2) 0 *
        256 +
      (m.store [byte_of v 3, byte_of v 2, byte_of v 1, byte_of v 0]).buf_.getD (m.pos + 3) 0) = v
    rw [a0, a1, a2, a3]
    exact to_int32_bytes v h0 h1
  · intro hroom h0 h1
    obtain ⟨hp, _, hb, ha⟩ := BufferReader.store_spec m
      [byte_of v 7, byte_of v 6, byte_of v 5, byte_of v 4, byte_of v 3, byte_of v 2,
        byte_of v 1, byte_of v 0] hroom
    refine ⟨hp, hb, ?_⟩
    have a0 := ha 0 (by simp)
    have a1 := ha 1 (by simp)
    have a2 := ha 2 (by simp)
    have a3 := ha 3 (by simp)
    have a4 := ha 4 (by simp)
    have a5 := ha 5 (by simp)
    have a6 := ha 6 (by simp)
    have a7 := ha 7 (by simp)
    simp only [List.getD_cons_zero, List.getD_cons_succ] at a0 a1 a2 a3 a4 a5 a6 a7
    unfold BufferReader.Read8Bytes BufferReader.at_ BufferReader.Write8Bytes
    simp only []
    rw [a0, a1, a2, a3, a4, a5, a6, a7]
    exact to_int64_bytes v h0 h1
  · intro hroom
    obtain ⟨hp, _, hb, ha⟩ := BufferReader.store_spec m
      [byte_of v 2, byte_of v 1, byte_of v 0] hroom
    refine ⟨hp, hb, ?_⟩
    have a0 := ha 0 (by simp)
    have a1 := ha 1 (by simp)
    have a2 := ha 2 (by simp)
    simp only [List.getD_cons_zero, List.getD_cons_succ] at a0 a1 a2
    unfold BufferReader.Read3Bytes BufferReader.at_ BufferReader.Write3Bytes
    simp only []
    rw [a0, a1, a2]
    exact bytes_24 v
  · intro hbytes
    have hat : ∀ i, m.at_ i < 256 := by
      intro i
      unfold BufferReader.at_
      rw [List.getD_eq_getElem?_getD]
      cases h : m.buf_[m.pos + i]? with
      | none => simp
      | some x =>
        simp only [Option.getD_some]
        exact hbytes x (List.getElem?_mem h)
    have h0 := hat 0
    have h1 := hat 1
    have h2 := hat 2
    show 0 ≤ ((_ : Nat) : Int) ∧ ((_ : Nat) : Int) < 16777216
    constructor
    · exact Int.natCast_nonneg _
    · have : m.at_ 0 * 65536 + m.at_ 1 * 256 + m.at_ 2 < 16777216 := by omega
      exact_mod_cast this

/-- Witness for C22: the values -2 and 0x01020304 written into a block of ten
bytes at offset 1 and read back. -/
theorem BufferReader_accessors_round_trip_witness :
    (BufferReader.Write1Bytes ⟨[9, 9, 9, 9, 9, 9, 9, 9, 9, 9], 1, 10⟩ (-2)).buf_ =
      [9, 254, 9, 9, 9, 9, 9, 9, 9, 9] ∧
    (BufferReader.Write4Bytes ⟨[9, 9, 9, 9, 9, 9, 9, 9, 9, 9], 1, 10⟩ 16909060).buf_ =
      [9, 1, 2, 3, 4, 9, 9, 9, 9, 9] ∧
    (BufferReader.Read4Bytes ⟨[9, 1, 2, 3, 4, 9, 9, 9, 9, 9], 1, 10⟩).1 = 16909060 ∧
    (BufferReader.Read1Bytes
      { BufferReader.Write1Bytes ⟨[9, 9, 9, 9, 9, 9, 9, 9, 9, 9], 1, 10⟩ (-2) with
          pos := 1 }).1 = -2 :=
  ⟨by decide, by decide, by decide,
    ((BufferReader_accessors_round_trip ⟨[9, 9, 9, 9, 9, 9, 9, 9, 9, 9], 1, 10⟩ (-2)).1
      (by decide) (by decide) (by decide)).2.2⟩

/-! ## Timestamp correction -/

/-- C24: in FULL mode `Jitter::Correct` is the step of the specification: the
two times of the jitter and the timestamp of the message after the call are
those of `jitter_full_step_spec`; a message that is not audio or video gets the
timestamp 0 and leaves the jitter as it was; the rest of the message is
untouched; and the call returns success, as it does for every algorithm. -/
theorem Jitter_Correct_full_eq_spec (j : Jitter) (msg : SharedPtrMessage)
    (ag : JitterAlgorithm) :
    ((j.Correct msg .FULL).2.1.last_pkt_time_, (j.Correct msg .FULL).2.1.last_pkt_correct_time_,
        (j.Correct msg .FULL).2.2.timestamp) =
      jitter_full_step_spec j.last_pkt_time_ j.last_pkt_correct_time_ msg.IsAV msg.timestamp ∧
    (msg.IsAV = false → j.Correct msg .FULL = (.ERROR_SUCCESS, j, { msg with timestamp := 0 })) ∧
    (j.Correct msg .FULL).2.2.message_type = msg.message_type ∧
    (j.Correct msg ag).1 = .ERROR_SUCCESS := by
  have hmax : ∀ x : Int, rs_max 0 x = max 0 x := by
    intro x
    unfold rs_max
    split_ifs with h
    · exact (max_eq_right (le_of_lt h)).symm
    · exact (max_eq_left (not_lt.mp h)).symm
  refine ⟨?_, ?_, ?_, ?_⟩
  · unfold Jitter.Correct jitter_full_step_spec
    cases hav : msg.IsAV
    · simp
    · simp [hmax, RTMP_MAX_JITTER_MS, RTMP_MAX_JITTER_MS_NEG, RTMP_DEFAULT_FRAME_TIME_MS]
  · intro hav
    unfold Jitter.Correct
    simp [hav]
  · unfold Jitter.Correct
    cases hav : msg.IsAV <;> simp
  · unfold Jitter.Correct
    cases ag <;> cases hav : msg.IsAV <;> simp

/-- In ZERO mode a jitter whose offset is set subtracts it from every message. -/
theorem Jitter.CorrectAll_zero_offset (msgs : List SharedPtrMessage) :
    ∀ (j : Jitter), j.last_pkt_correct_time_ ≠ -1 →
      (Jitter.CorrectAll .ZERO j msgs).map (fun m => m.timestamp) =
        msgs.map (fun m => m.timestamp - j.last_pkt_correct_time_) := by
  induction msgs with
  | nil =>
    intro j _
    rfl
  | cons m rest ih =>
    intro j hj
    have hstep : j.Correct m .ZERO =
        (.ERROR_SUCCESS, j, { m with timestamp := m.timestamp - j.last_pkt_correct_time_ }) := by
      unfold Jitter.Correct
      simp [hj]
    simp only [Jitter.CorrectAll, hstep, List.map_cons]
    rw [ih j hj]

/-- C25: on a new `Jitter`, for messages with non-negative timestamps
`t0, t1, ..., tn` corrected in order with the algorithm ZERO, the corrected
timestamps are `t0 - t0, t1 - t0, ..., tn - t0`; and with the algorithm OFF a
call returns success and leaves the message and the jitter as they were. -/
theorem Jitter_zero_rebases (m0 : SharedPtrMessage) (rest : List SharedPtrMessage)
    (hnonneg : ∀ m ∈ m0 :: rest, 0 ≤ m.timestamp) :
    (Jitter.CorrectAll .ZERO Jitter.new (m0 :: rest)).map (fun m => m.timestamp) =
      (m0 :: rest).map (fun m => m.timestamp - m0.timestamp) ∧
    ∀ (j : Jitter) (msg : SharedPtrMessage), j.Correct msg .OFF = (.ERROR_SUCCESS, j, msg) := by
  have h0 : 0 ≤ m0.timestamp := hnonneg m0 (List.mem_cons_self _ _)
  have hne : m0.timestamp ≠ -1 := by omega
  have hstep : Jitter.new.Correct m0 .ZERO =
      (.ERROR_SUCCESS, ⟨0, m0.timestamp⟩, { m0 with timestamp := m0.timestamp - m0.timestamp }) := by
    unfold Jitter.Correct Jitter.new
    simp
  refine ⟨?_, ?_⟩
  · simp only [Jitter.CorrectAll, hstep, List.map_cons]
    rw [Jitter.CorrectAll_zero_offset rest ⟨0, m0.timestamp⟩ hne]
  · intro j msg
    unfold Jitter.Correct
    simp

/-- Witness for C25: the timestamps 100, 140, 120 become 0, 40, 20. -/
theorem Jitter_zero_rebases_witness :
    (Jitter.CorrectAll .ZERO Jitter.new [⟨100, 9⟩, ⟨140, 8⟩, ⟨120, 18⟩]).map
      (fun m => m.timestamp) = [0, 40, 20] :=
  (Jitter_zero_rebases ⟨100, 9⟩ [⟨140, 8⟩, ⟨120, 18⟩] (by decide)).1

/-- C23, counterexample to the claim as stated: the video timestamps 1000 and
900 on a new `Jitter` in FULL mode come out as 39 and 0: the output goes down. -/
theorem Jitter_full_goes_down :
    (Jitter.CorrectAll .FULL Jitter.new [⟨1000, 9⟩, ⟨900, 9⟩]).map (fun m => m.timestamp) =
      [39, 0] := by
  decide

/-- A FULL step on an audio or video message, from a jitter whose corrected
time is not negative: the new corrected time is not negative, it is the
timestamp of the message, it differs from the old one by at most 250 either
way, and it is not below the old one when the input does not go back. -/
theorem Jitter.Correct_full_step (j : Jitter) (m : SharedPtrMessage) (hav : m.IsAV = true)
    (hj : 0 ≤ j.last_pkt_correct_time_) :
    (j.Correct m .FULL).2.1.last_pkt_time_ = m.timestamp ∧
    (j.Correct m .FULL).2.2.timestamp = (j.Correct m .FULL).2.1.last_pkt_correct_time_ ∧
    0 ≤ (j.Correct m .FULL).2.1.last_pkt_correct_time_ ∧
    -250 ≤ (j.Correct m .FULL).2.1.last_pkt_correct_time_ - j.last_pkt_correct_time_ ∧
    (j.Correct m .FULL).2.1.last_pkt_correct_time_ - j.last_pkt_correct_time_ ≤ 250 ∧
    (j.last_pkt_time_ ≤ m.timestamp →
      0 ≤ (j.Correct m .FULL).2.1.last_pkt_correct_time_ - j.last_pkt_correct_time_) := by
  unfold Jitter.Correct
  simp only [hav, RTMP_MAX_JITTER_MS, RTMP_MAX_JITTER_MS_NEG, RTMP_DEFAULT_FRAME_TIME_MS, rs_max]
  simp only [ne_eq, not_true_eq_false, if_false, Bool.true_eq_false]
  refine ⟨trivial, trivial, ?_, ?_, ?_, ?_⟩ <;> split_ifs <;> omega

/-- The outputs of FULL mode on audio and video messages, from a jitter whose
corrected time `c` is not negative: none is negative, each differs from the one
before (the first from `c`) by at most 250 either way, and by at least 0 when
the inputs, from the last input of the jitter on, do not go back. -/
theorem Jitter.CorrectAll_full_chain (msgs : List SharedPtrMessage) :
    ∀ (j : Jitter), 0 ≤ j.last_pkt_correct_time_ → (∀ m ∈ msgs, m.IsAV = true) →
      (∀ t ∈ (Jitter.CorrectAll .FULL j msgs).map (fun m => m.timestamp), 0 ≤ t) ∧
      List.Chain (fun a b => -250 ≤ b - a ∧ b - a ≤ 250) j.last_pkt_correct_time_
        ((Jitter.CorrectAll .FULL j msgs).map (fun m => m.timestamp)) ∧
      (List.Chain (fun a b => a ≤ b) j.last_pkt_time_ (msgs.map (fun m => m.timestamp)) →
        List.Chain (fun a b => 0 ≤ b - a ∧ b - a ≤ 250) j.last_pkt_correct_time_
          ((Jitter.CorrectAll .FULL j msgs).map (fun m => m.timestamp))) := by
  induction msgs with
  | nil =>
    intro j _ _
    simp [Jitter.CorrectAll]
  | cons m rest ih =>
    intro j hj hav
    obtain ⟨h1, h2, h3, h4, h5, h6⟩ :=
      Jitter.Correct_full_step j m (hav m (List.mem_cons_self _ _)) hj
    obtain ⟨i1, i2, i3⟩ := ih (j.Correct m .FULL).2.1 h3
      (fun x hx => hav x (List.mem_cons_of_mem _ hx))
    simp only [Jitter.CorrectAll, List.map_cons, List.mem_cons, List.chain_cons, h2]
    refine ⟨?_, ⟨⟨h4, h5⟩, i2⟩, ?_⟩
    · intro t ht
      rcases ht with ht | ht
      · rw [ht]
        exact h3
      · exact i1 t ht
    · intro hc
      rw [h1] at i3
      exact ⟨⟨h6 hc.1, h5⟩, i3 hc.2⟩

/-- C23, as amended: for every sequence of audio and video messages corrected
by one new `Jitter` in FULL mode, whatever the input timestamps are, no output
timestamp is negative and every difference between consecutive outputs lies
in `[-250, 250]`; when the input timestamps do not go back, the differences lie
in `[0, 250]` and the outputs are non-decreasing. -/
theorem Jitter_full_bounded_steps (msgs : List SharedPtrMessage)
    (hav : ∀ m ∈ msgs, m.IsAV = true) :
    (∀ t ∈ (Jitter.CorrectAll .FULL Jitter.new msgs).map (fun m => m.timestamp), 0 ≤ t) ∧
    List.Chain' (fun a b => -250 ≤ b - a ∧ b - a ≤ 250)
      ((Jitter.CorrectAll .FULL Jitter.new msgs).map (fun m => m.timestamp)) ∧
    (List.Chain' (fun a b => a ≤ b) (msgs.map (fun m => m.timestamp)) →
      List.Chain' (fun a b => 0 ≤ b - a ∧ b - a ≤ 250)
        ((Jitter.CorrectAll .FULL Jitter.new msgs).map (fun m => m.timestamp))) := by
  cases msgs with
  | nil => simp [Jitter.CorrectAll]
  | cons m rest =>
    have hm : m.IsAV = true := hav m (List.mem_cons_self _ _)
    have hfirst : (Jitter.new.Correct m .FULL).2.1.last_pkt_time_ = m.timestamp ∧
        (Jitter.new.Correct m .FULL).2.2.timestamp =
          (Jitter.new.Correct m .FULL).2.1.last_pkt_correct_time_ ∧
        0 ≤ (Jitter.new.Correct m .FULL).2.1.last_pkt_correct_time_ := by
      unfold Jitter.Correct Jitter.new
      simp only [hm, RTMP_MAX_JITTER_MS, RTMP_MAX_JITTER_MS_NEG, RTMP_DEFAULT_FRAME_TIME_MS,
        rs_max]
      simp only [ne_eq, not_true_eq_false, if_false, Bool.true_eq_false]
      refine ⟨trivial, trivial, ?_⟩
      split_ifs <;> omega
    obtain ⟨f1, f2, f3⟩ := hfirst
    obtain ⟨i1, i2, i3⟩ := Jitter.CorrectAll_full_chain rest (Jitter.new.Correct m .FULL).2.1 f3
      (fun x hx => hav x (List.mem_cons_of_mem _ hx))
    simp only [Jitter.CorrectAll, List.map_cons, List.mem_cons, List.Chain', f2]
    refine ⟨?_, i2, ?_⟩
    · intro t ht
      rcases ht with ht | ht
      · rw [ht]
        exact f3
      · exact i1 t ht
    · intro hc
      rw [f1] at i3
      exact i3 hc

/-- Witness for C23: the video timestamps 1000, 900, 1300 come out as 39, 0, 40. -/
theorem Jitter_full_bounded_steps_witness :
    (Jitter.CorrectAll .FULL Jitter.new [⟨1000, 9⟩, ⟨900, 9⟩, ⟨1300, 9⟩]).map
        (fun m => m.timestamp) = [39, 0, 40] ∧
    List.Chain' (fun a b => -250 ≤ b - a ∧ b - a ≤ 250)
      ((Jitter.CorrectAll .FULL Jitter.new [⟨1000, 9⟩, ⟨900, 9⟩, ⟨1300, 9⟩]).map
        (fun m => m.timestamp)) :=
  ⟨by decide,
    (Jitter_full_bounded_steps [⟨1000, 9⟩, ⟨900, 9⟩, ⟨1300, 9⟩] (by decide)).2.1⟩

/-! ## The plain handshake -/

theorem Socket.ReadFully_ok (rw : Socket) (size : Nat) (h : size ≤ rw.pending.length) :
    rw.ReadFully size = (.ERROR_SUCCESS, rw.pending.take size,
      { rw with pending := rw.pending.drop size, calls := rw.calls ++ [.ReadFully size] }) := by
  unfold Socket.ReadFully
  rw [if_neg (by omega)]

/-- C26: when `c0c1` is still to be read, the peer has sent at least the 1537
bytes of C0 and C1, and the first of them is not `0x03`, `HandshakeWithClient`
returns `ERROR_RTMP_PLAIN_REQUIRED`; the only call it has made on the
connection is the `ReadFully` of 1537 bytes: nothing is written and C2 is not
read. -/
theorem HandshakeWithClient_plain_required (hb : HandshakeBytes) (rw : Socket)
    (random : List Nat) (now : Int)
    (hnull : hb.c0c1 = none) (hlen : 1537 ≤ rw.pending.length)
    (hc0 : rw.pending.getD 0 0 ≠ 3) :
    HandshakeWithClient hb rw random now =
      (.ERROR_RTMP_PLAIN_REQUIRED, { hb with c0c1 := some (rw.pending.take 1537) },
        { rw with pending := rw.pending.drop 1537, calls := rw.calls ++ [.ReadFully 1537] }) := by
  have hread : hb.ReadC0C1 rw = (.ERROR_SUCCESS, { hb with c0c1 := some (rw.pending.take 1537) },
      { rw with pending := rw.pending.drop 1537, calls := rw.calls ++ [.ReadFully 1537] }) := by
    unfold HandshakeBytes.ReadC0C1
    rw [Socket.ReadFully_ok rw 1537 hlen]
    simp [hnull]
  have hfirst : (rw.pending.take 1537).getD 0 0 = rw.pending.getD 0 0 := by
    cases hp : rw.pending with
    | nil => rfl
    | cons a t => rfl
  unfold HandshakeWithClient
  simp only [hread]
  rw [if_neg (by simp)]
  simp only [Option.getD_some, hfirst]
  rw [if_pos hc0]

/-- The block `CreateS0S1S2` makes on handshake bytes that hold C0 and C1 and
no response yet: S0, the time, the first four bytes of C1, random bytes, and C1. -/
theorem HandshakeBytes.CreateS0S1S2_block (hb : HandshakeBytes) (c0 : Nat) (c1 random : List Nat)
    (now : Int) (hc : hb.c0c1 = some (c0 :: c1)) (hs : hb.s0s1s2 = none)
    (hc1 : c1.length = 1536) (hrandom : random.length = 3073) :
    hb.CreateS0S1S2 (some c1) random now =
      (.ERROR_SUCCESS,
        { hb with
            s0s1s2 := some ([3, byte_of now 3, byte_of now 2, byte_of now 1, byte_of now 0] ++
              c1.take 4 ++ (random.drop 9).take 1528 ++ c1) }) := by
  have h4 : (c1.take 4).length = 4 := by
    rw [List.length_take]
    omega
  obtain ⟨a, b, c, d, hcd⟩ : ∃ a b c d, c1.take 4 = [a, b, c, d] := by
    match hm : c1.take 4, h4 with
    | [a, b, c, d], _ => exact ⟨a, b, c, d, rfl⟩
  obtain ⟨r0, r1, r2, r3, r4, r5, r6, r7, r8, tail, hr⟩ :
      ∃ r0 r1 r2 r3 r4 r5 r6 r7 r8 tail,
        random = r0 :: r1 :: r2 :: r3 :: r4 :: r5 :: r6 :: r7 :: r8 :: tail := by
    match random, hrandom with
    | r0 :: r1 :: r2 :: r3 :: r4 :: r5 :: r6 :: r7 :: r8 :: tail, _ =>
      exact ⟨r0, r1, r2, r3, r4, r5, r6, r7, r8, tail, rfl⟩
  have htail : tail.length = 3064 := by
    rw [hr] at hrandom
    simp at hrandom
    omega
  have hb3 : byte_of 3 0 = 3 := by decide
  unfold HandshakeBytes.CreateS0S1S2
  simp only [hs, hc, Option.isSome_none, Bool.false_eq_true, if_false, BufferReader.Initialize,
    BufferReader.Write1Bytes, BufferReader.Write4Bytes, BufferReader.WriteBytes,
    BufferReader.store, List.drop_succ_cons, List.drop_zero, hcd, hr, hb3]
  simp only [hcd, List.cons_append, List.nil_append, List.take_succ_cons, List.drop_succ_cons,
    List.singleton_append, List.length_cons, List.length_nil, List.take_zero, List.drop_zero]
  simp [htail, hc1, hcd, List.take_of_length_le, List.drop_of_length_le]

/-- C27: on new handshake bytes, when the peer has sent C0 = `0x03`, a C1 of
1536 bytes and any C2 of 1536 bytes, and the write succeeds,
`HandshakeWithClient` succeeds; its calls on the connection are, in order, the
read of 1537 bytes, one `Write` of the response `S` and the read of 1536 bytes.
`S` has 3073 bytes, its byte 0 is `0x03`, its bytes 5..8 are the first four
bytes of C1 and its last 1536 bytes, from offset 1537 on, are C1. -/
theorem HandshakeWithClient_response (rw : Socket) (c1 c2 rest random : List Nat) (now : Int)
    (n : Nat) (hpending : rw.pending = 3 :: c1 ++ c2 ++ rest)
    (hc1 : c1.length = 1536) (hc2 : c2.length = 1536) (hrandom : random.length = 3073)
    (hw : rw.ok_writes = n + 1) :
    ∃ S : List Nat,
      HandshakeWithClient HandshakeBytes.new rw random now =
        (.ERROR_SUCCESS, ⟨some (3 :: c1), some S, some c2⟩,
          { rw with
              pending := rest
              ok_writes := n
              calls := rw.calls ++ [.ReadFully 1537, .Write S, .ReadFully 1536] }) ∧
      S.length = 3073 ∧ S.getD 0 0 = 3 ∧ (S.drop 5).take 4 = c1.take 4 ∧ S.drop 1537 = c1 := by
  have h4 : (c1.take 4).length = 4 := by
    rw [List.length_take]
    omega
  have hrd : ((random.drop 9).take 1528).length = 1528 := by
    rw [List.length_take, List.length_drop]
    omega
  have hlen1 : 1537 ≤ rw.pending.length := by
    rw [hpending]
    simp
    omega
  have htake : rw.pending.take 1537 = 3 :: c1 := by
    rw [hpending]
    simp only [List.cons_append, List.take_succ_cons, List.append_assoc]
    rw [List.take_left' hc1]
  have hdrop : rw.pending.drop 1537 = c2 ++ rest := by
    rw [hpending]
    simp only [List.cons_append, List.drop_succ_cons, List.append_assoc]
    rw [List.drop_left' hc1]
  have hread : HandshakeBytes.new.ReadC0C1 rw = (.ERROR_SUCCESS, ⟨some (3 :: c1), none, none⟩,
      { rw with pending := c2 ++ rest, calls := rw.calls ++ [.ReadFully 1537] }) := by
    unfold HandshakeBytes.ReadC0C1
    rw [Socket.ReadFully_ok rw 1537 hlen1, htake, hdrop]
    simp [HandshakeBytes.new]
  have hcreate := HandshakeBytes.CreateS0S1S2_block ⟨some (3 :: c1), none, none⟩ 3 c1 random now
    rfl rfl hc1 hrandom
  refine ⟨[3, byte_of now 3, byte_of now 2, byte_of now 1, byte_of now 0] ++
      c1.take 4 ++ (random.drop 9).take 1528 ++ c1, ?_, ?_, ?_, ?_, ?_⟩
  · have hS : ([3, byte_of now 3, byte_of now 2, byte_of now 1, byte_of now 0] ++
        c1.take 4 ++ (random.drop 9).take 1528 ++ c1).length = 3073 := by
      simp only [List.length_append, h4, hrd, hc1]
      rfl
    unfold HandshakeWithClient
    simp only [hread]
    rw [if_neg (by simp), if_neg (by simp)]
    simp only [Option.map_some', List.drop_succ_cons, List.drop_zero, hcreate]
    rw [if_neg (by simp)]
    simp only [Option.getD_some]
    rw [List.take_of_length_le (le_of_eq hS)]
    simp only [Socket.Write, hw]
    rw [if_neg (by simp)]
    unfold HandshakeBytes.ReadC2
    rw [Socket.ReadFully_ok _ 1536 (by simp [hc2])]
    simp [List.take_left' hc2, List.drop_left' hc2]
  · simp only [List.length_append, h4, hrd, hc1]
    rfl
  · rfl
  · simp only [List.cons_append, List.nil_append, List.drop_succ_cons, List.drop_zero,
      List.append_assoc]
    rw [List.take_left' h4]
  · have : ([3, byte_of now 3, byte_of now 2, byte_of now 1, byte_of now 0] ++
        c1.take 4 ++ (random.drop 9).take 1528).length = 1537 := by
      simp only [List.length_append, h4, hrd]
      rfl
    rw [List.drop_left' this]

/-- Witness for C26: the peer sends C0 = `0x06` and 1536 more bytes. -/
theorem HandshakeWithClient_plain_required_witness :
    (HandshakeWithClient HandshakeBytes.new (demo_socket (6 :: List.replicate 1536 0)) [] 0).1 =
      .ERROR_RTMP_PLAIN_REQUIRED ∧
    (HandshakeWithClient HandshakeBytes.new (demo_socket (6 :: List.replicate 1536 0)) []
      0).2.2.calls = [.ReadFully 1537] :=
  have h := HandshakeWithClient_plain_required HandshakeBytes.new
    (demo_socket (6 :: List.replicate 1536 0)) [] 0 rfl
    (by
      show 1537 ≤ (6 :: List.replicate 1536 0).length
      rw [List.length_cons, List.length_replicate])
    (by
      show (6 : Nat) ≠ 3
      decide)
  ⟨congrArg (fun x => x.1) h, congrArg (fun x => x.2.2.calls) h⟩

/-- Witness for C27: C1 is 1536 bytes `07`, C2 is 1536 bytes `08`. -/
theorem HandshakeWithClient_response_witness :
    ∃ S : List Nat,
      HandshakeWithClient HandshakeBytes.new
          (demo_socket (3 :: List.replicate 1536 7 ++ List.replicate 1536 8 ++ []))
          (List.replicate 3073 1) 16909060 =
        (.ERROR_SUCCESS, ⟨some (3 :: List.replicate 1536 7), some S, some (List.replicate 1536 8)⟩,
          { demo_socket (3 :: List.replicate 1536 7 ++ List.replicate 1536 8 ++ []) with
              pending := []
              ok_writes := 0
              calls := [] ++ [.ReadFully 1537, .Write S, .ReadFully 1536] }) ∧
      S.length = 3073 ∧ S.getD 0 0 = 3 ∧
      (S.drop 5).take 4 = (List.replicate 1536 7).take 4 ∧ S.drop 1537 = List.replicate 1536 7 :=
  HandshakeWithClient_response
    (demo_socket (3 :: List.replicate 1536 7 ++ List.replicate 1536 8 ++ []))
    (List.replicate 1536 7) (List.replicate 1536 8) [] (List.replicate 3073 1) 16909060 0 rfl
    (List.length_replicate _ _) (List.length_replicate _ _) (List.length_replicate _ _) rfl

/-! ## Requests and URLs -/

theorem find_from_shift (pat : List Char) :
    ∀ (s : List Char) (i : Nat), find_from pat s i = (find_from pat s 0).map (fun k => k + i) := by
  intro s
  induction s with
  | nil =>
    intro i
    unfold find_from
    split_ifs <;> simp
  | cons c s ih =>
    intro i
    unfold find_from
    split_ifs
    · simp
    · rw [ih (i + 1), ih (0 + 1)]
      cases find_from pat s 0 with
      | none => rfl
      | some k =>
        simp only [Option.map_some', Option.some.injEq]
        omega

/-- A pattern that starts nowhere inside `a` (not even reaching into what
follows) and starts right behind `a` is found at the offset `a.length`. -/
theorem find_append (pat b : List Char) :
    ∀ (a : List Char), (∀ k, k < a.length → pat.isPrefixOf ((a ++ b).drop k) = false) →
      pat.isPrefixOf b = true → b ≠ [] → find (a ++ b) pat = some a.length := by
  intro a
  induction a with
  | nil =>
    intro _ hb hne
    cases b with
    | nil => exact absurd rfl hne
    | cons c t =>
      unfold find find_from
      simp only [List.nil_append, List.length_nil]
      rw [if_pos hb]
  | cons x a ih =>
    intro hno hb hne
    have h0 := hno 0 (by simp)
    simp only [List.drop_zero] at h0
    have hrest : ∀ k, k < a.length → pat.isPrefixOf ((a ++ b).drop k) = false := by
      intro k hk
      have := hno (k + 1) (by simp; omega)
      simpa using this
    have := ih hrest hb hne
    have h0n : ¬ (pat.isPrefixOf (x :: (a ++ b)) = true) := by
      rw [← List.cons_append, h0]
      simp
    unfold find at this ⊢
    simp only [List.cons_append]
    unfold find_from
    rw [if_neg h0n, find_from_shift, this]
    simp

/-- A pattern that starts nowhere in `s` is not found. -/
theorem find_none (pat : List Char) (hpat : pat ≠ []) :
    ∀ (s : List Char), (∀ k, k < s.length → pat.isPrefixOf (s.drop k) = false) →
      find s pat = none := by
  intro s
  induction s with
  | nil =>
    intro _
    unfold find find_from
    rw [if_neg hpat]
  | cons x s ih =>
    intro hno
    have h0 := hno 0 (by simp)
    simp only [List.drop_zero] at h0
    have hrest : ∀ k, k < s.length → pat.isPrefixOf (s.drop k) = false := by
      intro k hk
      have := hno (k + 1) (by simp; omega)
      simpa using this
    have h0n : ¬ (pat.isPrefixOf (x :: s) = true) := by
      rw [h0]
      simp
    have := ih hrest
    unfold find at this ⊢
    unfold find_from
    rw [if_neg h0n, find_from_shift, this]
    rfl

/-- A pattern that does not occur in `s` starts nowhere in `s`. -/
theorem no_start_of_not_contained (pat s : List Char) (h : ¬ pat <:+: s) :
    ∀ k, k < s.length → pat.isPrefixOf (s.drop k) = false := by
  intro k _
  cases hp : pat.isPrefixOf (s.drop k) with
  | false => rfl
  | true =>
    exfalso
    apply h
    have h1 : pat <+: s.drop k := List.isPrefixOf_iff_prefix.mp hp
    exact h1.isInfix.trans (List.drop_suffix k s).isInfix

/-- A character that does not occur in `s` starts nowhere in `s`. -/
theorem no_start_of_not_mem (c : Char) (s : List Char) (h : c ∉ s) :
    ∀ k, k < s.length → [c].isPrefixOf (s.drop k) = false := by
  apply no_start_of_not_contained
  intro hin
  apply h
  exact hin.subset (List.mem_singleton_self c)

/-- A character that does not occur in `a` is first found right behind `a`. -/
theorem find_char_append (c : Char) (a b : List Char) (h : c ∉ a) :
    find (a ++ c :: b) [c] = some a.length := by
  apply find_append [c] (c :: b) a
  · intro k hk
    rw [List.drop_append_of_le_length (le_of_lt hk)]
    cases hd : a.drop k with
    | nil =>
      have := congrArg List.length hd
      simp at this
      omega
    | cons x t =>
      have hx : x ∈ a := List.mem_of_mem_drop (by rw [hd]; exact List.mem_cons_self _ _)
      have hne : c ≠ x := fun e => h (e ▸ hx)
      simp [List.isPrefixOf, hne]
  · simp [List.isPrefixOf]
  · simp

/-- A character that does not occur in `s` is not found. -/
theorem find_char_none (c : Char) (s : List Char) (h : c ∉ s) : find s [c] = none :=
  find_none [c] (by simp) s (no_start_of_not_mem c s h)

/-- The separator `://` is first found right behind a schema that does not
contain it. -/
theorem find_schema_separator (a b : List Char) (h : ¬ "://".toList <:+: a) :
    find (a ++ "://".toList ++ b) "://".toList = some a.length := by
  have hpat : "://".toList = [':', '/', '/'] := rfl
  rw [List.append_assoc]
  apply find_append "://".toList ("://".toList ++ b) a
  · intro k hk
    rw [List.drop_append_of_le_length (le_of_lt hk)]
    have hsuf : a.drop k <:+ a := List.drop_suffix k a
    cases hp : "://".toList.isPrefixOf (a.drop k ++ ("://".toList ++ b)) with
    | false => rfl
    | true =>
      exfalso
      rw [hpat] at hp h
      match hd : a.drop k, hp with
      | [], _ =>
        have := congrArg List.length hd
        simp at this
        omega
      | [x], hp => simp [List.isPrefixOf] at hp
      | [x, y], hp => simp [List.isPrefixOf] at hp
      | x :: y :: z :: t, hp =>
        simp [List.isPrefixOf] at hp
        apply h
        rw [hd] at hsuf
        obtain ⟨h1, h2, h3⟩ := hp
        subst h1 h2 h3
        exact (List.prefix_append [':', '/', '/'] t).isInfix.trans hsuf.isInfix
  · rw [hpat]
    simp [List.isPrefixOf]
  · rw [hpat]
    simp

/-- `StringReplace` leaves a string in which the old string starts nowhere. -/
theorem Utils.StringReplace_scan_id (old_str new_str : List Char) :
    ∀ (s : List Char), (∀ k, k < s.length → old_str.isPrefixOf (s.drop k) = false) →
      Utils.StringReplace_scan old_str new_str 0 s = s := by
  intro s
  induction s with
  | nil =>
    intro _
    rfl
  | cons x s ih =>
    intro hno
    have h0 := hno 0 (by simp)
    simp only [List.drop_zero] at h0
    have h0n : ¬ (old_str.isPrefixOf (x :: s) = true) := by
      rw [h0]
      simp
    have hrest : ∀ k, k < s.length → old_str.isPrefixOf (s.drop k) = false := by
      intro k hk
      have := hno (k + 1) (by simp; omega)
      simpa using this
    unfold Utils.StringReplace_scan
    rw [if_neg h0n, ih hrest]

theorem Utils.StringReplace_id (s old_str new_str : List Char) (h : ¬ old_str <:+: s) :
    Utils.StringReplace s old_str new_str = s := by
  unfold Utils.StringReplace
  split_ifs
  · rfl
  · exact Utils.StringReplace_scan_id old_str new_str s (no_start_of_not_contained old_str s h)

theorem Utils.StringReplace_char_id (s : List Char) (c : Char) (new_str : List Char)
    (h : c ∉ s) : Utils.StringReplace s [c] new_str = s := by
  apply Utils.StringReplace_id
  intro hin
  exact h (hin.subset (List.mem_singleton_self c))

/-- Erasing the last occurrence of a string brings in no new character. -/
theorem Utils.StringEraseLastSubstr_mem (s erase : List Char) (c : Char)
    (h : c ∈ Utils.StringEraseLastSubstr s erase) : c ∈ s := by
  unfold Utils.StringEraseLastSubstr at h
  split at h
  · exact h
  · rw [List.mem_reverse, List.mem_append] at h
    rcases h with h | h
    · exact List.mem_reverse.mp (List.mem_of_mem_take h)
    · exact List.mem_reverse.mp (List.mem_of_mem_drop h)

/-- `vhost_resolve` on a string without `?`, `,`, `=`, `...` and `&&`: the vhost
and the parameter stay, and the string loses at most a trailing `/_definst_`. -/
theorem vhost_resolve_plain (vhost s param : List Char)
    (h1 : '?' ∉ s) (h2 : ',' ∉ s) (h3 : '=' ∉ s) (h4 : ¬ "...".toList <:+: s)
    (h5 : ¬ "&&".toList <:+: s) :
    vhost_resolve vhost s param =
      (vhost,
        if Utils.StringEndsWith s "/_definst_".toList then
          Utils.StringEraseLastSubstr s "/_definst_".toList
        else s,
        param) := by
  have hq : "?".toList = ['?'] := rfl
  have hc : ",".toList = [','] := rfl
  have he : "=".toList = ['='] := rfl
  have hf : find s ['?'] = none := find_char_none '?' s h1
  have hmem : '?' ∉ (if Utils.StringEndsWith s "/_definst_".toList then
      Utils.StringEraseLastSubstr s "/_definst_".toList else s) := by
    split_ifs
    · intro hin
      exact h1 (Utils.StringEraseLastSubstr_mem _ _ _ hin)
    · exact h1
  unfold vhost_resolve
  simp only [hq, hc, he, hf]
  rw [Utils.StringReplace_char_id s ',' _ h2, Utils.StringReplace_id s _ _ h4,
    Utils.StringReplace_id s _ _ h5, Utils.StringReplace_char_id s '=' _ h3]
  simp only [find_char_none '?' _ hmem]

/-- `DiscoveryTcUrl` on `url = schema://hostport/app`, given what the two
searches in `hostport` return. -/
theorem DiscoveryTcUrl_split (schema hostport app host port : List Char) (r : Request)
    (hschema : ¬ "://".toList <:+: schema) (hslash : '/' ∉ hostport)
    (hsplit : (match find hostport ":".toList with
      | some pos2 => (hostport.take pos2, hostport.drop (pos2 + 1), app)
      | none => (hostport, RTMP_DEFAULT_PORT, app)) = (host, port, app))
    (happ : '?' ∉ app ∧ ',' ∉ app ∧ '=' ∉ app ∧ ¬ "...".toList <:+: app ∧
      ¬ "&&".toList <:+: app ∧ ¬ "/_definst_".toList <:+ app)
    (hstream : '?' ∉ r.stream ∧ ',' ∉ r.stream ∧ '=' ∉ r.stream ∧
      ¬ "...".toList <:+: r.stream ∧ ¬ "&&".toList <:+: r.stream) :
    (DiscoveryTcUrl (schema ++ "://".toList ++ (hostport ++ '/' :: app)) r).schema = schema ∧
    (DiscoveryTcUrl (schema ++ "://".toList ++ (hostport ++ '/' :: app)) r).host = host ∧
    (DiscoveryTcUrl (schema ++ "://".toList ++ (hostport ++ '/' :: app)) r).vhost = host ∧
    (DiscoveryTcUrl (schema ++ "://".toList ++ (hostport ++ '/' :: app)) r).app = app ∧
    (DiscoveryTcUrl (schema ++ "://".toList ++ (hostport ++ '/' :: app)) r).port = port := by
  obtain ⟨a1, a2, a3, a4, a5, a6⟩ := happ
  obtain ⟨s1, s2, s3, s4, s5⟩ := hstream
  have hf1 := find_schema_separator schema (hostport ++ '/' :: app) hschema
  have hf2 : find (hostport ++ '/' :: app) "/".toList = some hostport.length :=
    find_char_append '/' hostport app hslash
  have ht1 : (schema ++ "://".toList ++ (hostport ++ '/' :: app)).take schema.length = schema := by
    rw [List.append_assoc, List.take_left']
    rfl
  have hd1 : (schema ++ "://".toList ++ (hostport ++ '/' :: app)).drop (schema.length + 3) =
      hostport ++ '/' :: app := by
    rw [List.drop_left']
    simp
  have ht2 : (hostport ++ '/' :: app).take hostport.length = hostport := by
    rw [List.take_left']
    rfl
  have hd2 : (hostport ++ '/' :: app).drop (hostport.length + 1) = app := by
    rw [show hostport ++ '/' :: app = (hostport ++ ['/']) ++ app by simp, List.drop_left']
    simp
  have hends : Utils.StringEndsWith app "/_definst_".toList = false := by
    unfold Utils.StringEndsWith
    cases h : "/_definst_".toList.isSuffixOf app with
    | false => rfl
    | true => exact absurd (List.isSuffixOf_iff_suffix.mp h) a6
  have hv1 := vhost_resolve_plain host app r.param a1 a2 a3 a4 a5
  rw [hends] at hv1
  simp only [Bool.false_eq_true, if_false] at hv1
  have hv2 := vhost_resolve_plain host r.stream r.param s1 s2 s3 s4 s5
  unfold DiscoveryTcUrl
  simp only [hf1, ht1, hd1, hf2, ht2, hd2]
  cases hfc : find hostport ":".toList with
  | none =>
    simp only [hfc, Prod.mk.injEq] at hsplit
    obtain ⟨e1, e2, _⟩ := hsplit
    simp only [e1, e2, hv1, hv2]
    exact ⟨trivial, trivial, trivial, trivial, trivial⟩
  | some pos2 =>
    simp only [hfc, Prod.mk.injEq] at hsplit
    obtain ⟨e1, e2, _⟩ := hsplit
    simp only [e1, e2, hv1, hv2]
    exact ⟨trivial, trivial, trivial, trivial, trivial⟩

/-- C28, counterexample to the claim as stated: for the tcUrl `rtmp://host/live`
the stream name `s?vhost=v` that the request holds makes the vhost `v`, not
`host`. -/
theorem DiscoveryTcUrl_vhost_from_stream :
    (DiscoveryTcUrl "rtmp://host/live".toList
      { Request.new with stream := "s?vhost=v".toList }).vhost = "v".toList ∧
    (DiscoveryTcUrl "rtmp://host/live".toList
      { Request.new with stream := "s?vhost=v".toList }).host = "host".toList := by
  decide

/-- C29, counterexample to the claim as stated: the tcUrl `rtmp:///live?vhost=x`
has an empty host, and the request passes both checks. -/
theorem StreamServiceCycle_accepts_empty_host :
    (StreamServiceCycle_tcurl
      { Request.new with tc_url := "rtmp:///live?vhost=x".toList, stream := "s".toList }).1 =
      .ERROR_SUCCESS ∧
    (StreamServiceCycle_tcurl
      { Request.new with tc_url := "rtmp:///live?vhost=x".toList, stream := "s".toList }).2.host =
      [] ∧
    (StreamServiceCycle_tcurl
      { Request.new with tc_url := "rtmp:///live?vhost=x".toList, stream := "s".toList }).2.vhost =
      "x".toList := by
  decide

/-- C28, as amended: for a tcUrl `schema://host/app` or `schema://host:port/app`
in which `schema` contains no `://`, `host` and `port` contain neither `/` nor
`:`, and `app` contains none of `?`, `,`, `=`, `...`, `&&` and does not end with
`/_definst_`, and for a request whose stream name contains none of `?`, `,`,
`=`, `...`, `&&` (it carries no vhost query), `DiscoveryTcUrl` sets that schema,
that host, `vhost = host`, that app, and the given port, or `1935` when the
tcUrl has none. -/
theorem DiscoveryTcUrl_plain_form (schema host port app : List Char) (r : Request)
    (hschema : ¬ "://".toList <:+: schema)
    (hhost : '/' ∉ host ∧ ':' ∉ host) (hport : '/' ∉ port ∧ ':' ∉ port)
    (happ : '?' ∉ app ∧ ',' ∉ app ∧ '=' ∉ app ∧ ¬ "...".toList <:+: app ∧
      ¬ "&&".toList <:+: app ∧ ¬ "/_definst_".toList <:+ app)
    (hstream : '?' ∉ r.stream ∧ ',' ∉ r.stream ∧ '=' ∉ r.stream ∧
      ¬ "...".toList <:+: r.stream ∧ ¬ "&&".toList <:+: r.stream) :
    ((DiscoveryTcUrl (schema ++ "://".toList ++ (host ++ '/' :: app)) r).schema = schema ∧
      (DiscoveryTcUrl (schema ++ "://".toList ++ (host ++ '/' :: app)) r).host = host ∧
      (DiscoveryTcUrl (schema ++ "://".toList ++ (host ++ '/' :: app)) r).vhost = host ∧
      (DiscoveryTcUrl (schema ++ "://".toList ++ (host ++ '/' :: app)) r).app = app ∧
      (DiscoveryTcUrl (schema ++ "://".toList ++ (host ++ '/' :: app)) r).port =
        "1935".toList) ∧
    ((DiscoveryTcUrl (schema ++ "://".toList ++ ((host ++ ':' :: port) ++ '/' :: app)) r).schema =
        schema ∧
      (DiscoveryTcUrl (schema ++ "://".toList ++ ((host ++ ':' :: port) ++ '/' :: app)) r).host =
        host ∧
      (DiscoveryTcUrl (schema ++ "://".toList ++ ((host ++ ':' :: port) ++ '/' :: app)) r).vhost =
        host ∧
      (DiscoveryTcUrl (schema ++ "://".toList ++ ((host ++ ':' :: port) ++ '/' :: app)) r).app =
        app ∧
      (DiscoveryTcUrl (schema ++ "://".toList ++ ((host ++ ':' :: port) ++ '/' :: app)) r).port =
        port) := by
  constructor
  · apply DiscoveryTcUrl_split schema host app host "1935".toList r hschema hhost.1 _ happ hstream
    have : find host ":".toList = none := find_char_none ':' host hhost.2
    simp only [this]
  · apply DiscoveryTcUrl_split schema (host ++ ':' :: port) app host port r hschema _ _ happ
      hstream
    · simp only [List.mem_append, List.mem_cons, not_or]
      exact ⟨hhost.1, by decide, hport.1⟩
    · have : find (host ++ ':' :: port) ":".toList = some host.length :=
        find_char_append ':' host port hhost.2
      simp only [this]
      rw [List.take_left' rfl, show host ++ ':' :: port = (host ++ [':']) ++ port by simp,
        List.drop_left' (by simp)]

/-- Witness for C28: `rtmp://host/live` and `rtmp://host:1936/live`, with the
stream name `s`. -/
theorem DiscoveryTcUrl_plain_form_witness :
    (DiscoveryTcUrl "rtmp://host/live".toList { Request.new with stream := "s".toList }).schema =
      "rtmp".toList ∧
    (DiscoveryTcUrl "rtmp://host/live".toList { Request.new with stream := "s".toList }).host =
      "host".toList ∧
    (DiscoveryTcUrl "rtmp://host/live".toList { Request.new with stream := "s".toList }).vhost =
      "host".toList ∧
    (DiscoveryTcUrl "rtmp://host/live".toList { Request.new with stream := "s".toList }).app =
      "live".toList ∧
    (DiscoveryTcUrl "rtmp://host/live".toList { Request.new with stream := "s".toList }).port =
      "1935".toList ∧
    (DiscoveryTcUrl "rtmp://host:1936/live".toList
      { Request.new with stream := "s".toList }).port = "1936".toList :=
  have h := DiscoveryTcUrl_plain_form "rtmp".toList "host".toList "1936".toList "live".toList
    { Request.new with stream := "s".toList } (by decide) (by decide) (by decide) (by decide)
    (by decide)
  ⟨h.1.1, h.1.2.1, h.1.2.2.1, h.1.2.2.2.1, h.1.2.2.2.2, h.2.2.2.2.2⟩

/-- C29, as amended: after `DiscoveryTcUrl` and `Strip` the request is rejected
with `ERROR_RTMP_REQ_TCURL` exactly when one of schema, vhost, port, app is
empty (the host itself is not tested); and a tcUrl `schema:///app` with an
empty host is rejected when neither the app nor the stream name carries a query,
because the vhost is then the empty host. -/
theorem StreamServiceCycle_tcurl_rejects (request_ : Request) :
    ((StreamServiceCycle_tcurl request_).1 = .ERROR_RTMP_REQ_TCURL ↔
      ((DiscoveryTcUrl request_.tc_url request_).Strip.schema = [] ∨
        (DiscoveryTcUrl request_.tc_url request_).Strip.vhost = [] ∨
        (DiscoveryTcUrl request_.tc_url request_).Strip.port = [] ∨
        (DiscoveryTcUrl request_.tc_url request_).Strip.app = [])) ∧
    (StreamServiceCycle_tcurl request_).2 = (DiscoveryTcUrl request_.tc_url request_).Strip ∧
    (∀ schema app : List Char,
      request_.tc_url = schema ++ "://".toList ++ ([] ++ '/' :: app) →
      ¬ "://".toList <:+: schema →
      ('?' ∉ app ∧ ',' ∉ app ∧ '=' ∉ app ∧ ¬ "...".toList <:+: app ∧
        ¬ "&&".toList <:+: app ∧ ¬ "/_definst_".toList <:+ app) →
      ('?' ∉ request_.stream ∧ ',' ∉ request_.stream ∧ '=' ∉ request_.stream ∧
        ¬ "...".toList <:+: request_.stream ∧ ¬ "&&".toList <:+: request_.stream) →
      (StreamServiceCycle_tcurl request_).1 = .ERROR_RTMP_REQ_TCURL ∧
      (StreamServiceCycle_tcurl request_).2.host = []) := by
  have hiff : (StreamServiceCycle_tcurl request_).1 = .ERROR_RTMP_REQ_TCURL ↔
      ((DiscoveryTcUrl request_.tc_url request_).Strip.schema = [] ∨
        (DiscoveryTcUrl request_.tc_url request_).Strip.vhost = [] ∨
        (DiscoveryTcUrl request_.tc_url request_).Strip.port = [] ∨
        (DiscoveryTcUrl request_.tc_url request_).Strip.app = []) := by
    unfold StreamServiceCycle_tcurl
    simp only []
    by_cases h : (DiscoveryTcUrl request_.tc_url request_).Strip.schema = [] ∨
        (DiscoveryTcUrl request_.tc_url request_).Strip.vhost = [] ∨
        (DiscoveryTcUrl request_.tc_url request_).Strip.port = [] ∨
        (DiscoveryTcUrl request_.tc_url request_).Strip.app = []
    · rw [if_pos h]
      exact ⟨fun _ => h, fun _ => rfl⟩
    · rw [if_neg h]
      constructor
      · intro h1
        split_ifs at h1
      · intro h1
        exact absurd h1 h
  have hsnd : (StreamServiceCycle_tcurl request_).2 =
      (DiscoveryTcUrl request_.tc_url request_).Strip := by
    unfold StreamServiceCycle_tcurl
    simp only []
    split_ifs <;> rfl
  refine ⟨hiff, hsnd, ?_⟩
  intro schema app htc hschema happ hstream
  have hd := DiscoveryTcUrl_split schema [] app [] "1935".toList request_ hschema
    (List.not_mem_nil _) rfl happ hstream
  rw [← htc] at hd
  constructor
  · rw [hiff]
    right; left
    unfold Request.Strip
    simp only []
    rw [hd.2.2.1]
    rfl
  · rw [hsnd]
    unfold Request.Strip
    simp only []
    rw [hd.2.1]
    rfl

/-- Witness for C29: the tcUrl `rtmp:///live` with the stream name `s`. -/
theorem StreamServiceCycle_tcurl_rejects_witness :
    (StreamServiceCycle_tcurl
      { Request.new with tc_url := "rtmp:///live".toList, stream := "s".toList }).1 =
      .ERROR_RTMP_REQ_TCURL ∧
    (StreamServiceCycle_tcurl
      { Request.new with tc_url := "rtmp:///live".toList, stream := "s".toList }).2.host = [] :=
  (StreamServiceCycle_tcurl_rejects
    { Request.new with tc_url := "rtmp:///live".toList, stream := "s".toList }).2.2
    "rtmp".toList "live".toList (by decide) (by decide) (by decide) (by decide)

/-- C30: `GetStreamUrl` is `vhost/app/stream`, with the vhost left out when it
is `__defaultVhost__`; two requests that agree in `vhost`, `app` and `stream`
have the same stream URL, whatever their other members are. -/
theorem GetStreamUrl_canonical (r r2 : Request) :
    (r.vhost ≠ "__defaultVhost__".toList →
      r.GetStreamUrl = r.vhost ++ "/".toList ++ r.app ++ "/".toList ++ r.stream) ∧
    (r.vhost = "__defaultVhost__".toList →
      r.GetStreamUrl = "/".toList ++ r.app ++ "/".toList ++ r.stream) ∧
    (r2.vhost = r.vhost → r2.app = r.app → r2.stream = r.stream →
      r2.GetStreamUrl = r.GetStreamUrl) := by
  refine ⟨?_, ?_, ?_⟩
  · intro h
    unfold Request.GetStreamUrl generate_stream_url
    simp only [RTMP_DEFAULT_VHOST]
    rw [if_pos h]
  · intro h
    unfold Request.GetStreamUrl generate_stream_url
    simp only [RTMP_DEFAULT_VHOST]
    rw [if_neg (by simp [h])]
    rfl
  · intro h1 h2 h3
    unfold Request.GetStreamUrl
    rw [h1, h2, h3]

/-- Witness for C30: the stream URLs of `live/s` on the vhost `v` and on the
default vhost. -/
theorem GetStreamUrl_canonical_witness :
    Request.GetStreamUrl
        { Request.new with vhost := "v".toList, app := "live".toList, stream := "s".toList } =
      "v/live/s".toList ∧
    Request.GetStreamUrl
        { Request.new with
            vhost := "__defaultVhost__".toList, app := "live".toList, stream := "s".toList } =
      "/live/s".toList :=
  ⟨(GetStreamUrl_canonical
      { Request.new with vhost := "v".toList, app := "live".toList, stream := "s".toList }
      Request.new).1 (by decide),
   (GetStreamUrl_canonical
      { Request.new with
          vhost := "__defaultVhost__".toList, app := "live".toList, stream := "s".toList }
      Request.new).2.1 rfl⟩

/-! ## The payload of a chunk -/

/-- The macro `rs_min` is the minimum. -/
theorem rs_min_eq_min (a b : Int) : rs_min a b = min a b := by
  unfold rs_min
  split_ifs with h
  · exact (min_eq_left (le_of_lt h)).symm
  · exact (min_eq_right (not_lt.mp h)).symm

/-- C31: for a chunk of a message with `payload_length > 0` of which `size`
bytes have been received, when the buffer delivers the
`k = min(in_chunk_size, payload_length - size)` bytes asked for,
`ReadMessagePayload` succeeds, moves the read cursor of the buffer by exactly
`k`, and the message, whether it is handed out or kept in the chunk stream, has
the size `size + k` and as payload the bytes received before, unchanged, with
the `k` bytes of the buffer directly behind them. -/
theorem ReadMessagePayload_appends (c : Int) (b : InBuffer) (cs : ChunkStream)
    (m : CommonMessage) (hmsg : cs.msg = some m) (hpl : 0 < cs.header.payload_length)
    (hlen : ((m.payload.getD []).length : Int) = m.size)
    (hg : b.Grow (min c (cs.header.payload_length - m.size)) = .ERROR_SUCCESS) :
    (ReadMessagePayload c b cs).1 = .ERROR_SUCCESS ∧
    (ReadMessagePayload c b cs).2.1 =
      b.advance (min c (cs.header.payload_length - m.size)).toNat ∧
    (ReadMessagePayload c b cs).2.1.unread =
      b.unread.drop (min c (cs.header.payload_length - m.size)).toNat ∧
    ∃ m1 : CommonMessage,
      (((ReadMessagePayload c b cs).2.2.2 = some m1 ∧
          (ReadMessagePayload c b cs).2.2.1.msg = none) ∨
        ((ReadMessagePayload c b cs).2.2.2 = none ∧
          (ReadMessagePayload c b cs).2.2.1.msg = some m1)) ∧
      m1.header = m.header ∧
      m1.size = m.size + min c (cs.header.payload_length - m.size) ∧
      m1.payload = some (m.payload.getD [] ++
        b.unread.take (min c (cs.header.payload_length - m.size)).toNat) ∧
      (m1.payload.getD []).take m.size.toNat = m.payload.getD [] := by
  have hk : rs_min (cs.header.payload_length - m.size) c =
      min c (cs.header.payload_length - m.size) := by
    rw [rs_min_eq_min, min_comm]
  have htake : (m.payload.getD []).take m.size.toNat = m.payload.getD [] := by
    apply List.take_of_length_le
    omega
  have h := ReadMessagePayload_chunk c b cs m _ hmsg hpl hk hg
  rw [htake] at h
  have hpre : ∀ x : List Nat, (m.payload.getD [] ++ x).take m.size.toNat = m.payload.getD [] := by
    intro x
    apply List.take_left'
    omega
  by_cases he : cs.header.payload_length = m.size + min c (cs.header.payload_length - m.size)
  · rw [if_pos he] at h
    rw [h]
    refine ⟨rfl, rfl, InBuffer.unread_advance _ _, _, Or.inl ⟨rfl, rfl⟩, rfl, rfl, rfl, ?_⟩
    exact hpre _
  · rw [if_neg he] at h
    rw [h]
    refine ⟨rfl, rfl, InBuffer.unread_advance _ _, _, Or.inr ⟨rfl, rfl⟩, rfl, rfl, rfl, ?_⟩
    exact hpre _

/-- Witness for C31: of a message of 5 bytes the bytes `0a 14` have arrived; with
the chunk size 2 the next chunk appends `1e 28`. -/
theorem ReadMessagePayload_appends_witness :
    (ReadMessagePayload 2 (buffer_of [30, 40, 50])
        { ChunkStream.new 3 with
            msg := some ⟨demo_header 5, 2, some [10, 20]⟩, header := demo_header 5 }).2.2.1.msg =
      some ⟨demo_header 5, 4, some [10, 20, 30, 40]⟩ ∧
    (ReadMessagePayload 2 (buffer_of [30, 40, 50])
        { ChunkStream.new 3 with
            msg := some ⟨demo_header 5, 2, some [10, 20]⟩, header := demo_header 5 }).2.1 =
      (buffer_of [30, 40, 50]).advance 2 :=
  ⟨by decide,
    (ReadMessagePayload_appends 2 (buffer_of [30, 40, 50])
      { ChunkStream.new 3 with
          msg := some ⟨demo_header 5, 2, some [10, 20]⟩, header := demo_header 5 }
      ⟨demo_header 5, 2, some [10, 20]⟩ rfl (by decide) (by decide) (by decide)).2.1⟩

/-! ## Isolation of the chunk streams -/

/-- Storing a chunk stream under one id leaves the chunk stream of every other
id as it is. -/
theorem Protocol.find_store_ne (p : Protocol) (cid c : Nat) (cs : ChunkStream) (h : c ≠ cid) :
    (p.store_cs cid cs).find_cs c = p.find_cs c := by
  unfold Protocol.find_cs Protocol.store_cs
  by_cases h1 : cid < RTMP_CHUNK_STREAM_CHCAHE
  · rw [if_pos h1]
    by_cases h2 : c < RTMP_CHUNK_STREAM_CHCAHE
    · rw [if_pos h2, if_pos h2]
      exact Function.update_noteq h _ _
    · rw [if_neg h2, if_neg h2]
  · rw [if_neg h1]
    by_cases h2 : c < RTMP_CHUNK_STREAM_CHCAHE
    · rw [if_pos h2, if_pos h2]
    · rw [if_neg h2, if_neg h2]
      simp only []
      rw [Function.update_noteq h]

/-- `ReadMessageHeader` never writes `cid` nor `header.perfer_cid`. -/
theorem ReadMessageHeader_cid (b : InBuffer) (cs : ChunkStream) (fmt : Nat) :
    (ReadMessageHeader b cs fmt).2.2.cid = cs.cid ∧
    (ReadMessageHeader b cs fmt).2.2.header.perfer_cid = cs.header.perfer_cid := by
  have hf : ∀ (b : InBuffer) (cs : ChunkStream) (first : Bool) (mh : Int),
      (ReadMessageHeader_fields b cs fmt first mh).2.2.cid = cs.cid ∧
      (ReadMessageHeader_fields b cs fmt first mh).2.2.header.perfer_cid =
        cs.header.perfer_cid := by
    intro b cs first mh
    unfold ReadMessageHeader_fields BufferReader.Initialize
    simp only [RTMP_FMT_TYPE0, RTMP_FMT_TYPE1, RTMP_FMT_TYPE2]
    split_ifs <;> simp
  have he : ∀ (b : InBuffer) (cs : ChunkStream) (first : Bool),
      (ReadMessageHeader_extended b cs first).2.2.cid = cs.cid ∧
      (ReadMessageHeader_extended b cs first).2.2.header.perfer_cid =
        cs.header.perfer_cid := by
    intro b cs first
    unfold ReadMessageHeader_extended
    simp only []
    split_ifs <;> exact ⟨rfl, rfl⟩
  unfold ReadMessageHeader
  simp only []
  split_ifs
  · exact ⟨rfl, rfl⟩
  · exact ⟨rfl, rfl⟩
  · exact ⟨rfl, rfl⟩
  · exact hf _ _ _ _
  · obtain ⟨e1, e2⟩ := he (ReadMessageHeader_fields b
      { cs with msg := some (cs.msg.getD CommonMessage.new) } fmt cs.msg.isNone
      (mh_sizes.getD fmt 0)).2.1 (ReadMessageHeader_fields b
      { cs with msg := some (cs.msg.getD CommonMessage.new) } fmt cs.msg.isNone
      (mh_sizes.getD fmt 0)).2.2 cs.msg.isNone
    obtain ⟨f1, f2⟩ := hf b { cs with msg := some (cs.msg.getD CommonMessage.new) }
      cs.msg.isNone (mh_sizes.getD fmt 0)
    exact ⟨e1.trans f1, e2.trans f2⟩
  · obtain ⟨e1, e2⟩ := he (ReadMessageHeader_fields b
      { cs with msg := some (cs.msg.getD CommonMessage.new) } fmt cs.msg.isNone
      (mh_sizes.getD fmt 0)).2.1 (ReadMessageHeader_fields b
      { cs with msg := some (cs.msg.getD CommonMessage.new) } fmt cs.msg.isNone
      (mh_sizes.getD fmt 0)).2.2 cs.msg.isNone
    obtain ⟨f1, f2⟩ := hf b { cs with msg := some (cs.msg.getD CommonMessage.new) }
      cs.msg.isNone (mh_sizes.getD fmt 0)
    exact ⟨e1.trans f1, e2.trans f2⟩

/-- `ReadMessagePayload` never writes `cid` nor the header of the chunk stream. -/
theorem ReadMessagePayload_cid (c : Int) (b : InBuffer) (cs : ChunkStream) :
    (ReadMessagePayload c b cs).2.2.1.cid = cs.cid ∧
    (ReadMessagePayload c b cs).2.2.1.header = cs.header := by
  unfold ReadMessagePayload
  cases hm : cs.msg with
  | none =>
    simp only []
    split_ifs <;> exact ⟨rfl, rfl⟩
  | some m =>
    simp only []
    split_ifs <;> exact ⟨rfl, rfl⟩

/-- The state `RecvInterlacedMessage` leaves: the state it found with another
buffer, and possibly with another chunk stream stored under the id `cid` of the
chunk, whose `cid` and `header.perfer_cid` are those of the chunk stream that
was selected. -/
theorem RecvInterlacedMessage_state (p : Protocol) :
    (∃ b, (RecvInterlacedMessage p).2.1 = { p with in_buffer_ := b }) ∨
    (∃ b cs, (RecvInterlacedMessage p).2.1 =
        p.after_chunk (ReadBasicHeader p.in_buffer_ 0 0).2.2.2 cs b ∧
      cs.cid = (p.find_cs (ReadBasicHeader p.in_buffer_ 0 0).2.2.2).cid ∧
      cs.header.perfer_cid =
        (p.find_cs (ReadBasicHeader p.in_buffer_ 0 0).2.2.2).header.perfer_cid) := by
  unfold RecvInterlacedMessage
  simp only []
  split_ifs
  · exact Or.inl ⟨_, rfl⟩
  · exact Or.inr ⟨_, _, rfl, (ReadMessageHeader_cid _ _ _).1, (ReadMessageHeader_cid _ _ _).2⟩
  · refine Or.inr ⟨_, _, rfl, ?_, ?_⟩
    · rw [(ReadMessagePayload_cid _ _ _).1]
      exact (ReadMessageHeader_cid _ _ _).1
    · rw [(ReadMessagePayload_cid _ _ _).2]
      exact (ReadMessageHeader_cid _ _ _).2
  · refine Or.inr ⟨_, _, rfl, ?_, ?_⟩
    · rw [(ReadMessagePayload_cid _ _ _).1]
      exact (ReadMessageHeader_cid _ _ _).1
    · rw [(ReadMessagePayload_cid _ _ _).2]
      exact (ReadMessageHeader_cid _ _ _).2

/-- C39: one call of `RecvInterlacedMessage` leaves the chunk stream of every id
other than the id of the chunk it reads exactly as it was (message in progress,
header, extended-timestamp flag and `msg_count`).  For a new `Protocol` the
chunk stream selected for an id has that id as `cid` and as
`header.perfer_cid`, and every number of calls of `RecvInterlacedMessage`
keeps it so. -/
theorem RecvInterlacedMessage_per_cid (p : Protocol) :
    (∀ c : Nat, c ≠ (ReadBasicHeader p.in_buffer_ 0 0).2.2.2 →
      (RecvInterlacedMessage p).2.1.find_cs c = p.find_cs c) ∧
    (∀ (input : List Nat) (reader_ret : Nat) (rw : Writer) (c : Nat),
      ((Protocol.new input reader_ret rw).find_cs c).cid = c ∧
      ((Protocol.new input reader_ret rw).find_cs c).header.perfer_cid = c) ∧
    ((∀ c : Nat, (p.find_cs c).cid = c ∧ (p.find_cs c).header.perfer_cid = c) →
      ∀ (n : Nat) (c : Nat), ((recv_chunks n p).2.find_cs c).cid = c ∧
        ((recv_chunks n p).2.find_cs c).header.perfer_cid = c) := by
  have hstep : ∀ q : Protocol,
      (∀ c : Nat, (q.find_cs c).cid = c ∧ (q.find_cs c).header.perfer_cid = c) →
      ∀ c : Nat, ((RecvInterlacedMessage q).2.1.find_cs c).cid = c ∧
        ((RecvInterlacedMessage q).2.1.find_cs c).header.perfer_cid = c := by
    intro q hq c
    rcases RecvInterlacedMessage_state q with ⟨b, hb⟩ | ⟨b, cs, hb, h1, h2⟩
    · rw [hb]
      exact hq c
    · rw [hb]
      by_cases hc : c = (ReadBasicHeader q.in_buffer_ 0 0).2.2.2
      · rw [hc, Protocol.after_chunk_find, h1, h2]
        exact hq _
      · unfold Protocol.after_chunk
        rw [Protocol.find_set_buffer, Protocol.find_store_ne _ _ _ _ hc]
        exact hq c
  refine ⟨?_, ?_, ?_⟩
  · intro c hc
    rcases RecvInterlacedMessage_state p with ⟨b, hb⟩ | ⟨b, cs, hb, _, _⟩
    · rw [hb]
      rfl
    · rw [hb]
      unfold Protocol.after_chunk
      rw [Protocol.find_set_buffer, Protocol.find_store_ne _ _ _ _ hc]
  · intro input reader_ret rw c
    unfold Protocol.new Protocol.find_cs
    simp only []
    split_ifs <;> simp [ChunkStream.new]
  · intro hp n
    induction n generalizing p with
    | zero => exact hp
    | succ n ih =>
      intro c
      unfold recv_chunks
      exact ih (RecvInterlacedMessage p).2.1 (hstep p hp) c

/-- Witness for C39: the first chunk of `demo_receiver` is on chunk stream 3; the
chunk stream 4 is as it was, and after two chunks the chunk stream 3 still has
`cid` 3. -/
theorem RecvInterlacedMessage_per_cid_witness :
    (ReadBasicHeader demo_receiver.in_buffer_ 0 0).2.2.2 = 3 ∧
    (RecvInterlacedMessage demo_receiver).2.1.find_cs 4 = demo_receiver.find_cs 4 ∧
    ((recv_chunks 2 demo_receiver).2.find_cs 3).cid = 3 :=
  ⟨by decide,
    (RecvInterlacedMessage_per_cid demo_receiver).1 4 (by decide),
    (((RecvInterlacedMessage_per_cid demo_receiver).2.2
      ((RecvInterlacedMessage_per_cid demo_receiver).2.1
        (message_chunks [3] demo_mh [195] 2 [10, 20, 30]) 0 ⟨[], 0, 0⟩)) 2 3).1⟩

/-! ## The reassembly invariant -/

/-- The reassembly invariant depends on the message in progress and on the
payload length of the header only. -/
theorem ChunkStream.SizeInvariant_congr (cs cs1 : ChunkStream) (h : cs.SizeInvariant)
    (hm : cs1.msg = cs.msg) (hl : cs1.header.payload_length = cs.header.payload_length) :
    cs1.SizeInvariant := by
  unfold ChunkStream.SizeInvariant at h ⊢
  rw [hm, hl]
  exact h

/-- A chunk stream whose message has just been created satisfies the invariant
for every payload length that is not negative. -/
theorem ChunkStream.SizeInvariant_new (cs : ChunkStream)
    (hm : cs.msg = some CommonMessage.new) (hl : 0 ≤ cs.header.payload_length) :
    cs.SizeInvariant := by
  refine ⟨hl, ?_⟩
  intro m h
  rw [hm] at h
  have := (Option.some.inj h).symm
  subst this
  exact ⟨le_refl _, hl, le_refl _⟩

/-- `Read3Bytes` returns a value that is not negative. -/
theorem BufferReader.Read3Bytes_nonneg (m : BufferReader) : 0 ≤ m.Read3Bytes.1 :=
  Int.natCast_nonneg _

/-- The test of the payload length in the fields block, read as a fact about the
length that is stored when the test does not fail. -/
theorem payload_length_test (first : Bool) (old new : Int) (h0 : 0 ≤ new)
    (h : ¬ (first = false ∧ old ≠ new)) : new = old ∨ (first = true ∧ 0 ≤ new) := by
  cases first
  · left
    by_contra hne
    exact h ⟨rfl, fun e => hne e.symm⟩
  · exact Or.inr ⟨rfl, h0⟩

/-- The fields block keeps the message in progress, and either keeps the payload
length or, on the first chunk of a message, sets one that is not negative. -/
theorem ReadMessageHeader_fields_length (b : InBuffer) (cs : ChunkStream) (fmt : Nat)
    (first : Bool) (mh_size : Int) :
    (ReadMessageHeader_fields b cs fmt first mh_size).2.2.msg = cs.msg ∧
    ((ReadMessageHeader_fields b cs fmt first mh_size).2.2.header.payload_length =
        cs.header.payload_length ∨
      (first = true ∧
        0 ≤ (ReadMessageHeader_fields b cs fmt first mh_size).2.2.header.payload_length)) := by
  refine ⟨(ReadMessageHeader_fields_frame b cs fmt first mh_size).1, ?_⟩
  unfold ReadMessageHeader_fields BufferReader.Initialize
  simp only [RTMP_FMT_TYPE0, RTMP_FMT_TYPE1, RTMP_FMT_TYPE2]
  split_ifs <;> simp
  all_goals (rename_i hx _; exact payload_length_test first _ _ (BufferReader.Read3Bytes_nonneg _) hx)

/-- `ReadMessageHeader` keeps the reassembly invariant, whatever it returns; when
it succeeds there is a message in progress whose header is the header of the
chunk stream. -/
theorem ReadMessageHeader_size_invariant (b : InBuffer) (cs : ChunkStream) (fmt : Nat)
    (h : cs.SizeInvariant) :
    (ReadMessageHeader b cs fmt).2.2.SizeInvariant ∧
    ((ReadMessageHeader b cs fmt).1 = .ERROR_SUCCESS →
      ∃ m, (ReadMessageHeader b cs fmt).2.2.msg = some m ∧
        m.header = (ReadMessageHeader b cs fmt).2.2.header) := by
  have hcs1 : ChunkStream.SizeInvariant { cs with msg := some (cs.msg.getD CommonMessage.new) } := by
    cases hm : cs.msg with
    | none => exact ChunkStream.SizeInvariant_new _ rfl h.1
    | some m => exact ChunkStream.SizeInvariant_congr cs _ h (by simp [hm]) rfl
  have hfirst : cs.msg.isNone = true →
      ({ cs with msg := some (cs.msg.getD CommonMessage.new) } : ChunkStream).msg =
        some CommonMessage.new := by
    intro hn
    cases hm : cs.msg with
    | none => rfl
    | some m => simp [hm] at hn
  have hF : (ReadMessageHeader_fields b { cs with msg := some (cs.msg.getD CommonMessage.new) }
      fmt cs.msg.isNone (mh_sizes.getD fmt 0)).2.2.SizeInvariant := by
    obtain ⟨f1, f2⟩ := ReadMessageHeader_fields_length b
      { cs with msg := some (cs.msg.getD CommonMessage.new) } fmt cs.msg.isNone
      (mh_sizes.getD fmt 0)
    rcases f2 with f2 | ⟨f2, f3⟩
    · exact ChunkStream.SizeInvariant_congr _ _ hcs1 f1 f2
    · exact ChunkStream.SizeInvariant_new _ (f1.trans (hfirst f2)) f3
  have hE : (ReadMessageHeader_extended
      (ReadMessageHeader_fields b { cs with msg := some (cs.msg.getD CommonMessage.new) }
        fmt cs.msg.isNone (mh_sizes.getD fmt 0)).2.1
      (ReadMessageHeader_fields b { cs with msg := some (cs.msg.getD CommonMessage.new) }
        fmt cs.msg.isNone (mh_sizes.getD fmt 0)).2.2 cs.msg.isNone).2.2.SizeInvariant := by
    obtain ⟨e1, _, e3, _⟩ := ReadMessageHeader_extended_frame
      (ReadMessageHeader_fields b { cs with msg := some (cs.msg.getD CommonMessage.new) }
        fmt cs.msg.isNone (mh_sizes.getD fmt 0)).2.1
      (ReadMessageHeader_fields b { cs with msg := some (cs.msg.getD CommonMessage.new) }
        fmt cs.msg.isNone (mh_sizes.getD fmt 0)).2.2 cs.msg.isNone
    exact ChunkStream.SizeInvariant_congr _ _ hF e1 e3
  have hEmsg : ∃ m0, (ReadMessageHeader_extended
      (ReadMessageHeader_fields b { cs with msg := some (cs.msg.getD CommonMessage.new) }
        fmt cs.msg.isNone (mh_sizes.getD fmt 0)).2.1
      (ReadMessageHeader_fields b { cs with msg := some (cs.msg.getD CommonMessage.new) }
        fmt cs.msg.isNone (mh_sizes.getD fmt 0)).2.2 cs.msg.isNone).2.2.msg = some m0 := by
    refine ⟨cs.msg.getD CommonMessage.new, ?_⟩
    rw [(ReadMessageHeader_extended_frame _ _ _).1, (ReadMessageHeader_fields_frame _ _ _ _ _).1]
  have hfin : ∀ cs3 : ChunkStream, cs3.SizeInvariant → (∃ m0, cs3.msg = some m0) →
      (ReadMessageHeader_finish cs3).SizeInvariant ∧
      ∃ m, (ReadMessageHeader_finish cs3).msg = some m ∧
        m.header = (ReadMessageHeader_finish cs3).header := by
    intro cs3 h3 hm3
    obtain ⟨m0, hm0⟩ := hm3
    obtain ⟨g1, g2, _⟩ := h3.2 m0 hm0
    unfold ReadMessageHeader_finish
    simp only [hm0, Option.map_some']
    refine ⟨⟨h3.1, ?_⟩, _, rfl, rfl⟩
    intro m hm
    have := (Option.some.inj hm).symm
    subst this
    exact ⟨g1, g2, g2⟩
  unfold ReadMessageHeader
  simp only []
  split_ifs with c1 c2 c3 c4 c5
  · exact ⟨h, fun hs => absurd hs (by decide)⟩
  · exact ⟨h, fun hs => absurd hs (by decide)⟩
  · exact ⟨hcs1, fun hs => absurd hs c3.2⟩
  · exact ⟨hF, fun hs => absurd hs c4⟩
  · exact ⟨hE, fun hs => absurd hs c5⟩
  · obtain ⟨k1, k2⟩ := hfin _ hE hEmsg
    exact ⟨k1, fun _ => k2⟩

/-- `ReadMessagePayload` after a successful `ReadMessageHeader` (there is a
message in progress whose header has the payload length of the chunk stream)
keeps the reassembly invariant, whatever it returns; when it succeeds, it either
hands the message out, with the slot empty and the size equal to the payload
length, or hands nothing out and keeps the message in the slot, with a positive
size below the payload length. -/
theorem ReadMessagePayload_size_invariant (c : Int) (b : InBuffer) (cs : ChunkStream)
    (h : cs.SizeInvariant) (m : CommonMessage) (hm : cs.msg = some m)
    (hh : m.header.payload_length = cs.header.payload_length) :
    (ReadMessagePayload c b cs).2.2.1.SizeInvariant ∧
    ((ReadMessagePayload c b cs).1 = .ERROR_SUCCESS →
      (∃ m1, (ReadMessagePayload c b cs).2.2.2 = some m1 ∧
        (ReadMessagePayload c b cs).2.2.1.msg = none ∧ m1.header = m.header ∧
        m1.size = cs.header.payload_length) ∨
      ((ReadMessagePayload c b cs).2.2.2 = none ∧
        ∃ m1, (ReadMessagePayload c b cs).2.2.1.msg = some m1 ∧ m1.header = m.header ∧
          0 < m1.size ∧ m1.size < cs.header.payload_length)) := by
  have hnone : ChunkStream.SizeInvariant { cs with msg := none } :=
    ⟨h.1, fun m hm => by simp at hm⟩
  obtain ⟨g1, g2, g3⟩ := h.2 m hm
  have hsome : ∀ x : CommonMessage, x.header = m.header → 0 ≤ x.size →
      x.size ≤ cs.header.payload_length →
      ChunkStream.SizeInvariant { cs with msg := some x } := by
    intro x x1 x2 x3
    refine ⟨h.1, ?_⟩
    intro y hy
    have e : x = y := Option.some.inj hy
    rw [← e, x1, hh]
    exact ⟨x2, x3, x3⟩
  unfold ReadMessagePayload
  by_cases hl : cs.header.payload_length ≤ 0
  · rw [if_pos hl]
    refine ⟨hnone, ?_⟩
    intro _
    refine Or.inl ⟨m, hm, rfl, rfl, ?_⟩
    have := h.1
    omega
  · rw [if_neg hl, hm]
    simp only []
    have hm1 : ∀ x : CommonMessage,
        x = (if m.payload.isNone then { m with payload := some [] } else m) →
        x.size = m.size ∧ x.header = m.header := by
      intro x hx
      subst hx
      split_ifs <;> exact ⟨rfl, rfl⟩
    obtain ⟨s1, s2⟩ := hm1 _ rfl
    by_cases hg : b.Grow (rs_min (cs.header.payload_length - m.size) c) ≠ .ERROR_SUCCESS
    · rw [if_pos hg]
      refine ⟨hsome _ s2 ?_ ?_, fun hs => absurd hs hg⟩
      · rw [s1]
        exact g1
      · rw [s1]
        exact g2
    · rw [if_neg hg]
      have hk0 : 0 < rs_min (cs.header.payload_length - m.size) c := by
        by_contra hk
        apply hg
        unfold InBuffer.Grow
        rw [if_pos (by omega)]
        decide
      have hkle : rs_min (cs.header.payload_length - m.size) c ≤
          cs.header.payload_length - m.size := by
        unfold rs_min
        split_ifs <;> omega
      rw [s1]
      by_cases he : cs.header.payload_length =
          m.size + rs_min (cs.header.payload_length - m.size) c
      · rw [if_pos he]
        refine ⟨hnone, ?_⟩
        intro _
        exact Or.inl ⟨_, rfl, rfl, s2, he.symm⟩
      · rw [if_neg he]
        refine ⟨hsome _ s2 ?_ ?_, ?_⟩
        · show 0 ≤ m.size + _
          omega
        · show m.size + _ ≤ _
          omega
        · intro _
          refine Or.inr ⟨rfl, _, rfl, s2, ?_, ?_⟩
          · show 0 < m.size + _
            omega
          · show m.size + _ < _
            omega

/-- A new chunk stream satisfies the reassembly invariant. -/
theorem ChunkStream.new_size_invariant (cid : Nat) : (ChunkStream.new cid).SizeInvariant :=
  ⟨le_refl _, fun m hm => by simp [ChunkStream.new] at hm⟩

/-- One call of `RecvInterlacedMessage` keeps the reassembly invariant of every
chunk stream, whatever it returns; when it succeeds, either it hands a message
out whose size is the payload length of its header, and the slot of the chunk's
chunk stream is empty, or it hands nothing out and the slot holds a message
with a positive size below the payload length. -/
theorem RecvInterlacedMessage_size_invariant (p : Protocol)
    (hp : ∀ cid, (p.find_cs cid).SizeInvariant) :
    (∀ cid, ((RecvInterlacedMessage p).2.1.find_cs cid).SizeInvariant) ∧
    ((RecvInterlacedMessage p).1 = .ERROR_SUCCESS →
      (∃ m1, (RecvInterlacedMessage p).2.2 = some m1 ∧
        ((RecvInterlacedMessage p).2.1.find_cs
          (ReadBasicHeader p.in_buffer_ 0 0).2.2.2).msg = none ∧
        m1.size = m1.header.payload_length) ∨
      ((RecvInterlacedMessage p).2.2 = none ∧
        ∃ m1, ((RecvInterlacedMessage p).2.1.find_cs
            (ReadBasicHeader p.in_buffer_ 0 0).2.2.2).msg = some m1 ∧
          0 < m1.size ∧ m1.size < m1.header.payload_length ∧
          m1.header.payload_length = ((RecvInterlacedMessage p).2.1.find_cs
            (ReadBasicHeader p.in_buffer_ 0 0).2.2.2).header.payload_length)) := by
  have hfind : ∀ (cid : Nat) (cs1 : ChunkStream) (b1 : InBuffer), cs1.SizeInvariant →
      ∀ c, (({ p.store_cs cid cs1 with in_buffer_ := b1 } : Protocol).find_cs c).SizeInvariant := by
    intro cid cs1 b1 h1 c
    rw [Protocol.find_set_buffer]
    by_cases hc : c = cid
    · rw [hc, Protocol.find_store]
      exact h1
    · rw [Protocol.find_store_ne _ _ _ _ hc]
      exact hp c
  have hA := ReadMessageHeader_size_invariant (ReadBasicHeader p.in_buffer_ 0 0).2.1
    (p.find_cs (ReadBasicHeader p.in_buffer_ 0 0).2.2.2)
    (ReadBasicHeader p.in_buffer_ 0 0).2.2.1 (hp _)
  unfold RecvInterlacedMessage
  simp only []
  split_ifs with c1 c2 c3
  · exact ⟨fun c => hp c, fun hs => absurd hs c1⟩
  · exact ⟨hfind _ _ _ hA.1, fun hs => absurd hs c2⟩
  · obtain ⟨m, hm, hmh⟩ := hA.2 (not_not.mp c2)
    have hB := ReadMessagePayload_size_invariant p.in_chunk_size_
      (ReadMessageHeader (ReadBasicHeader p.in_buffer_ 0 0).2.1
        (p.find_cs (ReadBasicHeader p.in_buffer_ 0 0).2.2.2)
        (ReadBasicHeader p.in_buffer_ 0 0).2.2.1).2.1 _ hA.1 m hm
      (congrArg MessageHeader.payload_length hmh)
    exact ⟨hfind _ _ _ hB.1, fun hs => absurd hs c3⟩
  · obtain ⟨m, hm, hmh⟩ := hA.2 (not_not.mp c2)
    have hB := ReadMessagePayload_size_invariant p.in_chunk_size_
      (ReadMessageHeader (ReadBasicHeader p.in_buffer_ 0 0).2.1
        (p.find_cs (ReadBasicHeader p.in_buffer_ 0 0).2.2.2)
        (ReadBasicHeader p.in_buffer_ 0 0).2.2.1).2.1 _ hA.1 m hm
      (congrArg MessageHeader.payload_length hmh)
    refine ⟨hfind _ _ _ hB.1, fun _ => ?_⟩
    simp only [Protocol.find_set_buffer, Protocol.find_store]
    rcases hB.2 (not_not.mp c3) with ⟨m1, k1, k2, k3, k4⟩ | ⟨k1, m1, k2, k3, k4, k5⟩
    · refine Or.inl ⟨m1, k1, k2, ?_⟩
      rw [k4, k3, hmh]
    · refine Or.inr ⟨k1, m1, k2, k4, ?_, ?_⟩
      · rw [k3, hmh]
        exact k5
      · rw [k3, hmh, (ReadMessagePayload_cid _ _ _).2]

/-- C32: every chunk stream of a new `Protocol` satisfies the reassembly
invariant (a message in progress has `0 <= size <= header.payload_length`), and
on a state in which every chunk stream satisfies it, every chunk stream does so
after every number of calls of `RecvInterlacedMessage`.  A successful call
either hands a message out, whose size then equals the payload length of its
header, and the slot of the chunk's chunk stream is empty; or it hands nothing
out, and the slot keeps the message, whose size is positive and below the
payload length. -/
theorem reassembly_invariant (p : Protocol) (hp : ∀ cid, (p.find_cs cid).SizeInvariant) :
    (∀ (input : List Nat) (reader_ret : Nat) (rw : Writer) (cid : Nat),
      ((Protocol.new input reader_ret rw).find_cs cid).SizeInvariant) ∧
    (∀ (n : Nat) (cid : Nat), ((recv_chunks n p).2.find_cs cid).SizeInvariant) ∧
    ((RecvInterlacedMessage p).1 = .ERROR_SUCCESS →
      (∃ m1, (RecvInterlacedMessage p).2.2 = some m1 ∧
        ((RecvInterlacedMessage p).2.1.find_cs
          (ReadBasicHeader p.in_buffer_ 0 0).2.2.2).msg = none ∧
        m1.size = m1.header.payload_length) ∨
      ((RecvInterlacedMessage p).2.2 = none ∧
        ∃ m1, ((RecvInterlacedMessage p).2.1.find_cs
            (ReadBasicHeader p.in_buffer_ 0 0).2.2.2).msg = some m1 ∧
          0 < m1.size ∧ m1.size < m1.header.payload_length ∧
          m1.header.payload_length = ((RecvInterlacedMessage p).2.1.find_cs
            (ReadBasicHeader p.in_buffer_ 0 0).2.2.2).header.payload_length)) := by
  refine ⟨?_, ?_, (RecvInterlacedMessage_size_invariant p hp).2⟩
  · intro input reader_ret rw cid
    unfold Protocol.new Protocol.find_cs
    simp only []
    split_ifs
    · exact ChunkStream.new_size_invariant cid
    · exact ChunkStream.new_size_invariant cid
  · intro n
    induction n generalizing p with
    | zero => exact hp
    | succ n ih =>
      intro cid
      unfold recv_chunks
      exact ih (RecvInterlacedMessage p).2.1 (RecvInterlacedMessage_size_invariant p hp).1 cid

/-- Witness for C32: `demo_receiver` gets a message of 3 bytes in chunks of 2
bytes; the first call hands nothing out and keeps a message of size 2, the
second hands out the message of size 3. -/
theorem reassembly_invariant_witness :
    (RecvInterlacedMessage demo_receiver).2.2 = none ∧
    ((RecvInterlacedMessage demo_receiver).2.1.find_cs 3).msg.map (fun m => m.size) = some 2 ∧
    (RecvInterlacedMessage (RecvInterlacedMessage demo_receiver).2.1).2.2.map
      (fun m => (m.size, m.header.payload_length)) = some (3, 3) ∧
    ∀ (n : Nat) (cid : Nat), ((recv_chunks n demo_receiver).2.find_cs cid).SizeInvariant :=
  ⟨by decide, by decide, by decide,
    (reassembly_invariant demo_receiver (fun cid => by
      rw [show demo_receiver.find_cs cid = ChunkStream.new cid from
        fresh_receiver_find_cs 2 _ 0 ⟨[], 0, 0⟩ cid]
      exact ChunkStream.new_size_invariant cid)).2.1⟩

/-! ## The extended timestamp on a continuation chunk -/

/-- The `uint32_t` read by `Read4Bytes` and masked with `0x7fffffff`. -/
theorem to_int32_masked (u : Nat) :
    (to_int32 u % 4294967296) % 2147483648 = ((u % 2147483648 : Nat) : Int) := by
  unfold to_int32
  split <;> omega

/-- `Skip(-4)` after `ReadSlice(4)` puts the cursor back. -/
theorem InBuffer.ReadSlice_Skip_back (b : InBuffer) : (b.ReadSlice 4).2.Skip (-4) = b := by
  cases b with
  | mk capacity_ data pos reader_ret =>
    have h : (((pos + (4 : Int).toNat : Nat) : Int) + -4).toNat = pos := by
      have : (4 : Int).toNat = 4 := rfl
      rw [this]
      omega
    simp only [InBuffer.ReadSlice, InBuffer.Skip, h]

/-- The extended-timestamp block on a continuation chunk (`is_first_msg_of_chunk`
false) of a chunk stream that expects an extended timestamp: the four bytes at
the cursor are taken as the timestamp when the stored timestamp is 0 or equals
their value masked with `0x7fffffff`; otherwise the cursor is put back and
nothing changes. -/
theorem ReadMessageHeader_extended_peek (b : InBuffer) (cs : ChunkStream)
    (b0 b1 b2 b3 : Nat) (rest : List Nat)
    (hext : cs.extended_timestamp = true)
    (hH : 0 ≤ cs.header.timestamp ∧ cs.header.timestamp < 4294967296)
    (hunread : b.unread = b0 :: b1 :: b2 :: b3 :: rest) (hcap : 4 ≤ b.capacity_) :
    ReadMessageHeader_extended b cs false =
      if cs.header.timestamp = 0 ∨
          (((b0 * 16777216 + b1 * 65536 + b2 * 256 + b3) % 2147483648 : Nat) : Int) =
            cs.header.timestamp then
        (.ERROR_SUCCESS, b.advance 4,
          { cs with header := { cs.header with timestamp :=
            (((b0 * 16777216 + b1 * 65536 + b2 * 256 + b3) % 2147483648 : Nat) : Int) } })
      else (.ERROR_SUCCESS, b, cs) := by
  have hlen := congrArg List.length hunread
  simp only [List.length_cons] at hlen
  have hg : b.Grow 4 = .ERROR_SUCCESS := b.Grow_ok 4 (by omega) hcap (by omega)
  have hmod : cs.header.timestamp % 4294967296 = cs.header.timestamp := by omega
  have htake : (b.ReadSlice 4).1 = [b0, b1, b2, b3] := by
    rw [InBuffer.ReadSlice_eq, hunread]
    rfl
  have hval : ((BufferReader.Initialize (b.ReadSlice 4).1 4).2.Read4Bytes.1 % 4294967296) %
      2147483648 = (((b0 * 16777216 + b1 * 65536 + b2 * 256 + b3) % 2147483648 : Nat) : Int) := by
    rw [htake]
    have hread : (BufferReader.Initialize [b0, b1, b2, b3] 4).2.Read4Bytes.1 =
        to_int32 (b0 * 16777216 + b1 * 65536 + b2 * 256 + b3) := rfl
    rw [hread]
    exact to_int32_masked _
  have h2 : (b.ReadSlice 4).2 = b.advance 4 := rfl
  unfold ReadMessageHeader_extended
  rw [if_pos hext, if_neg (by rw [hg]; simp)]
  simp only []
  rw [hval, hmod, InBuffer.ReadSlice_Skip_back, h2]
  by_cases hc : cs.header.timestamp = 0 ∨
      (((b0 * 16777216 + b1 * 65536 + b2 * 256 + b3) % 2147483648 : Nat) : Int) =
        cs.header.timestamp
  · rw [if_pos hc, if_neg]
    rintro ⟨_, h1, h3⟩
    rcases hc with hc | hc
    · omega
    · exact h3 hc.symm
  · rw [if_neg hc, if_pos]
    refine ⟨trivial, ?_, ?_⟩
    · have : cs.header.timestamp ≠ 0 := fun h => hc (Or.inl h)
      omega
    · exact fun h => hc (Or.inr h.symm)

/-- C33, what the code does: on a fmt=3 chunk that continues a message of a
chunk stream that expects an extended timestamp, `ReadMessageHeader` succeeds
when four bytes are there.  With `H` the timestamp the header holds (below
`2^27` after every successful `ReadMessageHeader`) and `v` the big-endian value
of the four bytes masked with `0x7fffffff`: when `H = 0` or `v = H` the four
bytes are consumed and the timestamp becomes `v` masked with `0x7ffffff`;
otherwise the cursor is put back, so that the bytes are read as payload, and
the timestamp stays `H`. -/
theorem ReadMessageHeader_fmt3_extended_peek (b : InBuffer) (cs : ChunkStream)
    (m : CommonMessage) (b0 b1 b2 b3 : Nat) (rest : List Nat)
    (hmsg : cs.msg = some m) (hext : cs.extended_timestamp = true) (hcount : cs.msg_count ≠ 0)
    (hH : 0 ≤ cs.header.timestamp ∧ cs.header.timestamp < 134217728)
    (hunread : b.unread = b0 :: b1 :: b2 :: b3 :: rest) (hcap : 4 ≤ b.capacity_) :
    (ReadMessageHeader b cs 3).1 = .ERROR_SUCCESS ∧
    (cs.header.timestamp = 0 ∨
        (((b0 * 16777216 + b1 * 65536 + b2 * 256 + b3) % 2147483648 : Nat) : Int) =
          cs.header.timestamp →
      (ReadMessageHeader b cs 3).2.1 = b.advance 4 ∧
      (ReadMessageHeader b cs 3).2.2.header.timestamp =
        (((b0 * 16777216 + b1 * 65536 + b2 * 256 + b3) % 2147483648 : Nat) : Int) %
          134217728) ∧
    (¬ (cs.header.timestamp = 0 ∨
        (((b0 * 16777216 + b1 * 65536 + b2 * 256 + b3) % 2147483648 : Nat) : Int) =
          cs.header.timestamp) →
      (ReadMessageHeader b cs 3).2.1 = b ∧
      (ReadMessageHeader b cs 3).2.2.header.timestamp = cs.header.timestamp) := by
  have he := ReadMessageHeader_extended_peek b
    { cs with msg := some m } b0 b1 b2 b3 rest hext
    ⟨hH.1, by have := hH.2; show cs.header.timestamp < 4294967296; omega⟩ hunread hcap
  have hform : ReadMessageHeader b cs 3 =
      (.ERROR_SUCCESS,
        (ReadMessageHeader_extended b
          { cs with msg := some m } false).2.1,
        ReadMessageHeader_finish (ReadMessageHeader_extended b
          { cs with msg := some m } false).2.2) := by
    have he1 : (ReadMessageHeader_extended b
        { cs with msg := some m } false).1 = .ERROR_SUCCESS := by
      rw [he]
      split_ifs <;> rfl
    simp [ReadMessageHeader, ReadMessageHeader_fields, mh_sizes, hmsg, hcount, RTMP_FMT_TYPE0,
      RTMP_FMT_TYPE2, he1]
  rw [hform]
  refine ⟨rfl, ?_, ?_⟩
  · intro hc
    have hc1 : ({ cs with msg := some m } :
        ChunkStream).header.timestamp = 0 ∨
        (((b0 * 16777216 + b1 * 65536 + b2 * 256 + b3) % 2147483648 : Nat) : Int) =
          ({ cs with msg := some m } :
            ChunkStream).header.timestamp := hc
    rw [if_pos hc1] at he
    simp only [he]
    exact ⟨trivial, rfl⟩
  · intro hc
    have hc1 : ¬ (({ cs with msg := some m } :
        ChunkStream).header.timestamp = 0 ∨
        (((b0 * 16777216 + b1 * 65536 + b2 * 256 + b3) % 2147483648 : Nat) : Int) =
          ({ cs with msg := some m } :
            ChunkStream).header.timestamp) := hc
    rw [if_neg hc1] at he
    simp only [he]
    refine ⟨trivial, ?_⟩
    show cs.header.timestamp % 134217728 = cs.header.timestamp
    omega

set_option maxRecDepth 20000 in
/-- Witness for C33, the failing input: the extended timestamp is
`T = 0x08000001`.  The first chunk leaves the chunk stream 3 as
`extended_stream`, whose header holds the timestamp 1; the continuation chunk
repeats the four bytes `08 00 00 01`, whose value is `T`, and they are not
consumed: the cursor is put back to them, the byte `08` is delivered as the
last payload byte of the message, and the message is handed out with the
timestamp 1. -/
theorem ReadMessageHeader_fmt3_extended_peek_witness :
    (RecvInterlacedMessage (Protocol.new (extended_wire 8 0 0 1) 0 ⟨[], 0, 0⟩)).2.1.find_cs 3 =
      extended_stream ∧
    (RecvInterlacedMessage
        (RecvInterlacedMessage (Protocol.new (extended_wire 8 0 0 1) 0 ⟨[], 0, 0⟩)).2.1).2.2.map
      (fun msg => (msg.header.timestamp, msg.size, (msg.payload.getD []).drop 128)) =
        some (1, 129, [8]) ∧
    (ReadMessageHeader (buffer_of [8, 0, 0, 1, 0xbb]) extended_stream 3).2.1 =
      buffer_of [8, 0, 0, 1, 0xbb] ∧
    (ReadMessageHeader (buffer_of [8, 0, 0, 1, 0xbb]) extended_stream 3).2.2.header.timestamp =
      1 :=
  ⟨by decide, by decide,
    (ReadMessageHeader_fmt3_extended_peek (buffer_of [8, 0, 0, 1, 0xbb]) extended_stream
      ⟨⟨0xffffff, 129, 9, 1, 1, 3⟩, 128, some (List.replicate 128 0xaa)⟩ 8 0 0 1 [0xbb] rfl rfl
      (by decide) (by decide) rfl (by decide)).2.2 (by decide)⟩

/-! ## The chunk headers of the emitter -/

/-- The low six bits of a chunk stream id, as `chunk_header_c0` and
`chunk_header_c3` compute them, in terms of the bit operations of the source. -/
theorem cid_low_bits (cid : Nat) :
    (((cid : Int) % 64).toNat = cid &&& 0x3f) ∧
    (192 + ((cid : Int) % 64).toNat = 0xC0 ||| (cid &&& 0x3f)) := by
  have h1 : cid &&& 0x3f = cid % 64 := Nat.and_pow_two_sub_one_eq_mod cid 6
  have h2 : ∀ k : Fin 64, 192 ||| k.val = 192 + k.val := by decide
  have h3 : ((cid : Int) % 64).toNat = cid % 64 := by omega
  have h4 := h2 ⟨cid % 64, Nat.mod_lt _ (by decide)⟩
  simp only [] at h4
  rw [h1, h3]
  exact ⟨rfl, h4.symm⟩

/-- The four bytes `pp[3]`, `pp[2]`, `pp[1]`, `pp[0]` of a `uint32_t` are its
big-endian digits. -/
theorem byte_of_u32 (v : Int) (h0 : 0 ≤ v) (h1 : v < 4294967296) :
    ((byte_of v 3 * 16777216 + byte_of v 2 * 65536 + byte_of v 1 * 256 + byte_of v 0 : Nat) :
      Int) = v := by
  unfold byte_of
  simp only [pow_zero, pow_one, Int.reducePow]
  omega

/-- C34: for every chunk stream id and every `uint32_t` timestamp, the first byte
`chunk_header_c0` writes is `cid & 0x3f` and the first byte `chunk_header_c3`
writes is `0xC0 | (cid & 0x3f)`.  For a timestamp below `0xFFFFFF`,
`chunk_header_c0` writes 12 bytes whose bytes 1..3 are the timestamp, most
significant byte first, and `chunk_header_c3` writes the one byte.  For a
timestamp from `0xFFFFFF` on, `chunk_header_c0` writes 16 bytes whose bytes
1..3 are `ff ff ff` and whose last four bytes are the timestamp, most
significant byte first, and `chunk_header_c3` writes 5 bytes: its first byte
and the same four timestamp bytes. -/
theorem chunk_headers_layout (cid : Nat) (timestamp payload_length message_type stream_id : Int)
    (h0 : 0 ≤ timestamp) (h1 : timestamp < 4294967296) :
    (chunk_header_c0 cid timestamp payload_length message_type stream_id).head? =
      some (cid &&& 0x3f) ∧
    (chunk_header_c3 cid timestamp).head? = some (0xC0 ||| (cid &&& 0x3f)) ∧
    (timestamp < 0xFFFFFF →
      (chunk_header_c0 cid timestamp payload_length message_type stream_id).length = 12 ∧
      (∃ b2 b1 b0 : Nat, b2 < 256 ∧ b1 < 256 ∧ b0 < 256 ∧
        ((chunk_header_c0 cid timestamp payload_length message_type stream_id).drop 1).take 3 =
          [b2, b1, b0] ∧
        ((b2 * 65536 + b1 * 256 + b0 : Nat) : Int) = timestamp) ∧
      (chunk_header_c3 cid timestamp).length = 1) ∧
    (0xFFFFFF ≤ timestamp →
      (chunk_header_c0 cid timestamp payload_length message_type stream_id).length = 16 ∧
      ((chunk_header_c0 cid timestamp payload_length message_type stream_id).drop 1).take 3 =
        [0xff, 0xff, 0xff] ∧
      (∃ b3 b2 b1 b0 : Nat, b3 < 256 ∧ b2 < 256 ∧ b1 < 256 ∧ b0 < 256 ∧
        (chunk_header_c0 cid timestamp payload_length message_type stream_id).drop 12 =
          [b3, b2, b1, b0] ∧
        (chunk_header_c3 cid timestamp).drop 1 = [b3, b2, b1, b0] ∧
        ((b3 * 16777216 + b2 * 65536 + b1 * 256 + b0 : Nat) : Int) = timestamp) ∧
      (chunk_header_c3 cid timestamp).length = 5) := by
  refine ⟨?_, ?_, ?_, ?_⟩
  · unfold chunk_header_c0
    rw [(cid_low_bits cid).1]
    rfl
  · unfold chunk_header_c3
    rw [(cid_low_bits cid).2]
    rfl
  · intro h
    have hn : ¬ timestamp ≥ RTMP_EXTENDED_TIMESTAMP := by
      simp only [RTMP_EXTENDED_TIMESTAMP]
      omega
    have hp : timestamp < RTMP_EXTENDED_TIMESTAMP := by
      simp only [RTMP_EXTENDED_TIMESTAMP]
      omega
    unfold chunk_header_c0 chunk_header_c3
    rw [if_pos hp, if_neg hn]
    refine ⟨rfl, ⟨byte_of timestamp 2, byte_of timestamp 1, byte_of timestamp 0,
      byte_of_lt _ _, byte_of_lt _ _, byte_of_lt _ _, rfl, ?_⟩, rfl⟩
    exact byte_of_24 timestamp h0 (by omega)
  · intro h
    have hn : ¬ timestamp < RTMP_EXTENDED_TIMESTAMP := by
      simp only [RTMP_EXTENDED_TIMESTAMP]
      omega
    have hp : timestamp ≥ RTMP_EXTENDED_TIMESTAMP := by
      simp only [RTMP_EXTENDED_TIMESTAMP]
      omega
    unfold chunk_header_c0 chunk_header_c3
    rw [if_neg hn, if_pos hp]
    refine ⟨rfl, rfl, ⟨byte_of timestamp 3, byte_of timestamp 2, byte_of timestamp 1,
      byte_of timestamp 0, byte_of_lt _ _, byte_of_lt _ _, byte_of_lt _ _, byte_of_lt _ _,
      rfl, rfl, ?_⟩, rfl⟩
    exact byte_of_u32 timestamp h0 h1

/-- Witness for C34: chunk stream 3 with the timestamps 5 and `0x01000000`. -/
theorem chunk_headers_layout_witness :
    chunk_header_c0 3 5 3 9 1 = [3, 0, 0, 5, 0, 0, 3, 9, 0, 0, 0, 1] ∧
    chunk_header_c3 3 5 = [0xc3] ∧
    chunk_header_c0 3 0x01000000 3 9 1 =
      [3, 0xff, 0xff, 0xff, 0, 0, 3, 9, 0, 0, 0, 1, 1, 0, 0, 0] ∧
    chunk_header_c3 3 0x01000000 = [0xc3, 1, 0, 0, 0] ∧
    (chunk_header_c0 ((3 : Nat) : Int) 0x01000000 3 9 1).length = 16 :=
  ⟨by decide, by decide, by decide, by decide,
    ((chunk_headers_layout 3 0x01000000 3 9 1 (by decide) (by decide)).2.2.2 (by decide)).1⟩

/-! ## The response queue -/

/-- Whatever `Read` returns, the bytes it hands out are the front of the pending
ones, and there are at most `size` of them. -/
theorem Reader.Read_split (r : Reader) (size : Int) (hs : 0 ≤ size) :
    (r.Read size).2.1 ++ (r.Read size).2.2.pending = r.pending ∧
    ((r.Read size).2.1.length : Int) ≤ size := by
  unfold Reader.Read
  by_cases hp : r.pending = []
  · rw [if_pos hp]
    simp [hp, hs]
  · rw [if_neg hp]
    simp only [List.take_append_drop, List.length_take, true_and]
    have : min (min (min size.toNat (r.burst r.calls + 1)) r.pending.length) r.pending.length
        ≤ size.toNat := by omega
    have h2 : ((min (min (min size.toNat (r.burst r.calls + 1)) r.pending.length)
        r.pending.length : Nat) : Int) ≤ (size.toNat : Int) := by exact_mod_cast this
    omega

/-- The read loop of `Grow` only appends to the block: the bytes it appends are
the front of what the reader had pending, at most `free_space` of them, and the
cursor `start_` and the capacity stay. -/
theorem FastBuffer.Grow_loop_frame (n : Int) :
    ∀ (fuel : Nat) (b : FastBuffer) (r : Reader) (fs : Int)
      (res : ErrorCode × FastBuffer × Reader),
      0 ≤ fs → FastBuffer.Grow_loop n fuel b r fs = some res →
      ∃ d : List Nat, res.2.1 = { b with buf_ := b.buf_ ++ d } ∧
        r.pending = d ++ res.2.2.pending ∧ (d.length : Int) ≤ fs ∧
        res.1 ≠ .ERROR_READER_BUFFER_OVERFLOW := by
  intro fuel
  induction fuel with
  | zero =>
    intro b r fs res _ h
    simp [FastBuffer.Grow_loop] at h
  | succ fuel ih =>
    intro b r fs res hfs h
    unfold FastBuffer.Grow_loop at h
    obtain ⟨hsplit, hlen⟩ := Reader.Read_split r fs hfs
    by_cases hlt : b.Size < n
    · rw [if_pos hlt] at h
      simp only [] at h
      by_cases hrd : (r.Read fs).1 ≠ .ERROR_SUCCESS
      · rw [if_pos hrd] at h
        have hres := (Option.some.inj h).symm
        have hnil : (r.Read fs).2.1 = [] := by
          unfold Reader.Read at hrd ⊢
          by_cases hp : r.pending = []
          · rw [if_pos hp]
          · rw [if_neg hp] at hrd
            exact absurd rfl hrd
        have hne : (r.Read fs).1 ≠ .ERROR_READER_BUFFER_OVERFLOW := by
          unfold Reader.Read
          by_cases hp : r.pending = []
          · rw [if_pos hp]
            simp
          · rw [if_neg hp]
            simp
        rw [hnil, List.nil_append] at hsplit
        refine ⟨[], ?_, ?_, by simpa using hfs, ?_⟩
        · rw [hres]
          simp
        · rw [hres]
          simp [hsplit]
        · rw [hres]
          exact hne
      · rw [if_neg hrd] at h
        by_cases hz : ((r.Read fs).2.1.length : Int) ≤ 0
        · rw [if_pos hz] at h
          have hres := (Option.some.inj h).symm
          have hnil : (r.Read fs).2.1 = [] := by
            apply List.eq_nil_of_length_eq_zero
            omega
          rw [hnil, List.nil_append] at hsplit
          refine ⟨[], ?_, ?_, by simpa using hfs, ?_⟩
          · rw [hres]
            simp
          · rw [hres]
            simp [hsplit]
          · rw [hres]
            simp
        · rw [if_neg hz] at h
          obtain ⟨d, h1, h2, h3, h4⟩ := ih _ _ _ res (by omega) h
          refine ⟨(r.Read fs).2.1 ++ d, ?_, ?_, ?_, h4⟩
          · rw [h1]
            simp
          · rw [List.append_assoc, ← h2, hsplit]
          · rw [List.length_append]
            push_cast
            omega
    · rw [if_neg hlt] at h
      have hres := (Option.some.inj h).symm
      refine ⟨[], ?_, ?_, by simpa using hfs, ?_⟩
      · rw [hres]
        simp
      · rw [hres]
        simp
      · rw [hres]
        simp

/-- What `Grow` does to the buffer and to the reader, whatever it returns: the
bytes `d` it appends are the front of what the reader had pending; when the
free space behind `end_` is smaller than the bytes still missing, the unread
bytes stand at offset 0 afterwards, and otherwise the block is the old block
with `d` behind it and `start_` stays; the cursors stay in order. -/
theorem FastBuffer.Grow_frame (fuel : Nat) (b : FastBuffer) (r : Reader) (n : Int)
    (hinv : b.CursorsOk) (res : ErrorCode × FastBuffer × Reader)
    (h : b.Grow fuel r n = some res) :
    ∃ d : List Nat, r.pending = d ++ res.2.2.pending ∧ res.2.1.capacity_ = b.capacity_ ∧
      (b.Size < n ∧ b.capacity_ - (b.end_ : Int) < n - b.Size →
        res.2.1.start_ = 0 ∧ res.2.1.buf_ = b.unread ++ d) ∧
      (¬ (b.Size < n ∧ b.capacity_ - (b.end_ : Int) < n - b.Size) →
        res.2.1.start_ = b.start_ ∧ res.2.1.buf_ = b.buf_ ++ d) ∧
      res.2.1.CursorsOk ∧ (res.1 = .ERROR_READER_BUFFER_OVERFLOW → d = []) := by
  obtain ⟨hstart, hend⟩ := hinv
  have hsize : b.Size = (b.end_ : Int) - b.start_ := rfl
  have hs0 : 0 ≤ b.Size := by
    rw [hsize]
    omega
  unfold FastBuffer.Grow at h
  by_cases hn : n ≤ 0
  · rw [if_pos hn] at h
    have hres := (Option.some.inj h).symm
    subst hres
    exact ⟨[], by simp, rfl, fun hc => by omega, fun _ => ⟨rfl, by simp⟩, ⟨hstart, hend⟩,
      fun _ => rfl⟩
  · rw [if_neg hn] at h
    by_cases hge : b.Size ≥ n
    · rw [if_pos hge] at h
      have hres := (Option.some.inj h).symm
      subst hres
      exact ⟨[], by simp, rfl, fun hc => by omega, fun _ => ⟨rfl, by simp⟩, ⟨hstart, hend⟩,
        fun _ => rfl⟩
    · rw [if_neg hge] at h
      simp only [] at h
      by_cases hfree : b.capacity_ - (b.end_ : Int) < n - ((b.end_ : Int) - b.start_)
      · rw [if_pos hfree] at h
        obtain ⟨hc1, hs1, he1, hu1⟩ := FastBuffer.compact_spec b hstart hend _ rfl
        have hbuf1 : ∀ b1 : FastBuffer, b1.start_ = 0 → b1.unread = b.unread →
            b1.buf_ = b.unread := by
          intro b1 h0 hu
          rw [← hu]
          simp [FastBuffer.unread, h0]
        have hb1 := hbuf1 _ hs1 hu1
        rw [hc1, he1] at h
        by_cases hov : b.capacity_ - b.Size < n - ((b.end_ : Int) - b.start_)
        · rw [if_pos hov] at h
          have hres := (Option.some.inj h).symm
          subst hres
          refine ⟨[], by simp, hc1, fun _ => ⟨hs1, by simpa using hb1⟩,
            fun hc => absurd ⟨by omega, by omega⟩ hc, ⟨?_, ?_⟩, fun _ => rfl⟩
          · show _ ≤ _
            rw [hs1]
            exact Nat.zero_le _
          · show _ ≤ _
            rw [he1, hc1]
            omega
        · rw [if_neg hov] at h
          obtain ⟨d, h1, h2, h3, h4⟩ := FastBuffer.Grow_loop_frame n fuel _ r _ res
            (by omega) h
          refine ⟨d, h2, ?_, fun _ => ⟨?_, ?_⟩, fun hc => absurd ⟨by omega, by omega⟩ hc,
            ⟨?_, ?_⟩, fun ho => absurd ho h4⟩
          · rw [h1]
            exact hc1
          · rw [h1]
            exact hs1
          · rw [h1]
            show _ ++ d = _
            rw [hb1]
          · rw [h1]
            show _ ≤ _
            simp only [hs1]
            exact Nat.zero_le _
          · rw [h1]
            show ((List.length (_ ++ d) : Nat) : Int) ≤ _
            rw [List.length_append]
            push_cast
            have he1' : ((List.length
              (if (b.end_ : Int) - b.start_ = 0 then { b with buf_ := [], start_ := 0 }
              else if (b.end_ : Int) - b.start_ < b.capacity_ ∧ b.start_ > 0 then
                { b with buf_ := b.buf_.drop b.start_, start_ := 0 }
              else b : FastBuffer).buf_ : Nat) : Int) = b.Size := he1
            rw [he1', hc1]
            omega
      · rw [if_neg hfree] at h
        obtain ⟨d, h1, h2, h3, h4⟩ := FastBuffer.Grow_loop_frame n fuel b r _ res
          (by omega) h
        refine ⟨d, h2, ?_, fun hc => absurd hc.2 (by rw [hsize]; exact hfree),
          fun _ => ⟨?_, ?_⟩, ⟨?_, ?_⟩, fun ho => absurd ho h4⟩
        · rw [h1]
        · rw [h1]
        · rw [h1]
        · rw [h1]
          show b.start_ ≤ (b.buf_ ++ d).length
          rw [List.length_append]
          have : b.start_ ≤ b.buf_.length := hstart
          omega
        · rw [h1]
          show ((b.buf_ ++ d).length : Int) ≤ b.capacity_
          rw [List.length_append]
          push_cast
          have : b.end_ = b.buf_.length := rfl
          omega

/-- C36: `Grow(r, n)` with `n > 0` on a buffer whose cursors are in order, with
fuel above `n`, returns, and whatever it returns the bytes that were readable
before are readable first afterwards, in the same order, followed by the bytes
`d` the reader handed out, which are the front of what it had pending (none
when the result is the buffer overflow).  When the free space behind `end_` is
at least the number of bytes still missing (or nothing is missing), the block
is the old block with `d` behind it and `start_` stays; only when the free
space is smaller do the unread bytes stand at offset 0 afterwards. -/
theorem FastBuffer_Grow_preserves_unread (fuel : Nat) (b : FastBuffer) (r : Reader) (n : Int)
    (hn : 0 < n) (hfuel : n.toNat < fuel) (hinv : b.CursorsOk) :
    ∃ (res : ErrorCode × FastBuffer × Reader) (d : List Nat),
      b.Grow fuel r n = some res ∧
      res.2.1.unread = b.unread ++ d ∧ r.pending = d ++ res.2.2.pending ∧
      (res.1 = .ERROR_READER_BUFFER_OVERFLOW → d = []) ∧
      (¬ (b.Size < n ∧ b.capacity_ - (b.end_ : Int) < n - b.Size) →
        res.2.1.start_ = b.start_ ∧ res.2.1.buf_ = b.buf_ ++ d) ∧
      (b.Size < n ∧ b.capacity_ - (b.end_ : Int) < n - b.Size →
        res.2.1.start_ = 0 ∧ res.2.1.buf_ = b.unread ++ d) := by
  obtain ⟨res, hres, _⟩ := FastBuffer.Grow_cases fuel b r n hn hfuel hinv.1 hinv.2
  obtain ⟨d, h1, _, h3, h4, _, h6⟩ := FastBuffer.Grow_frame fuel b r n hinv res hres
  refine ⟨res, d, hres, ?_, h1, h6, h4, h3⟩
  by_cases hc : b.Size < n ∧ b.capacity_ - (b.end_ : Int) < n - b.Size
  · obtain ⟨e1, e2⟩ := h3 hc
    simp [FastBuffer.unread, e1, e2]
  · obtain ⟨e1, e2⟩ := h4 hc
    have : b.start_ ≤ b.buf_.length := hinv.1
    simp only [FastBuffer.unread, e1, e2]
    exact List.drop_append_of_le_length this

/-- Witness for C36: a block of capacity 8 that holds six bytes, four of them
read; a request for 5 bytes finds 2 bytes free and 3 missing, so the two unread
bytes `05 06` are moved to the start and the reader delivers `07 08 09` behind
them. -/
theorem FastBuffer_Grow_preserves_unread_witness :
    (FastBuffer.Grow 6 ⟨8, [1, 2, 3, 4, 5, 6], 4⟩ (demo_reader [7, 8, 9, 10] 0) 5).map
        (fun res => (res.1, res.2.1, res.2.2.pending)) =
      some (.ERROR_SUCCESS, ⟨8, [5, 6, 7, 8, 9], 0⟩, [10]) ∧
    ∃ (res : ErrorCode × FastBuffer × Reader) (d : List Nat),
      FastBuffer.Grow 6 ⟨8, [1, 2, 3, 4, 5, 6], 4⟩ (demo_reader [7, 8, 9, 10] 0) 5 = some res ∧
      res.2.1.unread = [5, 6] ++ d ∧ [7, 8, 9, 10] = d ++ res.2.2.pending :=
  ⟨by decide,
    (FastBuffer_Grow_preserves_unread 6 ⟨8, [1, 2, 3, 4, 5, 6], 4⟩ (demo_reader [7, 8, 9, 10] 0)
      5 (by decide) (by decide) ⟨by decide, by decide⟩).imp
      (fun _ h => h.imp (fun _ h2 => ⟨h2.1, h2.2.1, h2.2.2.1⟩))⟩

/-- C40: a new `FastBuffer` satisfies `buf_ <= start_ <= end_ <= buf_ +
capacity_`, and on a buffer that satisfies it: `Grow(r, n)` with `n > 0` (the
reader hands out between 1 and the requested number of bytes per call) returns
and leaves a buffer that satisfies it; `Read1Bytes` with `Size() >= 1`,
`ReadSlice(n)` with `0 <= n <= Size()` and `Skip(d)` with
`-(start_ - buf_) <= d <= Size()` pass their assertions and leave a buffer that
satisfies it; and `Skip(-n)` after `ReadSlice(n)` gives back the buffer as it
was. -/
theorem FastBuffer_cursor_invariant (b : FastBuffer) (hinv : b.CursorsOk) :
    FastBuffer.new.CursorsOk ∧
    (∀ (fuel : Nat) (r : Reader) (n : Int), 0 < n → n.toNat < fuel →
      ∃ res, b.Grow fuel r n = some res ∧ res.2.1.CursorsOk) ∧
    (1 ≤ b.Size → ∃ x b1, b.Read1Bytes = some (x, b1) ∧ b1.CursorsOk) ∧
    (∀ n : Int, 0 ≤ n → n ≤ b.Size →
      ∃ s b1, b.ReadSlice n = some (s, b1) ∧ b1.CursorsOk ∧ b1.Skip (-n) = some b) ∧
    (∀ d : Int, -(b.start_ : Int) ≤ d → d ≤ b.Size →
      ∃ b1, b.Skip d = some b1 ∧ b1.CursorsOk) := by
  obtain ⟨hstart, hend⟩ := hinv
  have hsize : b.Size = (b.end_ : Int) - b.start_ := rfl
  refine ⟨?_, ?_, ?_, ?_, ?_⟩
  · constructor
    · exact Nat.le_refl _
    · show ((0 : Nat) : Int) ≤ 131072
      decide
  · intro fuel r n hn hfuel
    obtain ⟨res, hres, _⟩ := FastBuffer.Grow_cases fuel b r n hn hfuel hstart hend
    obtain ⟨d, _, _, _, _, h5, _⟩ := FastBuffer.Grow_frame fuel b r n ⟨hstart, hend⟩ res hres
    exact ⟨res, hres, h5⟩
  · intro h1
    refine ⟨b.buf_.getD b.start_ 0, { b with start_ := b.start_ + 1 }, ?_, ?_, ?_⟩
    · unfold FastBuffer.Read1Bytes
      rw [if_pos h1]
    · show b.start_ + 1 ≤ b.end_
      omega
    · exact hend
  · intro n h0 hn
    have hc : n ≥ 0 ∧ b.Size ≥ n ∧ (b.start_ : Int) + n ≥ 0 := ⟨h0, hn, by omega⟩
    refine ⟨(b.buf_.drop b.start_).take n.toNat,
      { b with start_ := ((b.start_ : Int) + n).toNat }, ?_, ⟨?_, ?_⟩, ?_⟩
    · unfold FastBuffer.ReadSlice
      rw [if_pos hc]
    · show ((b.start_ : Int) + n).toNat ≤ b.end_
      omega
    · exact hend
    · unfold FastBuffer.Skip
      have he : ((((b.start_ : Int) + n).toNat : Nat) : Int) = (b.start_ : Int) + n :=
        Int.toNat_of_nonneg (by omega)
      have hc2 : FastBuffer.Size { b with start_ := ((b.start_ : Int) + n).toNat } ≥ -n ∧
          ((({ b with start_ := ((b.start_ : Int) + n).toNat } : FastBuffer).start_ : Nat) : Int)
            + -n ≥ 0 := by
        constructor
        · show (b.end_ : Int) - ((((b.start_ : Int) + n).toNat : Nat) : Int) ≥ -n
          omega
        · show ((((b.start_ : Int) + n).toNat : Nat) : Int) + -n ≥ 0
          omega
      rw [if_pos hc2]
      simp only [he]
      have : ((b.start_ : Int) + n + -n).toNat = b.start_ := by omega
      rw [this]
  · intro d h0 hd
    have hc : b.Size ≥ d ∧ (b.start_ : Int) + d ≥ 0 := ⟨hd, by omega⟩
    refine ⟨{ b with start_ := ((b.start_ : Int) + d).toNat }, ?_, ?_, ?_⟩
    · unfold FastBuffer.Skip
      rw [if_pos hc]
    · show ((b.start_ : Int) + d).toNat ≤ b.end_
      omega
    · exact hend

/-- Witness for C40: a block of capacity 8 that holds six bytes, four of them
read. -/
theorem FastBuffer_cursor_invariant_witness :
    FastBuffer.CursorsOk ⟨8, [1, 2, 3, 4, 5, 6], 4⟩ ∧
    FastBuffer.ReadSlice ⟨8, [1, 2, 3, 4, 5, 6], 4⟩ 2 = some ([5, 6], ⟨8, [1, 2, 3, 4, 5, 6], 6⟩) ∧
    FastBuffer.Skip ⟨8, [1, 2, 3, 4, 5, 6], 6⟩ (-2) = some ⟨8, [1, 2, 3, 4, 5, 6], 4⟩ ∧
    ∃ s b1, FastBuffer.ReadSlice ⟨8, [1, 2, 3, 4, 5, 6], 4⟩ 2 = some (s, b1) ∧ b1.CursorsOk ∧
      b1.Skip (-2) = some ⟨8, [1, 2, 3, 4, 5, 6], 4⟩ :=
  ⟨⟨by decide, by decide⟩, by decide, by decide,
    (FastBuffer_cursor_invariant ⟨8, [1, 2, 3, 4, 5, 6], 4⟩ ⟨by decide, by decide⟩).2.2.2.1 2
      (by decide) (by decide)⟩

/-! ## Bounds of the FULL algorithm -/

/-- C37: for every sequence of audio and video messages that one `Jitter`, in
whatever state it is, corrects in FULL mode, and whatever the input timestamps
are, every output timestamp is at least 0 and the absolute difference between
two consecutive output timestamps is at most 250. -/
theorem Jitter_full_outputs_bounded (j : Jitter) (msgs : List SharedPtrMessage)
    (hav : ∀ m ∈ msgs, m.IsAV = true) :
    (∀ t ∈ (Jitter.CorrectAll .FULL j msgs).map (fun m => m.timestamp), 0 ≤ t) ∧
    List.Chain' (fun a b => |b - a| ≤ 250)
      ((Jitter.CorrectAll .FULL j msgs).map (fun m => m.timestamp)) := by
  cases msgs with
  | nil => simp [Jitter.CorrectAll]
  | cons m rest =>
    have hm : m.IsAV = true := hav m (List.mem_cons_self _ _)
    have hfirst : (j.Correct m .FULL).2.2.timestamp =
          (j.Correct m .FULL).2.1.last_pkt_correct_time_ ∧
        0 ≤ (j.Correct m .FULL).2.1.last_pkt_correct_time_ := by
      unfold Jitter.Correct
      simp only [hm, RTMP_MAX_JITTER_MS, RTMP_MAX_JITTER_MS_NEG, RTMP_DEFAULT_FRAME_TIME_MS,
        rs_max]
      simp only [ne_eq, not_true_eq_false, if_false, Bool.true_eq_false]
      refine ⟨trivial, ?_⟩
      split_ifs <;> omega
    obtain ⟨f2, f3⟩ := hfirst
    obtain ⟨i1, i2, _⟩ := Jitter.CorrectAll_full_chain rest (j.Correct m .FULL).2.1 f3
      (fun x hx => hav x (List.mem_cons_of_mem _ hx))
    simp only [Jitter.CorrectAll, List.map_cons, List.mem_cons, List.Chain', f2]
    refine ⟨?_, ?_⟩
    · intro t ht
      rcases ht with ht | ht
      · rw [ht]
        exact f3
      · exact i1 t ht
    · refine List.Chain.imp ?_ i2
      intro a b hab
      rw [abs_le]
      exact hab

/-- Witness for C37: the video timestamps 0, 5000, 4900, 10 come out as 0, 40,
0, 40. -/
theorem Jitter_full_outputs_bounded_witness :
    (Jitter.CorrectAll .FULL Jitter.new [⟨0, 9⟩, ⟨5000, 9⟩, ⟨4900, 9⟩, ⟨10, 8⟩]).map
        (fun m => m.timestamp) = [0, 40, 0, 40] ∧
    List.Chain' (fun a b => |b - a| ≤ 250)
      ((Jitter.CorrectAll .FULL Jitter.new [⟨0, 9⟩, ⟨5000, 9⟩, ⟨4900, 9⟩, ⟨10, 8⟩]).map
        (fun m => m.timestamp)) :=
  ⟨by decide,
    (Jitter_full_outputs_bounded Jitter.new [⟨0, 9⟩, ⟨5000, 9⟩, ⟨4900, 9⟩, ⟨10, 8⟩]
      (by decide)).2⟩

/-! ## The two implementations of `ReadMessagePayload` -/

/-- C38: on a chunk stream whose message in progress has size 0 (no payload byte
has been received), the older `ReadMessagePayload` of `protocol/rtmp_stack.cpp`
and the one of `protocol/rtmp/stack.cpp` return the same result code, buffer,
chunk stream and message.  When the payload length `L` is positive and the
buffer delivers `k = min(L, in_chunk_size)` bytes, both consume exactly these
`k` bytes and leave a message of size `k` whose payload is these bytes: handed
out, with the slot empty, when `k = L`, and kept in the slot otherwise.  In
particular a message with `L <= in_chunk_size` is handed out complete by both. -/
theorem ReadMessagePayload_first_chunk_agree (c : Int) (b : InBuffer) (cs : ChunkStream)
    (m : CommonMessage) (hmsg : cs.msg = some m) (hsize : m.size = 0) :
    rtmp_stack.ReadMessagePayload c b cs = ReadMessagePayload c b cs ∧
    (0 < cs.header.payload_length →
      b.Grow (rs_min cs.header.payload_length c) = .ERROR_SUCCESS →
      (rtmp_stack.ReadMessagePayload c b cs).1 = .ERROR_SUCCESS ∧
      (rtmp_stack.ReadMessagePayload c b cs).2.1 =
        b.advance (rs_min cs.header.payload_length c).toNat ∧
      (rs_min cs.header.payload_length c = cs.header.payload_length →
        (rtmp_stack.ReadMessagePayload c b cs).2.2.2 =
          some ⟨m.header, cs.header.payload_length,
            some (b.unread.take cs.header.payload_length.toNat)⟩ ∧
        (rtmp_stack.ReadMessagePayload c b cs).2.2.1.msg = none) ∧
      (rs_min cs.header.payload_length c ≠ cs.header.payload_length →
        (rtmp_stack.ReadMessagePayload c b cs).2.2.2 = none ∧
        (rtmp_stack.ReadMessagePayload c b cs).2.2.1.msg =
          some ⟨m.header, rs_min cs.header.payload_length c,
            some (b.unread.take (rs_min cs.header.payload_length c).toNat)⟩)) ∧
    (cs.header.payload_length ≤ c →
      rs_min cs.header.payload_length c = cs.header.payload_length) := by
  have heq : rtmp_stack.ReadMessagePayload c b cs = ReadMessagePayload c b cs := by
    unfold rtmp_stack.ReadMessagePayload ReadMessagePayload
    simp only [hmsg, hsize, sub_zero]
  refine ⟨heq, ?_, ?_⟩
  · intro hpl hg
    rw [heq]
    have hk : rs_min (cs.header.payload_length - m.size) c = rs_min cs.header.payload_length c := by
      rw [hsize, sub_zero]
    have h := ReadMessagePayload_chunk c b cs m _ hmsg hpl hk hg
    rw [hsize] at h
    simp only [zero_add, Int.toNat_zero, List.take_zero, List.nil_append] at h
    by_cases he : rs_min cs.header.payload_length c = cs.header.payload_length
    · rw [if_pos he.symm] at h
      rw [h]
      refine ⟨rfl, rfl, fun _ => ⟨?_, rfl⟩, fun hne => absurd he hne⟩
      simp only [he]
    · rw [if_neg (fun h' => he h'.symm)] at h
      rw [h]
      exact ⟨rfl, rfl, fun h' => absurd h' he, fun _ => ⟨rfl, rfl⟩⟩
  · intro hle
    unfold rs_min
    split_ifs with h1
    · rfl
    · omega

/-- Witness for C38: a message of 3 bytes with the chunk size 128; both
implementations hand out the message `01 02 03`. -/
theorem ReadMessagePayload_first_chunk_agree_witness :
    rtmp_stack.ReadMessagePayload 128 (buffer_of [1, 2, 3])
        { ChunkStream.new 3 with
            msg := some ⟨demo_header 3, 0, none⟩, header := demo_header 3 } =
      ReadMessagePayload 128 (buffer_of [1, 2, 3])
        { ChunkStream.new 3 with
            msg := some ⟨demo_header 3, 0, none⟩, header := demo_header 3 } ∧
    (rtmp_stack.ReadMessagePayload 128 (buffer_of [1, 2, 3])
        { ChunkStream.new 3 with
            msg := some ⟨demo_header 3, 0, none⟩, header := demo_header 3 }).2.2.2 =
      some ⟨demo_header 3, 3, some [1, 2, 3]⟩ :=
  have h := ReadMessagePayload_first_chunk_agree 128 (buffer_of [1, 2, 3])
    { ChunkStream.new 3 with msg := some ⟨demo_header 3, 0, none⟩, header := demo_header 3 }
    ⟨demo_header 3, 0, none⟩ rfl rfl
  ⟨h.1, ((h.2.1 (by decide) (by decide)).2.2.1 (by decide)).1⟩

end rtmp
